import Mathlib

/-!
# Verification of `aos_communicationmanager` claims

Shallow embedding of the placement/balancer (`src/launcher/launcher.go`) and the
group downloader (`src/unitstatushandler/groupdownloader.go`) of the
`aoscloud/aos_communicationmanager` repository, together with proofs and
refutations of the frozen claims C1..C10.

Conventions of the embedding:
* Go maps are modelled as association lists in a fixed order; Go's randomized
  map-iteration order is thus resolved to the list order, with the list itself
  universally quantified where an order-independent fact is claimed.
* Go `int`/`uint64` values are modelled as `Int`/`Nat`; the one narrowing cast
  (`uint32(uid)`) is written with an explicit `% 2^32`.
* Fallible Go calls return `Except String`/`Option String`; external
  collaborators (image provider, monitoring, network manager, state-storage
  provider) are parameters of the embedding (`Env`), so every run of an
  embedded function is a deterministic function of the collaborators' answers.
* Goroutines of the group downloader are sequentialized: all `Download` starts
  run first (in request order, with the `break` of the source preserved), then
  all `Wait` results are processed in start order.  Per-item results do not
  depend on the interleaving, only on the collaborator answers, which are
  inputs.
-/

namespace Aos

/-! ## String containment (Go `strings.Contains`) -/

/-- Char-list prefix test, used to implement substring containment. -/
def hasPrefixChars : List Char → List Char → Bool
  | [], _ => true
  | _ :: _, [] => false
  | a :: as, b :: bs => a == b && hasPrefixChars as bs

/-- Char-list substring containment. -/
def hasSubChars (hay needle : List Char) : Bool :=
  match hay with
  | [] => needle.isEmpty
  | _ :: t => hasPrefixChars needle hay || hasSubChars t needle

/-- Go `strings.Contains(s, sub)`. -/
def strContains (s sub : String) : Bool :=
  hasSubChars s.data sub.data

/-! ## Group downloader (`src/unitstatushandler/groupdownloader.go`) -/

/-- `context.Canceled.Error()` of the Go standard library. -/
def contextCanceledMsg : String := "context canceled"

/-- `aoserrors.Wrap(err).Error()` preserves the wrapped error's message. -/
def wrapError (s : String) : String := s

/-- `isCancelError` (groupdownloader.go:156-158):
`strings.Contains(errString, context.Canceled.Error())`. -/
def isCancelError (errString : String) : Bool :=
  strContains errString contextCanceledMsg

/-- `cloudprotocol.DownloadingStatus`. -/
def downloadingStatus : String := "downloading"

/-- `cloudprotocol.DownloadedStatus`. -/
def downloadedStatus : String := "downloaded"

/-- `cloudprotocol.ErrorStatus`. -/
def errorStatus : String := "error"

/-- `downloadResult` (groupdownloader.go:35-38). -/
structure DownloadResult where
  fileName : String
  error : String
  deriving Repr, DecidableEq

/-- The collaborator answers for one requested item: the error returned by the
`Download` call, the file name of the returned handle and the error returned by
its `Wait`. -/
structure ItemOutcome where
  startErr : Option String
  fileName : String
  waitErr : Option String
  deriving Repr, DecidableEq

/-- One `updateStatus(id, status, componentErr)` callback invocation. -/
structure StatusEvent where
  id : String
  status : String
  errMsg : String
  deriving Repr, DecidableEq

/-- Mutable state of one `groupDownloader.download` call: the result map (an
association list keyed by item id), the cancellation state of `downloadCtx`,
and the trace of status callbacks. -/
structure GDState where
  result : List (String × DownloadResult)
  canceled : Bool
  statuses : List StatusEvent
  deriving Repr, DecidableEq

/-- Update the entry of key `k` in an association list (Go `result[id].X = v`;
keys are unique in a Go map, so only the first occurrence is updated). -/
def updAssoc (k : String) (f : DownloadResult → DownloadResult) :
    List (String × DownloadResult) → List (String × DownloadResult)
  | [] => []
  | (k', v) :: rest =>
    if k' = k then (k', f v) :: rest else (k', v) :: updAssoc k f rest

/-- Association-list lookup (`result[id]`). -/
def lookupAssoc (k : String) : List (String × DownloadResult) → Option DownloadResult
  | [] => none
  | (k', v) :: rest => if k' = k then some v else lookupAssoc k rest

/-- `handleError` (groupdownloader.go:70-79). -/
def handleError (continueOnError : Bool) (id e : String) (st : GDState) : GDState :=
  let errorStr := wrapError e
  let st :=
    if !isCancelError errorStr then
      { st with
        result := updAssoc id (fun r => { r with error := errorStr }) st.result
        statuses := st.statuses ++ [⟨id, errorStatus, errorStr⟩] }
    else st
  if !continueOnError then { st with canceled := true } else st

/-- The start loop of `download` (groupdownloader.go:81-107): starts each item,
handles start errors (breaking when `continueOnError` is false), records file
names and collects the items whose `Wait` goroutine was spawned. -/
def startLoop (continueOnError : Bool) :
    List (String × ItemOutcome) → GDState → GDState × List (String × ItemOutcome)
  | [], st => (st, [])
  | (id, o) :: rest, st =>
    match o.startErr with
    | some e =>
      let st := handleError continueOnError id e st
      if !continueOnError then (st, [])
      else startLoop continueOnError rest st
    | none =>
      let st :=
        { st with result := updAssoc id (fun r => { r with fileName := o.fileName }) st.result }
      let rec' := startLoop continueOnError rest st
      (rec'.1, (id, o) :: rec'.2)

/-- The `Wait` goroutines of `download` (groupdownloader.go:97-106),
sequentialized in start order. -/
def waitLoop (continueOnError : Bool) :
    List (String × ItemOutcome) → GDState → GDState
  | [], st => st
  | (id, o) :: rest, st =>
    let st :=
      match o.waitErr with
      | some e => handleError continueOnError id e st
      | none => { st with statuses := st.statuses ++ [⟨id, downloadedStatus, ""⟩] }
    waitLoop continueOnError rest st

/-- The cancellation sweep of `download` (groupdownloader.go:111-121): when the
download context is cancelled, every result entry with an empty error is marked
with the wrapped cancellation error. -/
def cancelSweep (st : GDState) : GDState :=
  if st.canceled then
    { st with
      result := st.result.map fun p =>
        if p.2.error = "" then (p.1, { p.2 with error := wrapError contextCanceledMsg }) else p
      statuses := st.statuses ++ st.result.filterMap fun p =>
        if p.2.error = "" then some ⟨p.1, errorStatus, wrapError contextCanceledMsg⟩ else none }
  else st

/-- The state after the initialization loop of `download`
(groupdownloader.go:57-63): a result entry and a `downloading` status for every
requested id; `downloadCtx` starts out cancelled iff the parent context is. -/
def gdInit (parentCanceled : Bool) (request : List (String × ItemOutcome)) : GDState :=
  { result := request.map fun p => (p.1, ⟨"", ""⟩)
    canceled := parentCanceled
    statuses := request.map fun p => ⟨p.1, downloadingStatus, ""⟩ }

/-- `groupDownloader.download` (groupdownloader.go:54-124).  `parentCanceled`
models `ctx` (the parent context) being cancelled; `request` is the request map
in iteration order. -/
def download (continueOnError parentCanceled : Bool)
    (request : List (String × ItemOutcome)) : GDState :=
  let st0 := gdInit parentCanceled request
  let res := startLoop continueOnError request st0
  let st2 := waitLoop continueOnError res.2 res.1
  cancelSweep st2

/-- `getDownloadError` (groupdownloader.go:146-154). -/
def getDownloadError (result : List (String × DownloadResult)) : String :=
  match result.find? (fun p => p.2.error != "" && !isCancelError p.2.error) with
  | some p => p.2.error
  | none => ""

/-! ### Analysis of the group downloader -/

/-- The items actually examined by the start loop: when `continueOnError` is
false the loop breaks at the first failed `Download` call. -/
def processedPrefix (continueOnError : Bool) :
    List (String × ItemOutcome) → List (String × ItemOutcome)
  | [] => []
  | x :: rest =>
    if x.2.startErr.isSome && !continueOnError then [x]
    else x :: processedPrefix continueOnError rest

theorem processedPrefix_subset {c : Bool} {l : List (String × ItemOutcome)}
    {x : String × ItemOutcome} (h : x ∈ processedPrefix c l) : x ∈ l := by
  induction l with
  | nil => simp [processedPrefix] at h
  | cons y rest ih =>
    by_cases hb : y.2.startErr.isSome && !c
    · simp [processedPrefix, hb] at h
      simp [h]
    · simp [processedPrefix, hb] at h
      rcases h with h | h
      · simp [h]
      · exact List.mem_cons_of_mem _ (ih h)

theorem updAssoc_map_fst (k : String) (f : DownloadResult → DownloadResult)
    (l : List (String × DownloadResult)) :
    (updAssoc k f l).map Prod.fst = l.map Prod.fst := by
  induction l with
  | nil => rfl
  | cons p rest ih =>
    by_cases h : p.1 = k <;> simp [updAssoc, h, ih]

theorem lookupAssoc_updAssoc_self (k : String) (f : DownloadResult → DownloadResult)
    (l : List (String × DownloadResult)) :
    lookupAssoc k (updAssoc k f l) = (lookupAssoc k l).map f := by
  induction l with
  | nil => rfl
  | cons p rest ih =>
    by_cases h : p.1 = k <;> simp [updAssoc, lookupAssoc, h, ih]

theorem lookupAssoc_updAssoc_ne {k k' : String} (h : k' ≠ k)
    (f : DownloadResult → DownloadResult) (l : List (String × DownloadResult)) :
    lookupAssoc k' (updAssoc k f l) = lookupAssoc k' l := by
  induction l with
  | nil => rfl
  | cons p rest ih =>
    by_cases hk : p.1 = k
    · subst hk
      simp [updAssoc, lookupAssoc, Ne.symm h]
    · by_cases hk' : p.1 = k' <;> simp [updAssoc, lookupAssoc, hk, hk', ih, h]

theorem handleError_lookup_self (c : Bool) (id e : String) (st : GDState) :
    lookupAssoc id (handleError c id e st).result =
      (lookupAssoc id st.result).map fun r =>
        if isCancelError e then r else { r with error := e } := by
  by_cases hc : isCancelError e <;> by_cases hco : c <;>
    cases h : lookupAssoc id st.result <;>
      simp [handleError, wrapError, hc, hco, lookupAssoc_updAssoc_self, h]

theorem handleError_lookup_ne (c : Bool) {id id' : String} (h : id' ≠ id) (e : String)
    (st : GDState) :
    lookupAssoc id' (handleError c id e st).result = lookupAssoc id' st.result := by
  by_cases hc : isCancelError e <;> by_cases hco : c <;>
    simp [handleError, wrapError, hc, hco, lookupAssoc_updAssoc_ne h]

theorem handleError_canceled (c : Bool) (id e : String) (st : GDState) :
    (handleError c id e st).canceled = (st.canceled || !c) := by
  by_cases hc : isCancelError e <;> by_cases hco : c <;>
    simp [handleError, wrapError, hc, hco]

theorem handleError_statuses (c : Bool) (id e : String) (st : GDState) :
    (handleError c id e st).statuses =
      st.statuses ++ (if isCancelError e then [] else [⟨id, errorStatus, e⟩]) := by
  by_cases hc : isCancelError e <;> by_cases hco : c <;>
    simp [handleError, wrapError, hc, hco]

theorem handleError_map_fst (c : Bool) (id e : String) (st : GDState) :
    (handleError c id e st).result.map Prod.fst = st.result.map Prod.fst := by
  by_cases hc : isCancelError e <;> by_cases hco : c <;>
    simp [handleError, wrapError, hc, hco, updAssoc_map_fst]

theorem processedPrefix_cons_of_true {c : Bool} (hc : c = true)
    (x : String × ItemOutcome) (rest : List (String × ItemOutcome)) :
    processedPrefix c (x :: rest) = x :: processedPrefix c rest := by
  simp [processedPrefix, hc]

theorem processedPrefix_cons_of_none {c : Bool} {x : String × ItemOutcome}
    (he : x.2.startErr = none) (rest : List (String × ItemOutcome)) :
    processedPrefix c (x :: rest) = x :: processedPrefix c rest := by
  simp [processedPrefix, he]

theorem processedPrefix_cons_break {c : Bool} {x : String × ItemOutcome} {e : String}
    (he : x.2.startErr = some e) (hc : c = false) (rest : List (String × ItemOutcome)) :
    processedPrefix c (x :: rest) = [x] := by
  simp [processedPrefix, he, hc]

/-- Items never examined by the start loop keep their result entry. -/
theorem startLoop_not_mem (c : Bool) (items : List (String × ItemOutcome)) (st : GDState)
    {id : String} (h : ∀ o', (id, o') ∉ processedPrefix c items) :
    lookupAssoc id (startLoop c items st).1.result = lookupAssoc id st.result := by
  induction items generalizing st with
  | nil => rfl
  | cons x rest ih =>
    obtain ⟨id0, o0⟩ := x
    have hne : id ≠ id0 := by
      intro hh
      subst hh
      cases he : o0.startErr with
      | none => exact h o0 (by rw [processedPrefix_cons_of_none he] ; exact List.mem_cons_self _ _)
      | some e =>
        cases hc : c with
        | false => exact h o0 (by rw [processedPrefix_cons_break he hc] ; exact List.mem_cons_self _ _)
        | true => exact h o0 (by rw [processedPrefix_cons_of_true hc] ; exact List.mem_cons_self _ _)
    cases he : o0.startErr with
    | none =>
      have hrest : ∀ o', (id, o') ∉ processedPrefix c rest := fun o' hm =>
        h o' (by rw [processedPrefix_cons_of_none he] ; exact List.mem_cons_of_mem _ hm)
      simp only [startLoop, he]
      rw [ih _ hrest]
      exact lookupAssoc_updAssoc_ne hne _ _
    | some e =>
      cases hc : c with
      | false =>
        subst hc
        simp only [startLoop, he, Bool.not_false, if_true]
        exact handleError_lookup_ne false hne e st
      | true =>
        subst hc
        have hrest : ∀ o', (id, o') ∉ processedPrefix true rest := fun o' hm =>
          h o' (by rw [processedPrefix_cons_of_true rfl] ; exact List.mem_cons_of_mem _ hm)
        simp only [startLoop, he, Bool.not_true]
        simp only [Bool.false_eq_true, if_false]
        rw [ih _ hrest]
        exact handleError_lookup_ne true hne e st

/-- Result entry of an item examined by the start loop. -/
theorem startLoop_mem (c : Bool) (items : List (String × ItemOutcome)) (st : GDState)
    {id : String} {o : ItemOutcome} (hnd : (items.map Prod.fst).Nodup)
    (hmem : (id, o) ∈ processedPrefix c items) :
    lookupAssoc id (startLoop c items st).1.result =
      (lookupAssoc id st.result).map fun r =>
        match o.startErr with
        | some e => if isCancelError e then r else { r with error := e }
        | none => { r with fileName := o.fileName } := by
  induction items generalizing st with
  | nil => simp [processedPrefix] at hmem
  | cons x rest ih =>
    obtain ⟨id0, o0⟩ := x
    simp only [List.map_cons, List.nodup_cons] at hnd
    obtain ⟨hhead, htail⟩ := hnd
    have hnotrest : ∀ {o' : ItemOutcome}, (id0, o') ∈ processedPrefix c rest → False := by
      intro o' hm
      exact hhead (List.mem_map_of_mem Prod.fst (processedPrefix_subset hm))
    cases he : o0.startErr with
    | none =>
      rw [processedPrefix_cons_of_none he] at hmem
      simp only [startLoop, he]
      rcases List.mem_cons.mp hmem with heq | hmemrest
      · have h1 : id = id0 := congrArg Prod.fst heq
        have h2 : o = o0 := congrArg Prod.snd heq
        subst h1
        subst h2
        rw [startLoop_not_mem c rest _ fun o' hm => hnotrest hm]
        rw [lookupAssoc_updAssoc_self]
        cases lookupAssoc id st.result <;> simp [he]
      · have hne : id ≠ id0 := by
          intro hh
          subst hh
          exact hnotrest hmemrest
        rw [ih _ htail hmemrest]
        rw [lookupAssoc_updAssoc_ne hne]
    | some e =>
      cases hc : c with
      | false =>
        subst hc
        rw [processedPrefix_cons_break he rfl] at hmem
        simp only [List.mem_singleton] at hmem
        have h1 : id = id0 := congrArg Prod.fst hmem
        have h2 : o = o0 := congrArg Prod.snd hmem
        subst h1
        subst h2
        simp only [startLoop, he, Bool.not_false, if_true]
        rw [handleError_lookup_self]
      | true =>
        subst hc
        rw [processedPrefix_cons_of_true rfl] at hmem
        simp only [startLoop, he, Bool.not_true]
        simp only [Bool.false_eq_true, if_false]
        rcases List.mem_cons.mp hmem with heq | hmemrest
        · have h1 : id = id0 := congrArg Prod.fst heq
          have h2 : o = o0 := congrArg Prod.snd heq
          subst h1
          subst h2
          rw [startLoop_not_mem true rest _ fun o' hm => hnotrest hm]
          rw [handleError_lookup_self]
          cases lookupAssoc id st.result <;> simp [he]
        · have hne : id ≠ id0 := by
            intro hh
            subst hh
            exact hnotrest hmemrest
          rw [ih _ htail hmemrest]
          rw [handleError_lookup_ne true hne e st]

theorem startLoop_canceled (c : Bool) (items : List (String × ItemOutcome)) (st : GDState) :
    (startLoop c items st).1.canceled =
      (st.canceled || (!c && (processedPrefix c items).any fun x => x.2.startErr.isSome)) := by
  induction items generalizing st with
  | nil => simp [startLoop, processedPrefix]
  | cons x rest ih =>
    obtain ⟨id0, o0⟩ := x
    cases he : o0.startErr with
    | none =>
      rw [processedPrefix_cons_of_none he]
      simp only [startLoop, he]
      rw [ih]
      simp [he]
    | some e =>
      cases hc : c with
      | false =>
        subst hc
        rw [processedPrefix_cons_break he rfl]
        simp only [startLoop, he, Bool.not_false, if_true]
        rw [handleError_canceled]
        simp [he]
      | true =>
        subst hc
        rw [processedPrefix_cons_of_true rfl]
        simp only [startLoop, he, Bool.not_true]
        simp only [Bool.false_eq_true, if_false]
        rw [ih]
        rw [handleError_canceled]
        simp

theorem startLoop_started (c : Bool) (items : List (String × ItemOutcome)) (st : GDState) :
    (startLoop c items st).2 =
      (processedPrefix c items).filter fun x => x.2.startErr.isNone := by
  induction items generalizing st with
  | nil => simp [startLoop, processedPrefix]
  | cons x rest ih =>
    obtain ⟨id0, o0⟩ := x
    cases he : o0.startErr with
    | none =>
      rw [processedPrefix_cons_of_none he]
      simp only [startLoop, he]
      rw [ih]
      simp [he]
    | some e =>
      cases hc : c with
      | false =>
        subst hc
        rw [processedPrefix_cons_break he rfl]
        simp [startLoop, he]
      | true =>
        subst hc
        rw [processedPrefix_cons_of_true rfl]
        simp only [startLoop, he, Bool.not_true]
        simp only [Bool.false_eq_true, if_false]
        rw [ih]
        simp [he]

/-- The status events appended by the start loop for one processed item. -/
def startEventsOf (id : String) (o : ItemOutcome) : List StatusEvent :=
  match o.startErr with
  | some e => if isCancelError e then [] else [⟨id, errorStatus, e⟩]
  | none => []

theorem startLoop_statuses (c : Bool) (items : List (String × ItemOutcome)) (st : GDState) :
    (startLoop c items st).1.statuses =
      st.statuses ++ (processedPrefix c items).flatMap fun x => startEventsOf x.1 x.2 := by
  induction items generalizing st with
  | nil => simp [startLoop, processedPrefix]
  | cons x rest ih =>
    obtain ⟨id0, o0⟩ := x
    cases he : o0.startErr with
    | none =>
      rw [processedPrefix_cons_of_none he]
      simp only [startLoop, he]
      rw [ih]
      simp [startEventsOf, he]
    | some e =>
      cases hc : c with
      | false =>
        subst hc
        rw [processedPrefix_cons_break he rfl]
        simp only [startLoop, he, Bool.not_false, if_true]
        rw [handleError_statuses]
        by_cases hcan : isCancelError e <;> simp [startEventsOf, he, hcan]
      | true =>
        subst hc
        rw [processedPrefix_cons_of_true rfl]
        simp only [startLoop, he, Bool.not_true]
        simp only [Bool.false_eq_true, if_false]
        rw [ih]
        rw [handleError_statuses]
        by_cases hcan : isCancelError e <;> simp [startEventsOf, he, hcan]

theorem startLoop_map_fst (c : Bool) (items : List (String × ItemOutcome)) (st : GDState) :
    (startLoop c items st).1.result.map Prod.fst = st.result.map Prod.fst := by
  induction items generalizing st with
  | nil => rfl
  | cons x rest ih =>
    obtain ⟨id0, o0⟩ := x
    cases he : o0.startErr with
    | none =>
      simp only [startLoop, he]
      rw [ih]
      simp [updAssoc_map_fst]
    | some e =>
      cases hc : c with
      | false =>
        subst hc
        simp only [startLoop, he, Bool.not_false, if_true]
        exact handleError_map_fst false id0 e st
      | true =>
        subst hc
        simp only [startLoop, he, Bool.not_true]
        simp only [Bool.false_eq_true, if_false]
        rw [ih]
        exact handleError_map_fst true id0 e st

theorem waitLoop_not_mem (c : Bool) (items : List (String × ItemOutcome)) (st : GDState)
    {id : String} (h : ∀ o', (id, o') ∉ items) :
    lookupAssoc id (waitLoop c items st).result = lookupAssoc id st.result := by
  induction items generalizing st with
  | nil => rfl
  | cons x rest ih =>
    obtain ⟨id0, o0⟩ := x
    have hne : id ≠ id0 := by
      intro hh
      subst hh
      exact h o0 (List.mem_cons_self _ _)
    have hrest : ∀ o', (id, o') ∉ rest := fun o' hm => h o' (List.mem_cons_of_mem _ hm)
    cases hw : o0.waitErr with
    | none =>
      simp only [waitLoop, hw]
      exact ih _ hrest
    | some e =>
      simp only [waitLoop, hw]
      rw [ih _ hrest]
      exact handleError_lookup_ne c hne e st

theorem waitLoop_mem (c : Bool) (items : List (String × ItemOutcome)) (st : GDState)
    {id : String} {o : ItemOutcome} (hnd : (items.map Prod.fst).Nodup)
    (hmem : (id, o) ∈ items) :
    lookupAssoc id (waitLoop c items st).result =
      (lookupAssoc id st.result).map fun r =>
        match o.waitErr with
        | some e => if isCancelError e then r else { r with error := e }
        | none => r := by
  induction items generalizing st with
  | nil => simp at hmem
  | cons x rest ih =>
    obtain ⟨id0, o0⟩ := x
    simp only [List.map_cons, List.nodup_cons] at hnd
    obtain ⟨hhead, htail⟩ := hnd
    rcases List.mem_cons.mp hmem with heq | hmemrest
    · have h1 : id = id0 := congrArg Prod.fst heq
      have h2 : o = o0 := congrArg Prod.snd heq
      subst h1
      subst h2
      have hrest : ∀ o', (id, o') ∉ rest := by
        intro o' hm
        exact hhead (List.mem_map_of_mem Prod.fst hm)
      cases hw : o.waitErr with
      | none =>
        simp only [waitLoop, hw]
        rw [waitLoop_not_mem c rest _ hrest]
        cases lookupAssoc id st.result <;> simp [hw]
      | some e =>
        simp only [waitLoop, hw]
        rw [waitLoop_not_mem c rest _ hrest]
        rw [handleError_lookup_self]
    · have hne : id ≠ id0 := by
        intro hh
        subst hh
        exact hhead (List.mem_map_of_mem Prod.fst hmemrest)
      cases hw : o0.waitErr with
      | none =>
        simp only [waitLoop, hw]
        exact ih _ htail hmemrest
      | some e =>
        simp only [waitLoop, hw]
        rw [ih _ htail hmemrest]
        rw [handleError_lookup_ne c hne e st]

theorem waitLoop_canceled (c : Bool) (items : List (String × ItemOutcome)) (st : GDState) :
    (waitLoop c items st).canceled =
      (st.canceled || (!c && items.any fun x => x.2.waitErr.isSome)) := by
  induction items generalizing st with
  | nil => simp [waitLoop]
  | cons x rest ih =>
    obtain ⟨id0, o0⟩ := x
    cases hw : o0.waitErr with
    | none =>
      simp only [waitLoop, hw]
      rw [ih]
      simp [hw]
    | some e =>
      simp only [waitLoop, hw]
      rw [ih]
      rw [handleError_canceled]
      cases c <;> cases st.canceled <;> simp [hw]

/-- The status events appended by the wait goroutine of one started item. -/
def waitEventsOf (id : String) (o : ItemOutcome) : List StatusEvent :=
  match o.waitErr with
  | some e => if isCancelError e then [] else [⟨id, errorStatus, e⟩]
  | none => [⟨id, downloadedStatus, ""⟩]

theorem waitLoop_statuses (c : Bool) (items : List (String × ItemOutcome)) (st : GDState) :
    (waitLoop c items st).statuses =
      st.statuses ++ items.flatMap fun x => waitEventsOf x.1 x.2 := by
  induction items generalizing st with
  | nil => simp [waitLoop]
  | cons x rest ih =>
    obtain ⟨id0, o0⟩ := x
    cases hw : o0.waitErr with
    | none =>
      simp only [waitLoop, hw]
      rw [ih]
      simp [waitEventsOf, hw]
    | some e =>
      simp only [waitLoop, hw]
      rw [ih]
      rw [handleError_statuses]
      by_cases hcan : isCancelError e <;> simp [waitEventsOf, hw, hcan]

theorem waitLoop_map_fst (c : Bool) (items : List (String × ItemOutcome)) (st : GDState) :
    (waitLoop c items st).result.map Prod.fst = st.result.map Prod.fst := by
  induction items generalizing st with
  | nil => rfl
  | cons x rest ih =>
    obtain ⟨id0, o0⟩ := x
    cases hw : o0.waitErr with
    | none =>
      simp only [waitLoop, hw]
      rw [ih]
    | some e =>
      simp only [waitLoop, hw]
      rw [ih]
      exact handleError_map_fst c id0 e st

theorem lookupAssoc_sweepMap (g : DownloadResult → DownloadResult)
    (l : List (String × DownloadResult)) (k : String) :
    lookupAssoc k (l.map fun p => if p.2.error = "" then (p.1, g p.2) else p) =
      (lookupAssoc k l).map fun r => if r.error = "" then g r else r := by
  induction l with
  | nil => rfl
  | cons p rest ih =>
    by_cases herr : p.2.error = ""
    · simp only [List.map_cons, if_pos herr]
      by_cases hk : p.1 = k <;> simp [lookupAssoc, hk, herr, ih]
    · simp only [List.map_cons, if_neg herr]
      by_cases hk : p.1 = k <;> simp [lookupAssoc, hk, herr, ih]

theorem cancelSweep_lookup (st : GDState) (k : String) :
    lookupAssoc k (cancelSweep st).result =
      if st.canceled then
        (lookupAssoc k st.result).map fun r =>
          if r.error = "" then { r with error := contextCanceledMsg } else r
      else lookupAssoc k st.result := by
  by_cases hc : st.canceled
  · have h := lookupAssoc_sweepMap
      (fun r => { r with error := wrapError contextCanceledMsg }) st.result k
    simp only [cancelSweep, hc, if_true]
    simpa [wrapError] using h
  · simp [cancelSweep, hc]

theorem cancelSweep_canceled (st : GDState) : (cancelSweep st).canceled = st.canceled := by
  by_cases hc : st.canceled <;> simp [cancelSweep, hc]

theorem cancelSweep_statuses (st : GDState) :
    (cancelSweep st).statuses =
      st.statuses ++
        (if st.canceled then
          st.result.filterMap fun p =>
            if p.2.error = "" then some ⟨p.1, errorStatus, contextCanceledMsg⟩ else none
        else []) := by
  by_cases hc : st.canceled <;> simp [cancelSweep, hc, wrapError]

/-- Unique value of a key in an association list with `Nodup` keys. -/
theorem keys_nodup_mem_unique {α : Type} {l : List (String × α)}
    (hnd : (l.map Prod.fst).Nodup) {k : String} {a b : α}
    (ha : (k, a) ∈ l) (hb : (k, b) ∈ l) : a = b := by
  induction l with
  | nil => simp at ha
  | cons p rest ih =>
    simp only [List.map_cons, List.nodup_cons] at hnd
    obtain ⟨hhead, htail⟩ := hnd
    have hkey : ∀ {x : α}, (k, x) ∈ rest → k ∈ List.map Prod.fst rest := by
      intro x hx
      exact List.mem_map.mpr ⟨(k, x), hx, rfl⟩
    rcases List.mem_cons.mp ha with haeq | hamem <;> rcases List.mem_cons.mp hb with hbeq | hbmem
    · rw [← haeq] at hbeq
      exact (congrArg Prod.snd hbeq).symm
    · exfalso
      apply hhead
      rw [← haeq]
      exact hkey hbmem
    · exfalso
      apply hhead
      rw [← hbeq]
      exact hkey hamem
    · exact ih htail hamem hbmem

theorem processedPrefix_sublist (c : Bool) (l : List (String × ItemOutcome)) :
    (processedPrefix c l).Sublist l := by
  induction l with
  | nil => simp [processedPrefix]
  | cons x rest ih =>
    by_cases hb : x.2.startErr.isSome && !c
    · simp only [processedPrefix, hb, if_pos]
      exact (List.nil_sublist rest).cons₂ x
    · simp only [processedPrefix, hb, if_neg]
      exact ih.cons₂ x

theorem lookupAssoc_init (request : List (String × ItemOutcome)) {id : String}
    (hmem : id ∈ request.map Prod.fst) :
    lookupAssoc id (request.map fun p => (p.1, (⟨"", ""⟩ : DownloadResult))) =
      some ⟨"", ""⟩ := by
  induction request with
  | nil => simp at hmem
  | cons p rest ih =>
    by_cases hk : p.1 = id
    · simp [lookupAssoc, hk]
    · simp only [List.map_cons, List.mem_cons] at hmem
      rcases hmem with h | h
      · exact absurd h.symm hk
      · simp only [List.map_cons, lookupAssoc, hk, if_neg, if_false]
        exact ih h

theorem any_filter_none_start (l : List (String × ItemOutcome)) :
    ((l.filter fun x => x.2.startErr.isNone).any fun x => x.2.waitErr.isSome) =
      l.any fun x => x.2.startErr.isNone && x.2.waitErr.isSome := by
  induction l with
  | nil => rfl
  | cons x rest ih =>
    by_cases hn : x.2.startErr.isNone <;> simp [hn, ih]

theorem any_congr_mem {l : List (String × ItemOutcome)} {f g : String × ItemOutcome → Bool}
    (h : ∀ x ∈ l, f x = g x) : l.any f = l.any g := by
  induction l with
  | nil => rfl
  | cons x rest ih =>
    simp only [List.any_cons]
    rw [h x (List.mem_cons_self _ _), ih fun y hy => h y (List.mem_cons_of_mem _ hy)]

theorem any_or_split (p q : String × ItemOutcome → Bool) (l : List (String × ItemOutcome)) :
    (l.any fun x => p x || q x) = (l.any p || l.any q) := by
  induction l with
  | nil => rfl
  | cons x rest ih =>
    cases hp : p x <;> cases hq : q x <;> simp [hp, hq, ih]

/-- `downloadCtx.Err() != nil` at the end of `download`: the parent context was
cancelled, or `continueOnError` is false and some examined item failed to start
or failed while downloading. -/
def groupCanceled (c parent : Bool) (request : List (String × ItemOutcome)) : Bool :=
  parent ||
    (!c && (processedPrefix c request).any fun x => x.2.startErr.isSome || x.2.waitErr.isSome)

theorem download_canceled (c parent : Bool) (request : List (String × ItemOutcome)) :
    (download c parent request).canceled = groupCanceled c parent request := by
  unfold download
  rw [cancelSweep_canceled, waitLoop_canceled, startLoop_started, startLoop_canceled]
  rw [any_filter_none_start]
  rw [groupCanceled]
  have hsplit := any_or_split (fun x => x.2.startErr.isSome)
    (fun x => x.2.startErr.isNone && x.2.waitErr.isSome) (processedPrefix c request)
  have hcongr : ((processedPrefix c request).any fun x =>
      x.2.startErr.isSome || (x.2.startErr.isNone && x.2.waitErr.isSome)) =
      ((processedPrefix c request).any fun x => x.2.startErr.isSome || x.2.waitErr.isSome) := by
    apply any_congr_mem
    intro x _
    cases hs : x.2.startErr <;> simp [hs]
  rw [← hcongr, hsplit]
  cases parent <;> cases c <;>
    cases h1 : (processedPrefix false request).any fun x => x.2.startErr.isSome <;>
    simp [h1, gdInit]

/-- The error recorded in the result map for one item by `handleError`: empty
when the item did not fail or when its failure is a cancellation-style error
(which `handleError` does not record). -/
def recordedErrorOf (o : ItemOutcome) : String :=
  match o.startErr with
  | some e => if isCancelError e then "" else e
  | none =>
    match o.waitErr with
    | some e => if isCancelError e then "" else e
    | none => ""

/-- The `Error` field of one item's result entry just before the cancellation
sweep: the recorded error if the item was examined, empty otherwise. -/
def preSweepErrorOf (c : Bool) (request : List (String × ItemOutcome))
    (id : String) (o : ItemOutcome) : String :=
  if (id, o) ∈ processedPrefix c request then recordedErrorOf o else ""

/-- The `FileName` field of one item's result entry after the start loop. -/
def preFileNameOf (c : Bool) (request : List (String × ItemOutcome))
    (id : String) (o : ItemOutcome) : String :=
  if (id, o) ∈ processedPrefix c request ∧ o.startErr = none then o.fileName else ""

/-- The final result entry of one requested item. -/
def finalResultOf (c parent : Bool) (request : List (String × ItemOutcome))
    (id : String) (o : ItemOutcome) : DownloadResult :=
  { fileName := preFileNameOf c request id o
    error :=
      if preSweepErrorOf c request id o = "" ∧ groupCanceled c parent request = true then
        contextCanceledMsg
      else preSweepErrorOf c request id o }

/-- Characterization of the result map of `download` just before the
cancellation sweep. -/
theorem download_pre_sweep_lookup (c parent : Bool) (request : List (String × ItemOutcome))
    (hnd : (request.map Prod.fst).Nodup) {id : String} {o : ItemOutcome}
    (hmem : (id, o) ∈ request) :
    lookupAssoc id (waitLoop c (startLoop c request (gdInit parent request)).2
        (startLoop c request (gdInit parent request)).1).result =
      some ⟨preFileNameOf c request id o, preSweepErrorOf c request id o⟩ := by
  have hidmem : id ∈ request.map Prod.fst := List.mem_map.mpr ⟨(id, o), hmem, rfl⟩
  have hinit : lookupAssoc id (gdInit parent request).result = some ⟨"", ""⟩ :=
    lookupAssoc_init request hidmem
  have hppsub := processedPrefix_sublist c request
  have huniq : ∀ {o' : ItemOutcome}, (id, o') ∈ request → o' = o := fun h' =>
    keys_nodup_mem_unique hnd h' hmem
  have hstarted_eq := startLoop_started c request (gdInit parent request)
  by_cases hproc : (id, o) ∈ processedPrefix c request
  · cases he : o.startErr with
    | none =>
      have hstarted : (id, o) ∈ (startLoop c request (gdInit parent request)).2 := by
        rw [hstarted_eq]
        exact List.mem_filter.mpr ⟨hproc, by simp [he]⟩
      have hndstart : (((startLoop c request (gdInit parent request)).2).map Prod.fst).Nodup := by
        rw [hstarted_eq]
        exact List.Nodup.sublist
          (List.Sublist.map Prod.fst ((List.filter_sublist _).trans hppsub)) hnd
      rw [waitLoop_mem c _ _ hndstart hstarted]
      rw [startLoop_mem c request _ hnd hproc]
      rw [hinit]
      simp only [Option.map_some, he]
      cases hw : o.waitErr with
      | none =>
        simp [preFileNameOf, preSweepErrorOf, recordedErrorOf, hproc, he, hw]
      | some e =>
        by_cases hcanE : isCancelError e <;>
          simp [preFileNameOf, preSweepErrorOf, recordedErrorOf, hproc, he, hw, hcanE]
    | some e =>
      have hnotstart : ∀ o', (id, o') ∉ (startLoop c request (gdInit parent request)).2 := by
        intro o' hmem'
        rw [hstarted_eq] at hmem'
        obtain ⟨hpp', hnone⟩ := List.mem_filter.mp hmem'
        have : o' = o := huniq (hppsub.subset hpp')
        subst this
        rw [he] at hnone
        simp at hnone
      rw [waitLoop_not_mem c _ _ hnotstart]
      rw [startLoop_mem c request _ hnd hproc]
      rw [hinit]
      simp only [Option.map_some, he]
      by_cases hcanE : isCancelError e <;>
        simp [preFileNameOf, preSweepErrorOf, recordedErrorOf, hproc, he, hcanE]
  · have hnotpp : ∀ o', (id, o') ∉ processedPrefix c request := by
      intro o' hmem'
      have : o' = o := huniq (hppsub.subset hmem')
      subst this
      exact hproc hmem'
    have hnotstart : ∀ o', (id, o') ∉ (startLoop c request (gdInit parent request)).2 := by
      intro o' hmem'
      rw [hstarted_eq] at hmem'
      exact hnotpp o' (List.mem_filter.mp hmem').1
    rw [waitLoop_not_mem c _ _ hnotstart]
    rw [startLoop_not_mem c request _ hnotpp]
    rw [hinit]
    simp [preFileNameOf, preSweepErrorOf, hproc]

/-- The cancellation state of `download` just before the sweep equals
`groupCanceled`. -/
theorem download_pre_sweep_canceled (c parent : Bool) (request : List (String × ItemOutcome)) :
    (waitLoop c (startLoop c request (gdInit parent request)).2
        (startLoop c request (gdInit parent request)).1).canceled =
      groupCanceled c parent request := by
  have h := download_canceled c parent request
  rw [download] at h
  rw [cancelSweep_canceled] at h
  exact h

/-- Master characterization of the final result map of `download`. -/
theorem download_result_lookup (c parent : Bool) (request : List (String × ItemOutcome))
    (hnd : (request.map Prod.fst).Nodup) {id : String} {o : ItemOutcome}
    (hmem : (id, o) ∈ request) :
    lookupAssoc id (download c parent request).result =
      some (finalResultOf c parent request id o) := by
  show lookupAssoc id (cancelSweep _).result = _
  rw [cancelSweep_lookup, download_pre_sweep_canceled,
    download_pre_sweep_lookup c parent request hnd hmem]
  by_cases hg : groupCanceled c parent request <;>
    by_cases hpre : preSweepErrorOf c request id o = "" <;>
      simp [finalResultOf, hg, hpre]

/-- The final result map has exactly the keys of the request. -/
theorem download_map_fst (c parent : Bool) (request : List (String × ItemOutcome)) :
    (download c parent request).result.map Prod.fst = request.map Prod.fst := by
  show ((cancelSweep _).result).map Prod.fst = _
  have hsweep : ∀ st : GDState, (cancelSweep st).result.map Prod.fst = st.result.map Prod.fst := by
    intro st
    by_cases hc : st.canceled
    · simp only [cancelSweep, hc, if_true]
      rw [List.map_map]
      apply List.map_congr_left
      intro p _
      by_cases herr : p.2.error = "" <;> simp [herr]
    · simp [cancelSweep, hc]
  rw [hsweep, waitLoop_map_fst, startLoop_map_fst]
  simp [gdInit]

/-- `lookupAssoc` finds only entries of the list. -/
theorem lookupAssoc_mem {l : List (String × DownloadResult)} {k : String} {v : DownloadResult}
    (h : lookupAssoc k l = some v) : (k, v) ∈ l := by
  induction l with
  | nil => simp [lookupAssoc] at h
  | cons p rest ih =>
    by_cases hk : p.1 = k
    · rw [lookupAssoc, if_pos hk] at h
      have hv : p.2 = v := Option.some.inj h
      have hp : p = (k, v) := Prod.ext hk hv
      rw [hp]
      exact List.mem_cons_self _ _
    · rw [lookupAssoc, if_neg hk] at h
      exact List.mem_cons_of_mem _ (ih h)

theorem filter_flatMap_not_mem {β : Type} (l : List (String × β))
    (g : String × β → List StatusEvent) (hg : ∀ x ev, ev ∈ g x → ev.id = x.1)
    {id : String} (h : ∀ b, (id, b) ∉ l) :
    ((l.flatMap g).filter fun ev => ev.id == id) = [] := by
  induction l with
  | nil => rfl
  | cons x rest ih =>
    rw [List.flatMap_cons, List.filter_append]
    have hhead : (g x).filter (fun ev => ev.id == id) = [] := by
      rw [List.filter_eq_nil_iff]
      intro ev hev
      have hid := hg x ev hev
      simp only [beq_iff_eq, hid]
      intro hx
      exact h x.2 (by rw [← hx] ; exact List.mem_cons_self _ _)
    rw [hhead, List.nil_append]
    exact ih fun b hb => h b (List.mem_cons_of_mem _ hb)

theorem filter_flatMap_mem {β : Type} (l : List (String × β))
    (g : String × β → List StatusEvent) (hg : ∀ x ev, ev ∈ g x → ev.id = x.1)
    {id : String} {b : β} (hnd : (l.map Prod.fst).Nodup) (hmem : (id, b) ∈ l) :
    ((l.flatMap g).filter fun ev => ev.id == id) = g (id, b) := by
  induction l with
  | nil => simp at hmem
  | cons x rest ih =>
    simp only [List.map_cons, List.nodup_cons] at hnd
    obtain ⟨hhead, htail⟩ := hnd
    rw [List.flatMap_cons, List.filter_append]
    rcases List.mem_cons.mp hmem with heq | hmemrest
    · have hx : x = (id, b) := heq.symm
      subst hx
      have hself : (g (id, b)).filter (fun ev => ev.id == id) = g (id, b) := by
        rw [List.filter_eq_self]
        intro ev hev
        simp [hg (id, b) ev hev]
      rw [hself]
      have hrest : ((rest.flatMap g).filter fun ev => ev.id == id) = [] := by
        apply filter_flatMap_not_mem _ _ hg
        intro b' hb'
        exact hhead (List.mem_map.mpr ⟨(id, b'), hb', rfl⟩)
      rw [hrest, List.append_nil]
    · have hne : id ≠ x.1 := by
        intro hh
        apply hhead
        rw [← hh]
        exact List.mem_map.mpr ⟨(id, b), hmemrest, rfl⟩
      have hx : (g x).filter (fun ev => ev.id == id) = [] := by
        rw [List.filter_eq_nil_iff]
        intro ev hev
        simp [hg x ev hev, Ne.symm hne]
      rw [hx, List.nil_append]
      exact ih htail hmemrest

theorem filterMap_as_flatMap {α : Type} (f : α → Option StatusEvent) (l : List α) :
    l.filterMap f = l.flatMap fun a => (f a).toList := by
  induction l with
  | nil => rfl
  | cons x rest ih =>
    cases hf : f x <;> simp [List.filterMap_cons, hf, ih]

theorem map_as_flatMap {β : Type} (f : String × β → StatusEvent) (l : List (String × β)) :
    l.map f = l.flatMap fun a => [f a] := by
  induction l with
  | nil => rfl
  | cons x rest ih => simp [ih]

/-- All status events delivered for one requested id, in delivery order. -/
def eventsForSpec (c parent : Bool) (request : List (String × ItemOutcome))
    (id : String) (o : ItemOutcome) : List StatusEvent :=
  ⟨id, downloadingStatus, ""⟩ ::
    ((if (id, o) ∈ processedPrefix c request then startEventsOf id o else []) ++
     (if (id, o) ∈ processedPrefix c request ∧ o.startErr = none then waitEventsOf id o else []) ++
     (if groupCanceled c parent request = true ∧ preSweepErrorOf c request id o = "" then
        [⟨id, errorStatus, contextCanceledMsg⟩] else []))

/-- Master characterization of the status callbacks delivered for one id. -/
theorem download_events_for (c parent : Bool) (request : List (String × ItemOutcome))
    (hnd : (request.map Prod.fst).Nodup) {id : String} {o : ItemOutcome}
    (hmem : (id, o) ∈ request) :
    ((download c parent request).statuses.filter fun ev => ev.id == id) =
      eventsForSpec c parent request id o := by
  have hppsub := processedPrefix_sublist c request
  have hppnd : ((processedPrefix c request).map Prod.fst).Nodup :=
    List.Nodup.sublist (List.Sublist.map Prod.fst hppsub) hnd
  have huniq : ∀ {o' : ItemOutcome}, (id, o') ∈ request → o' = o := fun h' =>
    keys_nodup_mem_unique hnd h' hmem
  show ((cancelSweep _).statuses.filter fun ev => ev.id == id) = _
  rw [cancelSweep_statuses, download_pre_sweep_canceled, waitLoop_statuses, startLoop_statuses,
    startLoop_started]
  have hinitstat : (gdInit parent request).statuses =
      request.map fun p => (⟨p.1, downloadingStatus, ""⟩ : StatusEvent) := rfl
  rw [hinitstat]
  rw [List.filter_append, List.filter_append, List.filter_append]
  have hP0 : ((request.map fun p => (⟨p.1, downloadingStatus, ""⟩ : StatusEvent)).filter
      fun ev => ev.id == id) = [⟨id, downloadingStatus, ""⟩] := by
    rw [map_as_flatMap]
    exact filter_flatMap_mem request _ (by intro x ev hev; simp at hev; simp [hev]) hnd hmem
  have hgstart : ∀ (x : String × ItemOutcome) (ev : StatusEvent),
      ev ∈ startEventsOf x.1 x.2 → ev.id = x.1 := by
    intro x ev hev
    unfold startEventsOf at hev
    cases hs : x.2.startErr with
    | none => rw [hs] at hev ; simp at hev
    | some e =>
      rw [hs] at hev
      by_cases hcanE : isCancelError e <;> simp [hcanE] at hev
      simp [hev]
  have hgwait : ∀ (x : String × ItemOutcome) (ev : StatusEvent),
      ev ∈ waitEventsOf x.1 x.2 → ev.id = x.1 := by
    intro x ev hev
    unfold waitEventsOf at hev
    cases hs : x.2.waitErr with
    | none => rw [hs] at hev ; simp at hev ; simp [hev]
    | some e =>
      rw [hs] at hev
      by_cases hcanE : isCancelError e <;> simp [hcanE] at hev
      simp [hev]
  have hP1 : (((processedPrefix c request).flatMap fun x => startEventsOf x.1 x.2).filter
      fun ev => ev.id == id) =
      (if (id, o) ∈ processedPrefix c request then startEventsOf id o else []) := by
    by_cases hproc : (id, o) ∈ processedPrefix c request
    · rw [if_pos hproc]
      exact filter_flatMap_mem _ _ hgstart hppnd hproc
    · rw [if_neg hproc]
      apply filter_flatMap_not_mem _ _ hgstart
      intro b hb
      have : b = o := huniq (hppsub.subset hb)
      subst this
      exact hproc hb
  have hndstart : (((processedPrefix c request).filter
      fun x => x.2.startErr.isNone).map Prod.fst).Nodup :=
    List.Nodup.sublist (List.Sublist.map Prod.fst (List.filter_sublist _)) hppnd
  have hP2 : ((((processedPrefix c request).filter fun x => x.2.startErr.isNone).flatMap
      fun x => waitEventsOf x.1 x.2).filter fun ev => ev.id == id) =
      (if (id, o) ∈ processedPrefix c request ∧ o.startErr = none then waitEventsOf id o
       else []) := by
    by_cases hproc : (id, o) ∈ processedPrefix c request ∧ o.startErr = none
    · rw [if_pos hproc]
      apply filter_flatMap_mem _ _ hgwait hndstart
      exact List.mem_filter.mpr ⟨hproc.1, by simp [hproc.2]⟩
    · rw [if_neg hproc]
      apply filter_flatMap_not_mem _ _ hgwait
      intro b hb
      obtain ⟨hb1, hb2⟩ := List.mem_filter.mp hb
      have : b = o := huniq (hppsub.subset hb1)
      subst this
      exact hproc ⟨hb1, by simpa using hb2⟩
  have hgsweep : ∀ (x : String × DownloadResult) (ev : StatusEvent),
      ev ∈ ((fun p : String × DownloadResult =>
        if p.2.error = "" then
          some (⟨p.1, errorStatus, contextCanceledMsg⟩ : StatusEvent)
        else none) x).toList →
      ev.id = x.1 := by
    intro x ev hev
    by_cases he : x.2.error = "" <;> simp [he] at hev
    simp [hev]
  have hlook := download_pre_sweep_lookup c parent request hnd hmem
  rw [startLoop_started] at hlook
  have hmem2 := lookupAssoc_mem hlook
  have hkeys : ((waitLoop c ((processedPrefix c request).filter fun x => x.2.startErr.isNone)
      (startLoop c request (gdInit parent request)).1).result.map Prod.fst).Nodup := by
    rw [waitLoop_map_fst, startLoop_map_fst]
    have hgi : (gdInit parent request).result.map Prod.fst = request.map Prod.fst := by
      simp [gdInit]
    rw [hgi]
    exact hnd
  have hP3 : ((if groupCanceled c parent request = true then
      (waitLoop c ((processedPrefix c request).filter fun x => x.2.startErr.isNone)
        (startLoop c request (gdInit parent request)).1).result.filterMap fun p =>
          if p.2.error = "" then
            some (⟨p.1, errorStatus, contextCanceledMsg⟩ : StatusEvent)
          else none
      else []).filter fun ev => ev.id == id) =
      (if groupCanceled c parent request = true ∧ preSweepErrorOf c request id o = "" then
        [(⟨id, errorStatus, contextCanceledMsg⟩ : StatusEvent)] else []) := by
    by_cases hg : groupCanceled c parent request = true
    · rw [if_pos hg]
      rw [filterMap_as_flatMap]
      rw [filter_flatMap_mem _ _ hgsweep hkeys hmem2]
      by_cases hpre : preSweepErrorOf c request id o = "" <;> simp [hpre, hg]
    · rw [if_neg hg]
      simp only [List.filter_nil]
      rw [if_neg fun hh => hg hh.1]
  rw [hP0, hP1, hP2, hP3]
  simp [eventsForSpec]

/-! ### Claims C5, C9, C10 -/

/-- **C5** (confirmed): with `continueOnError=false`, once some examined item
fails with a genuine non-cancellation error (recorded by `handleError`), the
whole group is cancelled; every item whose non-cancellation failure was
recorded keeps its original error string in the result, every other item
(unfinished, cancelled, or already finished) is marked with the cancellation
error, and the cancellation error is recognizable by containing the well-known
cancellation sentinel as a substring. -/
theorem claim_C5_group_cancel (parent : Bool) (request : List (String × ItemOutcome))
    (hnd : (request.map Prod.fst).Nodup) (idf : String) (of' : ItemOutcome)
    (hfmem : (idf, of') ∈ processedPrefix false request)
    (hfail : recordedErrorOf of' ≠ "") :
    groupCanceled false parent request = true ∧
    isCancelError contextCanceledMsg = true ∧
    ∀ id o, (id, o) ∈ request →
      lookupAssoc id (download false parent request).result =
        some (finalResultOf false parent request id o) ∧
      ((id, o) ∈ processedPrefix false request → recordedErrorOf o ≠ "" →
        (finalResultOf false parent request id o).error = recordedErrorOf o) ∧
      (((id, o) ∉ processedPrefix false request ∨ recordedErrorOf o = "") →
        (finalResultOf false parent request id o).error = contextCanceledMsg) := by
  have hsome : (of'.startErr.isSome || of'.waitErr.isSome) = true := by
    unfold recordedErrorOf at hfail
    cases hs : of'.startErr with
    | some e => simp [hs]
    | none =>
      rw [hs] at hfail
      cases hw : of'.waitErr with
      | none => rw [hw] at hfail ; simp at hfail
      | some e => simp [hw]
  have hcanc : groupCanceled false parent request = true := by
    have hany : ((processedPrefix false request).any fun x =>
        x.2.startErr.isSome || x.2.waitErr.isSome) = true :=
      List.any_eq_true.mpr ⟨(idf, of'), hfmem, hsome⟩
    simp [groupCanceled, hany]
  refine ⟨hcanc, by decide, ?_⟩
  intro id o hmo
  refine ⟨download_result_lookup false parent request hnd hmo, ?_, ?_⟩
  · intro hproc hne
    simp [finalResultOf, preSweepErrorOf, hproc, hne]
  · intro hdisj
    rcases hdisj with hnp | hrec
    · simp [finalResultOf, preSweepErrorOf, hnp, hcanc]
    · by_cases hproc : (id, o) ∈ processedPrefix false request <;>
        simp [finalResultOf, preSweepErrorOf, hproc, hrec, hcanc]

/-- Concrete request used to instantiate C5: item `b` fails to start with a
genuine download error while item `a` downloads successfully. -/
def c5request : List (String × ItemOutcome) :=
  [("a", { startErr := none, fileName := "fa", waitErr := none }),
   ("b", { startErr := some "download error", fileName := "", waitErr := none })]

theorem claim_C5_group_cancel_witness :
    groupCanceled false false c5request = true ∧
    isCancelError contextCanceledMsg = true ∧
    ∀ id o, (id, o) ∈ c5request →
      lookupAssoc id (download false false c5request).result =
        some (finalResultOf false false c5request id o) ∧
      ((id, o) ∈ processedPrefix false c5request → recordedErrorOf o ≠ "" →
        (finalResultOf false false c5request id o).error = recordedErrorOf o) ∧
      (((id, o) ∉ processedPrefix false c5request ∨ recordedErrorOf o = "") →
        (finalResultOf false false c5request id o).error = contextCanceledMsg) :=
  claim_C5_group_cancel false c5request (by decide)
    "b" { startErr := some "download error", fileName := "", waitErr := none }
    (by decide) (by decide)

/-- The status strings delivered for one id, in delivery order. -/
def statusesFor (id : String) (trace : List StatusEvent) : List String :=
  (trace.filter fun ev => ev.id == id).map StatusEvent.status

/-- The per-id status pattern asserted by claim C9: `downloading` first, then
exactly one terminal status (`downloaded` or `error`), and nothing after it. -/
def singleTerminal (l : List String) : Bool :=
  match l with
  | [d, t] => d == downloadingStatus && (t == downloadedStatus || t == errorStatus)
  | _ => false

/-- Concrete request refuting C9: item `a` downloads successfully, item `b`
fails to start, cancelling the group. -/
def c9request : List (String × ItemOutcome) :=
  [("a", { startErr := none, fileName := "fa", waitErr := none }),
   ("b", { startErr := some "download error", fileName := "", waitErr := none })]

/-- **C9 counterexample**: after item `b` fails and cancels the group, item `a`
observes `downloading`, then the terminal `downloaded`, then a further `error`
status from the cancellation sweep — two terminal statuses, the second after
the first. -/
theorem claim_C9_counterexample :
    statusesFor "a" (download false false c9request).statuses =
      [downloadingStatus, downloadedStatus, errorStatus] ∧
    singleTerminal (statusesFor "a" (download false false c9request).statuses) = false := by
  decide

/-- **C9 amended**: every id observes `downloading` first and afterwards only
terminal statuses; when all error strings reported by the downloader are
non-empty, the per-id status sequence is `[downloading]`,
`[downloading, downloaded]`, `[downloading, error]`, or — only when the group
context ends up cancelled — `[downloading, downloaded, error]`, the final
`error` being the cancellation marker applied to an already-downloaded item. -/
theorem claim_C9_amended (c parent : Bool) (request : List (String × ItemOutcome))
    (hnd : (request.map Prod.fst).Nodup)
    (hclean : ∀ x ∈ request,
      (∀ e, x.2.startErr = some e → e ≠ "") ∧ (∀ e, x.2.waitErr = some e → e ≠ "")) :
    ∀ id o, (id, o) ∈ request →
      statusesFor id (download c parent request).statuses =
        (eventsForSpec c parent request id o).map StatusEvent.status ∧
      (statusesFor id (download c parent request).statuses = [downloadingStatus] ∨
       statusesFor id (download c parent request).statuses =
         [downloadingStatus, downloadedStatus] ∨
       statusesFor id (download c parent request).statuses =
         [downloadingStatus, errorStatus] ∨
       (statusesFor id (download c parent request).statuses =
          [downloadingStatus, downloadedStatus, errorStatus] ∧
        groupCanceled c parent request = true)) := by
  intro id o hmo
  have hchar : statusesFor id (download c parent request).statuses =
      (eventsForSpec c parent request id o).map StatusEvent.status := by
    unfold statusesFor
    rw [download_events_for c parent request hnd hmo]
  refine ⟨hchar, ?_⟩
  rw [hchar]
  obtain ⟨hcs, hcw⟩ := hclean (id, o) hmo
  by_cases hproc : (id, o) ∈ processedPrefix c request
  · cases he : o.startErr with
    | some e =>
      have hne : e ≠ "" := hcs e he
      by_cases hcanE : isCancelError e
      · by_cases hg : groupCanceled c parent request = true <;>
          simp [eventsForSpec, startEventsOf, preSweepErrorOf, recordedErrorOf,
            hproc, he, hcanE, hg]
      · by_cases hg : groupCanceled c parent request = true <;>
          simp [eventsForSpec, startEventsOf, preSweepErrorOf, recordedErrorOf,
            hproc, he, hcanE, hne, hg]
    | none =>
      cases hw : o.waitErr with
      | none =>
        by_cases hg : groupCanceled c parent request = true <;>
          simp [eventsForSpec, startEventsOf, waitEventsOf, preSweepErrorOf, recordedErrorOf,
            hproc, he, hw, hg]
      | some e =>
        have hne : e ≠ "" := hcw e hw
        by_cases hcanE : isCancelError e
        · by_cases hg : groupCanceled c parent request = true <;>
            simp [eventsForSpec, startEventsOf, waitEventsOf, preSweepErrorOf, recordedErrorOf,
              hproc, he, hw, hcanE, hg]
        · by_cases hg : groupCanceled c parent request = true <;>
            simp [eventsForSpec, startEventsOf, waitEventsOf, preSweepErrorOf, recordedErrorOf,
              hproc, he, hw, hcanE, hne, hg]
  · by_cases hg : groupCanceled c parent request = true <;>
      simp [eventsForSpec, preSweepErrorOf, hproc, hg]

theorem claim_C9_amended_witness :
    statusesFor "a" (download false false c9request).statuses =
      (eventsForSpec false false c9request "a"
        { startErr := none, fileName := "fa", waitErr := none }).map StatusEvent.status ∧
    (statusesFor "a" (download false false c9request).statuses = [downloadingStatus] ∨
     statusesFor "a" (download false false c9request).statuses =
       [downloadingStatus, downloadedStatus] ∨
     statusesFor "a" (download false false c9request).statuses =
       [downloadingStatus, errorStatus] ∨
     (statusesFor "a" (download false false c9request).statuses =
        [downloadingStatus, downloadedStatus, errorStatus] ∧
      groupCanceled false false c9request = true)) :=
  claim_C9_amended false false c9request (by decide) (by decide)
    "a" { startErr := none, fileName := "fa", waitErr := none } (by decide)

/-- Concrete request refuting C10: with `continueOnError=true`, the only item
fails while downloading with an error that merely contains the cancellation
sentinel; the failure is not recorded, the group is never cancelled, and the
item's result error stays empty although the item did not complete. -/
def c10request : List (String × ItemOutcome) :=
  [("a", { startErr := none, fileName := "fa", waitErr := some "op failed: context canceled" })]

/-- **C10 counterexample**: the item of `c10request` fails (its `Wait` returns
an error), the group context is never cancelled, and yet its result entry has
an empty `Error` field — refuting "Error is empty iff the item completed
successfully and the group was not cancelled". -/
theorem claim_C10_counterexample :
    lookupAssoc "a" (download true false c10request).result = some ⟨"fa", ""⟩ ∧
    (download true false c10request).canceled = false ∧
    ∀ x ∈ c10request, x.2.waitErr.isSome := by
  decide

/-- **C10 amended**: the result map of `download` has exactly the keys of the
request, and an entry's `Error` field is empty iff the group context was not
cancelled and no non-cancellation error was recorded for the item (an item
whose failure is itself cancellation-like is not recorded). -/
theorem claim_C10_amended (c parent : Bool) (request : List (String × ItemOutcome))
    (hnd : (request.map Prod.fst).Nodup) :
    (download c parent request).result.map Prod.fst = request.map Prod.fst ∧
    ∀ id o, (id, o) ∈ request →
      lookupAssoc id (download c parent request).result =
        some (finalResultOf c parent request id o) ∧
      ((finalResultOf c parent request id o).error = "" ↔
        (groupCanceled c parent request = false ∧ preSweepErrorOf c request id o = "")) := by
  refine ⟨download_map_fst c parent request, ?_⟩
  intro id o hmo
  refine ⟨download_result_lookup c parent request hnd hmo, ?_⟩
  by_cases hpre : preSweepErrorOf c request id o = "" <;>
    by_cases hg : groupCanceled c parent request = true <;>
      simp [finalResultOf, hpre, hg, contextCanceledMsg]

theorem claim_C10_amended_witness :
    (download true false c10request).result.map Prod.fst = c10request.map Prod.fst ∧
    ∀ id o, (id, o) ∈ c10request →
      lookupAssoc id (download true false c10request).result =
        some (finalResultOf true false c10request id o) ∧
      ((finalResultOf true false c10request id o).error = "" ↔
        (groupCanceled true false c10request = false ∧
          preSweepErrorOf true c10request id o = "")) :=
  claim_C10_amended true false c10request (by decide)

/-! ## Launcher (`src/launcher/launcher.go`)

The launcher's collaborators (image provider, resource manager, node manager
monitoring, network manager, state-storage provider) are modelled as pure
functions collected in `Env`.  Node pointers of the Go code become entries of
`LauncherState.nodes`, updated through `updateNode` keyed by node id.  The
`Storage` collaborator (persist per-instance `{ident, uid}`) is modelled as an
association list in the state, and Go's in-place slice sorts become stable
insertion sorts returning the sorted list. -/

/-- `aostypes.InstanceIdent` (`Instance uint64` is `instanceIdx`). -/
structure InstanceIdent where
  serviceID : String
  subjectID : String
  instanceIdx : Nat
  deriving Repr, DecidableEq

/-- `aostypes.ServiceDevice`; only the device name is used by the launcher. -/
structure ServiceDevice where
  name : String
  deriving Repr, DecidableEq

/-- `nodeDevice` (launcher.go:163-167).  The Go fields are `int`. -/
structure NodeDevice where
  name : String
  sharedCount : Int
  allocatedCount : Int
  deriving Repr, DecidableEq

/-- `aostypes.DeviceInfo` of a node unit configuration. -/
structure DeviceInfo where
  name : String
  sharedCount : Int
  deriving Repr, DecidableEq

/-- `aostypes.ResourceInfo`; only the name is used. -/
structure ResourceInfo where
  name : String
  deriving Repr, DecidableEq

/-- `aostypes.NodeUnitConfig`, the fields read by `initNodeUnitConfiguration`. -/
structure NodeUnitConfig where
  priority : Nat
  labels : List String
  resources : List ResourceInfo
  devices : List DeviceInfo
  deriving Repr, DecidableEq

/-- `aostypes.NetworkParameters`, as returned by the network manager. -/
structure NetworkParameters where
  ip : String
  subnet : String
  dnsServers : List String
  deriving Repr, DecidableEq

instance : Inhabited NetworkParameters := ⟨⟨"", "", []⟩⟩

/-- `aostypes.ServiceInfo`, the fields carried into run requests. -/
structure AosServiceInfo where
  id : String
  aosVersion : Nat
  url : String
  gid : Nat
  deriving Repr, DecidableEq

/-- `aostypes.LayerInfo`, the fields carried into run requests. -/
structure AosLayerInfo where
  digest : String
  url : String
  deriving Repr, DecidableEq

/-- `aostypes.InstanceInfo`: one instance entry of a run request. -/
structure AosInstanceInfo where
  instanceIdent : InstanceIdent
  priority : Nat
  uid : Nat
  storagePath : String
  statePath : String
  networkParameters : NetworkParameters
  deriving Repr, DecidableEq

/-- `cloudprotocol.InstanceInfo`: one desired-instances group. -/
structure CloudInstanceInfo where
  serviceID : String
  subjectID : String
  priority : Nat
  numInstances : Nat
  labels : List String
  deriving Repr, DecidableEq

/-- `aostypes.ServiceConfig`, the fields used by the launcher.  The Go
`AllowedConnections` map is modelled by its key list. -/
structure ServiceConfig where
  runner : String
  devices : List ServiceDevice
  resources : List String
  hostname : Option String
  allowedConnections : List String
  stateLimit : Option Nat
  storageLimit : Option Nat
  deriving Repr, DecidableEq

/-- `imagemanager.ServiceInfo`, the fields used by the launcher. -/
structure ImServiceInfo where
  serviceInfo : AosServiceInfo
  remoteURL : String
  config : ServiceConfig
  layers : List String
  cached : Bool
  providerID : String
  exposedPorts : List String
  deriving Repr, DecidableEq

/-- `imagemanager.LayerInfo`, the fields used by the launcher. -/
structure ImLayerInfo where
  layerInfo : AosLayerInfo
  remoteURL : String
  deriving Repr, DecidableEq

/-- `cloudprotocol.InstanceStatus` (`errorInfo` carries the message). -/
structure InstanceStatus where
  instanceIdent : InstanceIdent
  aosVersion : Nat
  runState : String
  nodeID : String
  stateChecksum : String
  errorInfo : Option String
  deriving Repr, DecidableEq

/-- `runRequestInfo` (launcher.go:169-173). -/
structure RunRequestInfo where
  services : List AosServiceInfo
  layers : List AosLayerInfo
  instances : List AosInstanceInfo
  deriving Repr, DecidableEq

/-- `nodeStatus` (launcher.go:152-161) together with the `NodeInfo` fields the
launcher reads (`NodeID`, `NodeType`, `RemoteNode`, `RunnerFeature`,
`TotalRAM`, `NumCPUs`). -/
structure NodeStatus where
  nodeID : String
  nodeType : String
  remoteNode : Bool
  runnerFeatures : List String
  totalRAM : Nat
  numCPUs : Nat
  availableResources : List String
  availableLabels : List String
  availableDevices : List NodeDevice
  priority : Nat
  receivedRunInstances : List InstanceStatus
  currentRunRequest : RunRequestInfo
  waitStatus : Bool
  deriving Repr, DecidableEq

/-- `cloudprotocol.SystemQuotaAlert`, the fields used by rebalancing. -/
structure SystemQuotaAlert where
  nodeID : String
  parameter : String
  deriving Repr, DecidableEq

/-- `cloudprotocol.ServiceStatus`, the fields set by `sendCurrentStatus`. -/
structure ServiceStatus where
  id : String
  aosVersion : Nat
  status : String
  errorMsg : String
  deriving Repr, DecidableEq

/-- `unitstatushandler.RunInstancesStatus`, the fields set by the launcher. -/
structure RunInstancesStatus where
  unitSubjects : List String
  instances : List InstanceStatus
  errorServices : List ServiceStatus
  deriving Repr, DecidableEq

/-- `storagestate.SetupParams`, the fields set by `prepareInstanceStartInfo`. -/
structure SetupParams where
  instanceIdent : InstanceIdent
  uid : Nat
  gid : Nat
  stateQuota : Nat
  storageQuota : Nat
  deriving Repr, DecidableEq

/-- `networkmanager.NetworkParameters`, the fields set by
`prepareNetworkParameters`. -/
structure NMParams where
  hosts : List String
  exposePorts : List String
  allowConnections : List String
  deriving Repr, DecidableEq

/-- External collaborators of the launcher, each a pure function. -/
structure Env where
  getServiceInfo : String → Except String ImServiceInfo
  getLayerInfo : String → Except String ImLayerInfo
  getUnitConfiguration : String → NodeUnitConfig
  monitoringData : String → Except String (Nat × Nat)
  prepareNetwork : InstanceIdent → String → NMParams → Except String NetworkParameters
  setupStorageState : SetupParams → Except String (String × String)
  getInstanceCheckSum : InstanceIdent → String

/-- Launcher state (launcher.go:73-93); `storageInstances` models the
`Storage` collaborator's instance table and `uidPool` the locked UIDs of the
`uidgidpool` collaborator. -/
structure LauncherState where
  nodes : List NodeStatus
  currentDesiredInstances : List CloudInstanceInfo
  currentRunStatus : List InstanceStatus
  currentErrorStatus : List InstanceStatus
  pendingNewServices : List String
  storageInstances : List (InstanceIdent × Nat)
  uidPool : List Nat
  deriving Repr, DecidableEq

/-- `defaultRunner` (launcher.go:49). -/
def defaultRunner : String := "crun"

/-- `defaultRunnerFeatures` (launcher.go:52). -/
def defaultRunnerFeatures : List String := ["crun", "runc"]

/-- `cloudprotocol.InstanceStateActive`. -/
def instanceStateActive : String := "active"

/-- `cloudprotocol.InstanceStateFailed`. -/
def instanceStateFailed : String := "failed"

/-- `createInstanceStatusFromInfo` (launcher.go:1213-1234). -/
def createInstanceStatusFromInfo (serviceID subjectID : String)
    (instanceIndex serviceVersion : Nat) (runState errorMsg : String) : InstanceStatus :=
  { instanceIdent := ⟨serviceID, subjectID, instanceIndex⟩
    aosVersion := serviceVersion
    runState := runState
    nodeID := ""
    stateChecksum := ""
    errorInfo := if errorMsg = "" then none else some errorMsg }

/-- Stable insertion of `x` into `l` before the first element it is `less`
than; models Go's deterministic in-place sorts (ties keep input order). -/
def insertSortedBy {α : Type} (less : α → α → Bool) (x : α) : List α → List α
  | [] => [x]
  | y :: rest => if less x y then x :: y :: rest else y :: insertSortedBy less x rest

/-- Stable insertion sort by `less`. -/
def sortBy {α : Type} (less : α → α → Bool) : List α → List α
  | [] => []
  | x :: rest => insertSortedBy less x (sortBy less rest)

/-- The comparison of `sort.Slice` in `performNodeBalancing`
(launcher.go:655-661): priority descending, then service id ascending. -/
def instanceLess (a b : CloudInstanceInfo) : Bool :=
  if a.priority == b.priority then decide (a.serviceID < b.serviceID)
  else decide (a.priority > b.priority)

def sortInstances (l : List CloudInstanceInfo) : List CloudInstanceInfo :=
  sortBy instanceLess l

/-- The node comparison of `getNodesForRebalancingByNodePriority`
(launcher.go:1262-1268): priority ascending, then node id ascending. -/
def nodeLessAsc (a b : NodeStatus) : Bool :=
  if a.priority == b.priority then decide (a.nodeID < b.nodeID)
  else decide (a.priority < b.priority)

/-- `Launcher.getNode` (launcher.go:1236-1244). -/
def getNode (st : LauncherState) (nodeID : String) : Option NodeStatus :=
  st.nodes.find? fun n => n.nodeID == nodeID

/-- Write back the node with the given id (a Go pointer update). -/
def updateNode (st : LauncherState) (nodeID : String) (f : NodeStatus → NodeStatus) :
    LauncherState :=
  { st with nodes := st.nodes.map fun n => if n.nodeID = nodeID then f n else n }

/-- `resetDeviceAllocation` (launcher.go:515-521). -/
def resetDeviceAllocation (st : LauncherState) : LauncherState :=
  { st with nodes := st.nodes.map fun n =>
      { n with availableDevices := n.availableDevices.map fun d =>
          { d with allocatedCount := 0 } } }

/-- `initNodeUnitConfiguration` (launcher.go:496-513). -/
def initNodeUnitConfiguration (env : Env) (node : NodeStatus) (nodeType : String) :
    NodeStatus :=
  let nodeUnitConfig := env.getUnitConfiguration nodeType
  { node with
    priority := nodeUnitConfig.priority
    availableLabels := nodeUnitConfig.labels
    availableResources := nodeUnitConfig.resources.map (·.name)
    availableDevices := nodeUnitConfig.devices.map fun d =>
      { name := d.name, sharedCount := d.sharedCount, allocatedCount := 0 } }

/-- `getNodeByRunner` (launcher.go:1135-1148). -/
def getNodeByRunner (allNodes : List NodeStatus) (runner : String) : List NodeStatus :=
  let runner := if runner = "" then defaultRunner else runner
  allNodes.filter fun node =>
    (node.runnerFeatures.isEmpty && defaultRunnerFeatures.contains runner) ||
      node.runnerFeatures.contains runner

/-- `getNodesByLabels` (launcher.go:1112-1133). -/
def getNodesByLabels (nodes : List NodeStatus) (desiredLabels : List String) :
    List NodeStatus :=
  if desiredLabels.isEmpty then nodes
  else nodes.filter fun node =>
    !node.availableLabels.isEmpty &&
      desiredLabels.all fun label => node.availableLabels.contains label

/-- `getNodesByResources` (launcher.go:1089-1110). -/
def getNodesByResources (nodes : List NodeStatus) (desiredResources : List String) :
    List NodeStatus :=
  if desiredResources.isEmpty then nodes
  else nodes.filter fun node =>
    !node.availableResources.isEmpty &&
      desiredResources.all fun resource => node.availableResources.contains resource

/-- `getNodesByStaticResources` (launcher.go:932-951).  The Go `%v` renderings
of labels and resources in the error text are elided. -/
def getNodesByStaticResources (allNodes : List NodeStatus) (serviceInfo : ImServiceInfo)
    (instanceInfo : CloudInstanceInfo) : Except String (List NodeStatus) :=
  let nodes := getNodeByRunner allNodes serviceInfo.config.runner
  if nodes.isEmpty then
    .error ("no node with runner [" ++ serviceInfo.config.runner ++ "]")
  else
    let nodes := getNodesByLabels nodes instanceInfo.labels
    if nodes.isEmpty then .error "no node with labels"
    else
      let nodes := getNodesByResources nodes serviceInfo.config.resources
      if nodes.isEmpty then .error "no node with resources"
      else .ok nodes

/-- `nodeHasDesiredDevices` (launcher.go:1020-1037): a desired device is
satisfied by a node device of the same name with `sharedCount == 0` or with
spare capacity. -/
def nodeHasDesiredDevices (node : NodeStatus) (desiredDevices : List ServiceDevice) : Bool :=
  desiredDevices.all fun desiredDevice =>
    node.availableDevices.any fun nodeDevice =>
      nodeDevice.name == desiredDevice.name &&
        (nodeDevice.sharedCount == 0 || nodeDevice.allocatedCount != nodeDevice.sharedCount)

/-- `getNodesByDevices` (launcher.go:953-975). -/
def getNodesByDevices (availableNodes : List NodeStatus)
    (desiredDevices : List ServiceDevice) : Except String (List NodeStatus) :=
  if desiredDevices.isEmpty then .ok availableNodes
  else
    let nodes := availableNodes.filter fun node => nodeHasDesiredDevices node desiredDevices
    if nodes.isEmpty then .error "no available device found"
    else .ok nodes

/-- The inner loop of `allocateDevices` (launcher.go:1042-1056): find the first
device with the wanted name and non-zero shared count; a name match with
`sharedCount == 0` keeps scanning and an exhausted list is an error. -/
def allocateDeviceInList (devices : List NodeDevice) (name : String) :
    Except String (List NodeDevice) :=
  match devices with
  | [] => .error ("can't allocate device: " ++ name)
  | d :: rest =>
    if d.name = name ∧ d.sharedCount ≠ 0 then
      if d.allocatedCount = d.sharedCount then .error ("can't allocate device: " ++ name)
      else .ok ({ d with allocatedCount := d.allocatedCount + 1 } :: rest)
    else
      match allocateDeviceInList rest name with
      | .error e => .error e
      | .ok rest' => .ok (d :: rest')

/-- `allocateDevices` (launcher.go:1039-1062).  On error the increments already
performed are kept (the Go code mutates the node in place). -/
def allocateDevices (node : NodeStatus) (serviceDevices : List ServiceDevice) :
    NodeStatus × Option String :=
  match serviceDevices with
  | [] => (node, none)
  | sd :: rest =>
    match allocateDeviceInList node.availableDevices sd.name with
    | .error e => (node, some e)
    | .ok devices' => allocateDevices { node with availableDevices := devices' } rest

/-- The inner loop of `releaseDevices` (launcher.go:1067-1081). -/
def releaseDeviceInList (devices : List NodeDevice) (name : String) :
    Except String (List NodeDevice) :=
  match devices with
  | [] => .error ("can't release device: " ++ name)
  | d :: rest =>
    if d.name = name ∧ d.sharedCount ≠ 0 then
      if d.allocatedCount = 0 then .error ("can't release device: " ++ name)
      else .ok ({ d with allocatedCount := d.allocatedCount - 1 } :: rest)
    else
      match releaseDeviceInList rest name with
      | .error e => .error e
      | .ok rest' => .ok (d :: rest')

/-- `releaseDevices` (launcher.go:1064-1087); decrements already performed are
kept on error. -/
def releaseDevices (node : NodeStatus) (serviceDevices : List ServiceDevice) :
    NodeStatus × Option String :=
  match serviceDevices with
  | [] => (node, none)
  | sd :: rest =>
    match releaseDeviceInList node.availableDevices sd.name with
    | .error e => (node, some e)
    | .ok devices' => releaseDevices { node with availableDevices := devices' } rest

/-- `getMostPriorityNode` (launcher.go:1150-1164): the first node of maximal
priority.  The Go code indexes `nodes[0]` and is never called with an empty
list; the empty case returns `none`. -/
def getMostPriorityNode (nodes : List NodeStatus) : Option NodeStatus :=
  match nodes with
  | [] => none
  | n :: rest =>
    some (rest.foldl (fun best cur => if best.priority < cur.priority then cur else best) n)

/-- `getNodeByMonitoringData` (launcher.go:977-1018): free RAM/CPU are computed
with `uint64` wrap-around; on a monitoring error the zero value is used.  The
node list is sorted by the free resource of the alerted axis, descending. -/
def getNodeByMonitoringData (env : Env) (nodes : List NodeStatus) (alertType : String) :
    List NodeStatus :=
  if nodes.length == 1 then nodes
  else
    let nodesResources := nodes.map fun node =>
      let md := match env.monitoringData node.nodeID with
        | .ok d => d
        | .error _ => (0, 0)
      (node, (node.totalRAM + 2 ^ 64 - md.1 % 2 ^ 64) % 2 ^ 64,
        (node.numCPUs * 100 + 2 ^ 64 - md.2 % 2 ^ 64) % 2 ^ 64)
    let sorted :=
      if alertType = "cpu" then
        sortBy (fun a b => decide (a.2.2 > b.2.2)) nodesResources
      else
        sortBy (fun a b => decide (a.2.1 > b.2.1)) nodesResources
    sorted.map (·.1)

/-- The layer loop body of `addRunRequest` (launcher.go:1195-1210). -/
def addLayerToRequest (nd : NodeStatus) (layer : ImLayerInfo) : NodeStatus :=
  let newLayer :=
    if nd.remoteNode then { layer.layerInfo with url := layer.remoteURL }
    else layer.layerInfo
  if nd.currentRunRequest.layers.contains newLayer then nd
  else { nd with currentRunRequest :=
    { nd.currentRunRequest with
      layers := nd.currentRunRequest.layers ++ [newLayer] } }

/-- `addRunRequest` (launcher.go:1166-1211).  `reflect.DeepEqual` on the
carried fields is structural equality. -/
def addRunRequest (service : ImServiceInfo) (layers : List ImLayerInfo)
    (instanceInfo : AosInstanceInfo) (node : NodeStatus) : NodeStatus :=
  let node := { node with currentRunRequest :=
    { node.currentRunRequest with
      instances := node.currentRunRequest.instances ++ [instanceInfo] } }
  let serviceInfo :=
    if node.remoteNode then { service.serviceInfo with url := service.remoteURL }
    else service.serviceInfo
  let node :=
    if node.currentRunRequest.services.contains serviceInfo then node
    else { node with currentRunRequest :=
      { node.currentRunRequest with
        services := node.currentRunRequest.services ++ [serviceInfo] } }
  layers.foldl addLayerToRequest node

/-- Modelled from the spec: the UID allocator `utils/uidgidpool` is not under
`src/`; the spec says "UIDs are allocated from a pool and are stable for the
lifetime of an instance identity".  The pool is the list of locked UIDs;
`getFreeUID` returns an unlocked UID (one above the maximum locked UID, with
base 5000 as in the repository tests), and the caller locks it. -/
def getFreeUID (pool : List Nat) : Nat :=
  (pool.foldr max 4999) + 1

/-- Modelled from the spec: `uidgidpool.RemoveID` unlocks a UID. -/
def removeUID (pool : List Nat) (uid : Nat) : List Nat :=
  pool.filter fun u => u != uid

/-- `Storage.GetInstanceUID`: look up the stored UID of an instance identity
(returns `ErrNotExist` — here `none` — when absent). -/
def getInstanceUID (storage : List (InstanceIdent × Nat)) (ident : InstanceIdent) :
    Option Nat :=
  (storage.find? fun p => p.1 == ident).map Prod.snd

/-- `prepareInstanceStartInfo` (launcher.go:880-930).  Returns the (possibly
partially filled) instance info, the error if any, and the updated storage
table and UID pool.  On a state-storage `Setup` error the UID is removed from
the pool even when it came from storage. -/
def prepareInstanceStartInfo (env : Env) (storage : List (InstanceIdent × Nat))
    (pool : List Nat) (service : ImServiceInfo) (instanceInfo : CloudInstanceInfo)
    (index : Nat) :
    AosInstanceInfo × Option String × List (InstanceIdent × Nat) × List Nat :=
  let ident : InstanceIdent :=
    ⟨instanceInfo.serviceID, instanceInfo.subjectID, index⟩
  let info : AosInstanceInfo :=
    { instanceIdent := ident, priority := instanceInfo.priority, uid := 0
      storagePath := "", statePath := "", networkParameters := default }
  let finish := fun (uid : Nat) (storage : List (InstanceIdent × Nat)) (pool : List Nat) =>
    let info := { info with uid := uid % 2 ^ 32 }
    let stateStorageParams : SetupParams :=
      { instanceIdent := ident, uid := uid, gid := service.serviceInfo.gid
        stateQuota := service.config.stateLimit.getD 0
        storageQuota := service.config.storageLimit.getD 0 }
    match env.setupStorageState stateStorageParams with
    | .error e => (info, some e, storage, removeUID pool uid)
    | .ok paths =>
      ({ info with storagePath := paths.1, statePath := paths.2 }, none, storage, pool)
  match getInstanceUID storage ident with
  | some uid => finish uid storage pool
  | none =>
    let uid := getFreeUID pool
    finish uid (storage ++ [(ident, uid)]) (uid :: pool)

/-- Whether a stored instance identity is still desired
(launcher.go:845-857). -/
def isDesiredIdent (ident : InstanceIdent) (instances : List CloudInstanceInfo) : Bool :=
  instances.any fun ii =>
    ii.serviceID == ident.serviceID && ii.subjectID == ident.subjectID &&
      decide (ident.instanceIdx < ii.numInstances)

/-- `removeInstances` (launcher.go:837-878): stored instances that are no
longer desired lose their UID (pool) and storage record. -/
def removeInstances (st : LauncherState) (instances : List CloudInstanceInfo) :
    LauncherState :=
  st.storageInstances.foldl
    (fun acc p =>
      if isDesiredIdent p.1 instances then acc
      else
        { acc with
          uidPool := removeUID acc.uidPool p.2
          storageInstances := acc.storageInstances.filter fun q => q.1 != p.1 })
    st

/-- `getLayersForService` (launcher.go:1283-1296). -/
def getLayersForService (env : Env) (digests : List String) :
    Except String (List ImLayerInfo) :=
  match digests with
  | [] => .ok []
  | d :: rest =>
    match env.getLayerInfo d with
    | .error e => .error e
    | .ok layer =>
      match getLayersForService env rest with
      | .error e => .error e
      | .ok layers => .ok (layer :: layers)

/-- `getLabelsForInstance` (launcher.go:1273-1281). -/
def getLabelsForInstance (st : LauncherState) (ident : InstanceIdent) :
    Except String (List String) :=
  match st.currentDesiredInstances.find? fun i =>
      i.serviceID == ident.serviceID && i.subjectID == ident.subjectID with
  | some i => .ok i.labels
  | none => .error "no labels for instance"

/-- `prepareNetworkParameters` (launcher.go:787-807); the Go iteration over the
`AllowedConnections` map keys is the model's key-list order. -/
def prepareNetworkParameters (_instanceInfo : AosInstanceInfo)
    (serviceInfo : ImServiceInfo) : NMParams :=
  { hosts :=
      match serviceInfo.config.hostname with
      | some h => [h]
      | none => []
    exposePorts := serviceInfo.exposedPorts
    allowConnections := serviceInfo.config.allowedConnections }

/-- One instance of the loop body of `prepareNetworkForInstances`
(launcher.go:756-781); on a network-manager error the zero network parameters
are assigned together with an error status. -/
def prepareNetInstance (env : Env) (onlyExposedPorts : Bool)
    (instanceInfo : AosInstanceInfo) : AosInstanceInfo × Option InstanceStatus :=
  match env.getServiceInfo instanceInfo.instanceIdent.serviceID with
  | .error e =>
    (instanceInfo, some (createInstanceStatusFromInfo instanceInfo.instanceIdent.serviceID
      instanceInfo.instanceIdent.subjectID 0 0 instanceStateFailed e))
  | .ok serviceInfo =>
    if onlyExposedPorts && serviceInfo.exposedPorts.isEmpty then (instanceInfo, none)
    else
      match env.prepareNetwork instanceInfo.instanceIdent serviceInfo.providerID
          (prepareNetworkParameters instanceInfo serviceInfo) with
      | .ok params => ({ instanceInfo with networkParameters := params }, none)
      | .error e =>
        ({ instanceInfo with networkParameters := default },
          some (createInstanceStatusFromInfo instanceInfo.instanceIdent.serviceID
            instanceInfo.instanceIdent.subjectID instanceInfo.instanceIdent.instanceIdx
            serviceInfo.serviceInfo.aosVersion instanceStateFailed e))

/-- `prepareNetworkForInstances` (launcher.go:754-785). -/
def prepareNetworkForInstances (env : Env) (st : LauncherState)
    (onlyExposedPorts : Bool) : LauncherState × List InstanceStatus :=
  let processed := st.nodes.map fun node =>
    let results := node.currentRunRequest.instances.map (prepareNetInstance env onlyExposedPorts)
    ({ node with currentRunRequest :=
        { node.currentRunRequest with instances := results.map Prod.fst } },
      results.filterMap Prod.snd)
  ({ st with nodes := processed.map Prod.fst }, processed.flatMap Prod.snd)

/-- One index iteration of the inner loop of `performNodeBalancing`
(launcher.go:715-740).  The static candidate set is carried as node ids and
re-read from the current state, matching the Go slice of node pointers. -/
def balanceInstanceIndex (env : Env) (st : LauncherState) (group : CloudInstanceInfo)
    (service : ImServiceInfo) (layers : List ImLayerInfo) (staticNodeIDs : List String)
    (index : Nat) : LauncherState × List InstanceStatus :=
  let candidates := st.nodes.filter fun n => staticNodeIDs.contains n.nodeID
  match getNodesByDevices candidates service.config.devices with
  | .error e =>
    (st, [createInstanceStatusFromInfo group.serviceID group.subjectID index
      service.serviceInfo.aosVersion instanceStateFailed e])
  | .ok nodeForInstance =>
    let prep := prepareInstanceStartInfo env st.storageInstances st.uidPool service group index
    let st := { st with storageInstances := prep.2.2.1, uidPool := prep.2.2.2 }
    let errs :=
      match prep.2.1 with
      | some e => [createInstanceStatusFromInfo group.serviceID group.subjectID index
          service.serviceInfo.aosVersion instanceStateFailed e]
      | none => []
    match getMostPriorityNode nodeForInstance with
    | none => (st, errs)
    | some node =>
      let alloc := allocateDevices node service.config.devices
      match alloc.2 with
      | some e =>
        (updateNode st node.nodeID fun _ => alloc.1,
          errs ++ [createInstanceStatusFromInfo group.serviceID group.subjectID index
            service.serviceInfo.aosVersion instanceStateFailed e])
      | none =>
        (updateNode st node.nodeID fun _ => addRunRequest service layers prep.1 alloc.1, errs)

/-- One desired-instances group of `performNodeBalancing`
(launcher.go:666-741). -/
def balanceGroup (env : Env) (st : LauncherState) (group : CloudInstanceInfo) :
    LauncherState × List InstanceStatus :=
  match env.getServiceInfo group.serviceID with
  | .error e =>
    (st, [createInstanceStatusFromInfo group.serviceID group.subjectID 0 0
      instanceStateFailed e])
  | .ok serviceInfo =>
    if serviceInfo.cached then
      (st, [createInstanceStatusFromInfo group.serviceID group.subjectID 0 0
        instanceStateFailed "service deleted"])
    else
      match getLayersForService env serviceInfo.layers with
      | .error e =>
        (st, (List.range group.numInstances).map fun instanceIndex =>
          createInstanceStatusFromInfo group.serviceID group.subjectID instanceIndex
            serviceInfo.serviceInfo.aosVersion instanceStateFailed e)
      | .ok layers =>
        match getNodesByStaticResources st.nodes serviceInfo group with
        | .error e =>
          (st, (List.range group.numInstances).map fun instanceIndex =>
            createInstanceStatusFromInfo group.serviceID group.subjectID instanceIndex
              serviceInfo.serviceInfo.aosVersion instanceStateFailed e)
        | .ok staticNodes =>
          let staticNodeIDs := staticNodes.map (·.nodeID)
          (List.range group.numInstances).foldl
            (fun acc instanceIndex =>
              let r := balanceInstanceIndex env acc.1 group serviceInfo layers
                staticNodeIDs instanceIndex
              (r.1, acc.2 ++ r.2))
            (st, [])

def balanceGroups (env : Env) (st : LauncherState) (groups : List CloudInstanceInfo) :
    LauncherState × List InstanceStatus :=
  groups.foldl
    (fun acc group =>
      let r := balanceGroup env acc.1 group
      (r.1, acc.2 ++ r.2))
    (st, [])

/-- `performNodeBalancing` (launcher.go:649-752).
`removeInstanceNetworkParameters` only mutates the external network manager and
has no embedded effect. -/
def performNodeBalancing (env : Env) (st : LauncherState)
    (instances : List CloudInstanceInfo) : LauncherState × List InstanceStatus :=
  let st := { st with nodes := st.nodes.map fun n =>
      { n with currentRunRequest := ⟨[], [], []⟩ } }
  let sorted := sortInstances instances
  let st := removeInstances st sorted
  let b := balanceGroups env st sorted
  let n1 := prepareNetworkForInstances env b.1 true
  let n2 := prepareNetworkForInstances env n1.1 false
  (n2.1, b.2 ++ n1.2 ++ n2.2)

/-- `RunInstances` (launcher.go:226-257).  Persisting desired instances,
updating provider networks, restarting DNS and the per-node `RunInstances`
calls are external effects.  `sort.Slice` inside `performNodeBalancing`
operates on the very slice stored in `currentDesiredInstances`, which
therefore ends up sorted. -/
def runInstancesOp (env : Env) (st : LauncherState)
    (instances : List CloudInstanceInfo) (newServices : List String) : LauncherState :=
  let st := resetDeviceAllocation st
  let st := { st with
    currentDesiredInstances := sortInstances instances
    pendingNewServices := newServices }
  let r := performNodeBalancing env st instances
  { r.1 with currentErrorStatus := r.2 }

/-- `RestartInstances` (launcher.go:260-273). -/
def restartInstancesOp (env : Env) (st : LauncherState) : LauncherState :=
  let st := { st with nodes := st.nodes.map fun n =>
      initNodeUnitConfiguration env n n.nodeType }
  let desired := st.currentDesiredInstances
  let st := { st with currentDesiredInstances := sortInstances desired }
  let r := performNodeBalancing env st desired
  { r.1 with currentErrorStatus := r.2 }

/-- `getNodesForRebalancingByNodePriority` (launcher.go:1246-1271): collects
the other nodes of equal or lower priority and, as a side effect, sorts the
launcher's node list ascending. -/
def getNodesForRebalancingByNodePriority (st : LauncherState) (nodeID : String) :
    LauncherState × List NodeStatus :=
  match getNode st nodeID with
  | none => (st, [])
  | some nodeWithIssue =>
    let nodes := st.nodes.filter fun node =>
      !decide (nodeWithIssue.priority < node.priority) &&
        node.nodeID != nodeWithIssue.nodeID
    ({ st with nodes := sortBy nodeLessAsc st.nodes }, nodes)

/-- One index iteration of the rebalancing loop (launcher.go:421-476).
Returns the updated state and whether the move succeeded (the Go `return`). -/
def tryRebalanceIndex (env : Env) (alertParam sourceID : String) (st : LauncherState)
    (i : Nat) : LauncherState × Bool :=
  match getNode st sourceID with
  | none => (st, false)
  | some nodeWithIssue =>
    match nodeWithIssue.currentRunRequest.instances.get? i with
    | none => (st, false)
    | some inst =>
      let currentServiceID := inst.instanceIdent.serviceID
      match env.getServiceInfo currentServiceID with
      | .error _ => (st, false)
      | .ok serviceInfo =>
        let labels :=
          match getLabelsForInstance st inst.instanceIdent with
          | .ok ls => ls
          | .error _ => []
        match getNodesByStaticResources st.nodes serviceInfo
            { serviceID := currentServiceID, subjectID := inst.instanceIdent.subjectID
              priority := 0, numInstances := 0, labels := labels } with
        | .error _ => (st, false)
        | .ok nodesToRebalance0 =>
          match getNodesByDevices nodesToRebalance0 serviceInfo.config.devices with
          | .error _ => (st, false)
          | .ok nodesToRebalance1 =>
            let nodesToRebalance := getNodeByMonitoringData env nodesToRebalance1 alertParam
            match getLayersForService env serviceInfo.layers with
            | .error _ => (st, false)
            | .ok layersForService =>
              match nodesToRebalance.head? with
              | none => (st, false)
              | some dest =>
                let st := updateNode st dest.nodeID
                  (addRunRequest serviceInfo layersForService inst)
                match getNode st sourceID with
                | none => (st, false)
                | some src =>
                  let rel := releaseDevices src serviceInfo.config.devices
                  let st := updateNode st sourceID fun _ => rel.1
                  match rel.2 with
                  | some _ => (st, false)
                  | none =>
                    let st := updateNode st sourceID fun n =>
                      { n with currentRunRequest :=
                        { n.currentRunRequest with instances :=
                            n.currentRunRequest.instances.take i ++
                              n.currentRunRequest.instances.drop (i + 1) } }
                    (st, true)

/-- The rebalancing scan from index `i` down to `0`, stopping at the first
successful move (launcher.go:421-476). -/
def rebalanceScan (env : Env) (alertParam sourceID : String) :
    Nat → LauncherState → LauncherState
  | i, st =>
    let r := tryRebalanceIndex env alertParam sourceID st i
    if r.2 then r.1
    else
      match i with
      | 0 => r.1
      | i' + 1 => rebalanceScan env alertParam sourceID i' r.1

/-- `performRebalancing` (launcher.go:402-479). -/
def performRebalancing (env : Env) (st : LauncherState) (alert : SystemQuotaAlert) :
    LauncherState :=
  let g := getNodesForRebalancingByNodePriority st alert.nodeID
  if g.2.isEmpty then g.1
  else
    let st := resetDeviceAllocation g.1
    let desired := st.currentDesiredInstances
    let st := { st with currentDesiredInstances := sortInstances desired }
    let b := performNodeBalancing env st desired
    let st := { b.1 with currentErrorStatus := b.2 }
    match getNode st alert.nodeID with
    | none => st
    | some nodeWithIssue =>
      match nodeWithIssue.currentRunRequest.instances.length with
      | 0 => st
      | n + 1 => rebalanceScan env alert.parameter alert.nodeID n st

/-- The operations of claim C1's "any sequence of RunInstances,
RestartInstances and rebalancing passes". -/
inductive LauncherOp where
  | runInstances (instances : List CloudInstanceInfo) (newServices : List String)
  | restartInstances
  | rebalance (alert : SystemQuotaAlert)
  deriving Repr

def applyOp (env : Env) (st : LauncherState) : LauncherOp → LauncherState
  | .runInstances instances newServices => runInstancesOp env st instances newServices
  | .restartInstances => restartInstancesOp env st
  | .rebalance alert => performRebalancing env st alert

def applyOps (env : Env) (st : LauncherState) (ops : List LauncherOp) : LauncherState :=
  ops.foldl (applyOp env) st

/-- A synthetic `failed` entry for a pending node's requested instance
(launcher.go:532-538). -/
def syntheticTimeoutStatus (nodeID : String) (inst : AosInstanceInfo) : InstanceStatus :=
  { instanceIdent := inst.instanceIdent, aosVersion := 0
    runState := instanceStateFailed, nodeID := nodeID, stateChecksum := ""
    errorInfo := some "wait run status timeout" }

/-- `sendCurrentStatus` (launcher.go:523-594).  `processStoppedInstances` only
calls the external state-storage cleanup; `RevertService` is external too. -/
def sendCurrentStatus (env : Env) (st : LauncherState) :
    RunInstancesStatus × LauncherState :=
  let collected := st.nodes.map fun node =>
    if node.waitStatus then
      ({ node with waitStatus := false },
        node.currentRunRequest.instances.map (syntheticTimeoutStatus node.nodeID))
    else (node, node.receivedRunInstances)
  let nodes' := collected.map Prod.fst
  let instances0 := collected.flatMap Prod.snd
  let instances1 := instances0.map fun i =>
    if i.errorInfo.isSome then i
    else { i with stateChecksum := env.getInstanceCheckSum i.instanceIdent }
  let errorServices := st.pendingNewServices.filterMap fun newService =>
    if instances1.any fun inst =>
        inst.instanceIdent.serviceID == newService && inst.errorInfo.isNone then
      none
    else
      some (match env.getServiceInfo newService with
        | .error e =>
          ({ id := newService, aosVersion := 0, status := errorStatus,
             errorMsg := e } : ServiceStatus)
        | .ok service =>
          { id := newService, aosVersion := service.serviceInfo.aosVersion
            status := errorStatus, errorMsg := "can't run any instances" })
  let instancesAll := instances1 ++ st.currentErrorStatus
  ({ unitSubjects := [], instances := instancesAll, errorServices := errorServices },
    { st with
      nodes := nodes'
      currentRunStatus := instancesAll
      currentErrorStatus := []
      pendingNewServices := [] })

/-- Trivial environment used by concrete instantiations of the C8 theorem. -/
def c6env : Env :=
  { getServiceInfo := fun _ => .error "service doesn't exist"
    getLayerInfo := fun _ => .error "layer doesn't exist"
    getUnitConfiguration := fun _ => ⟨0, [], [], []⟩
    monitoringData := fun _ => .ok (0, 0)
    prepareNetwork := fun _ _ _ => .ok ⟨"", "", []⟩
    setupStorageState := fun _ => .ok ("", "")
    getInstanceCheckSum := fun _ => "" }

def c6state : LauncherState :=
  { nodes := [], currentDesiredInstances := [], currentRunStatus := []
    currentErrorStatus := [], pendingNewServices := [], storageInstances := []
    uidPool := [] }

/-! ### Claim C8 -/

/-- The reported instances of a node that replied, with state checksums filled
in for entries without errors (launcher.go:540, 546-555). -/
def reportedChecksummed (env : Env) (node : NodeStatus) : List InstanceStatus :=
  node.receivedRunInstances.map fun i =>
    if i.errorInfo.isSome then i
    else { i with stateChecksum := env.getInstanceCheckSum i.instanceIdent }

/-- The synthetic timeout entries of a node that did not reply
(launcher.go:532-538). -/
def syntheticNodeStatuses (node : NodeStatus) : List InstanceStatus :=
  node.currentRunRequest.instances.map (syntheticTimeoutStatus node.nodeID)

/-- The contribution of one node to the emitted run status. -/
def nodeContribution (env : Env) (node : NodeStatus) : List InstanceStatus :=
  if node.waitStatus then syntheticNodeStatuses node else reportedChecksummed env node

/-- **C8** (confirmed): on connection-timeout expiry, `sendCurrentStatus` emits
exactly, per node: the reported instance statuses when the node replied, or
one synthetic entry per requested instance with `runState=failed` and message
"wait run status timeout" when the node is still pending — never both for the
same node — followed by the current error statuses. -/
theorem claim_C8_timeout_run_status (env : Env) (st : LauncherState) :
    (sendCurrentStatus env st).1.instances =
      (st.nodes.flatMap fun node => nodeContribution env node) ++ st.currentErrorStatus ∧
    ∀ node ∈ st.nodes,
      (node.waitStatus = true →
        nodeContribution env node = syntheticNodeStatuses node ∧
        ∀ s ∈ nodeContribution env node,
          s.runState = instanceStateFailed ∧
          s.errorInfo = some "wait run status timeout" ∧ s.nodeID = node.nodeID) ∧
      (node.waitStatus = false →
        nodeContribution env node = reportedChecksummed env node) := by
  constructor
  · show ((st.nodes.map fun node =>
        if node.waitStatus then
          ({ node with waitStatus := false },
            node.currentRunRequest.instances.map (syntheticTimeoutStatus node.nodeID))
        else (node, node.receivedRunInstances)).flatMap Prod.snd).map _ ++
        st.currentErrorStatus = _
    congr 1
    induction st.nodes with
    | nil => rfl
    | cons node rest ih =>
      by_cases hw : node.waitStatus
      · simp only [List.map_cons, List.flatMap_cons, hw, if_true, List.map_append, ih]
        congr 1
        simp only [nodeContribution, hw, if_true, syntheticNodeStatuses]
        rw [List.map_map]
        apply List.map_congr_left
        intro inst _
        simp [syntheticTimeoutStatus, Function.comp]
      · simp only [List.map_cons, List.flatMap_cons, hw, if_false, List.map_append, ih]
        congr 1
        simp [nodeContribution, hw, reportedChecksummed]
  · intro node _
    constructor
    · intro hw
      refine ⟨by simp [nodeContribution, hw], ?_⟩
      intro s hs
      simp only [nodeContribution, hw, if_true, syntheticNodeStatuses, List.mem_map] at hs
      obtain ⟨inst, _, rfl⟩ := hs
      simp [syntheticTimeoutStatus]
    · intro hw
      simp [nodeContribution, hw]

theorem claim_C8_timeout_run_status_witness :
    (sendCurrentStatus c6env c6state).1.instances =
      (c6state.nodes.flatMap fun node => nodeContribution c6env node) ++
        c6state.currentErrorStatus ∧
    ∀ node ∈ c6state.nodes,
      (node.waitStatus = true →
        nodeContribution c6env node = syntheticNodeStatuses node ∧
        ∀ s ∈ nodeContribution c6env node,
          s.runState = instanceStateFailed ∧
          s.errorInfo = some "wait run status timeout" ∧ s.nodeID = node.nodeID) ∧
      (node.waitStatus = false →
        nodeContribution c6env node = reportedChecksummed c6env node) :=
  claim_C8_timeout_run_status c6env c6state

/-! ### Claim C1 -/

/-- The device-accounting invariant of claim C1. -/
def deviceOK (d : NodeDevice) : Prop :=
  0 ≤ d.allocatedCount ∧ d.allocatedCount ≤ d.sharedCount

/-- Every device of every node satisfies the invariant. -/
def nodesDevicesOK (st : LauncherState) : Prop :=
  ∀ n ∈ st.nodes, ∀ d ∈ n.availableDevices, deviceOK d

/-- Unit configurations handed out by the resource manager have non-negative
shared counts. -/
def envDevicesOK (env : Env) : Prop :=
  ∀ nodeType, ∀ d ∈ (env.getUnitConfiguration nodeType).devices, 0 ≤ d.sharedCount

theorem allocateDeviceInList_ok {devices : List NodeDevice} {name : String}
    {devices' : List NodeDevice} (h : allocateDeviceInList devices name = .ok devices')
    (hok : ∀ d ∈ devices, deviceOK d) : ∀ d ∈ devices', deviceOK d := by
  induction devices generalizing devices' with
  | nil => simp [allocateDeviceInList] at h
  | cons d rest ih =>
    rw [allocateDeviceInList] at h
    by_cases hc : d.name = name ∧ d.sharedCount ≠ 0
    · rw [if_pos hc] at h
      by_cases hfull : d.allocatedCount = d.sharedCount
      · rw [if_pos hfull] at h
        simp at h
      · rw [if_neg hfull] at h
        obtain rfl := Except.ok.inj h
        intro d' hd'
        rcases List.mem_cons.mp hd' with rfl | hmem
        · obtain ⟨h0, h1⟩ := hok d (List.mem_cons_self _ _)
          have hcs := hc.2
          refine ⟨?_, ?_⟩
          · show (0 : Int) ≤ d.allocatedCount + 1
            omega
          · show d.allocatedCount + 1 ≤ d.sharedCount
            omega
        · exact hok d' (List.mem_cons_of_mem _ hmem)
    · rw [if_neg hc] at h
      cases hrec : allocateDeviceInList rest name with
      | error e => rw [hrec] at h ; simp at h
      | ok rest' =>
        rw [hrec] at h
        obtain rfl := Except.ok.inj h
        intro d' hd'
        rcases List.mem_cons.mp hd' with rfl | hmem
        · exact hok d' (List.mem_cons_self _ _)
        · exact ih hrec (fun x hx => hok x (List.mem_cons_of_mem _ hx)) d' hmem

theorem allocateDevices_ok {node : NodeStatus} {serviceDevices : List ServiceDevice}
    (hok : ∀ d ∈ node.availableDevices, deviceOK d) :
    ∀ d ∈ (allocateDevices node serviceDevices).1.availableDevices, deviceOK d := by
  induction serviceDevices generalizing node with
  | nil => simpa [allocateDevices] using hok
  | cons sd rest ih =>
    rw [allocateDevices]
    cases halloc : allocateDeviceInList node.availableDevices sd.name with
    | error e => simpa using hok
    | ok devices' =>
      exact ih (allocateDeviceInList_ok halloc hok)

theorem releaseDeviceInList_ok {devices : List NodeDevice} {name : String}
    {devices' : List NodeDevice} (h : releaseDeviceInList devices name = .ok devices')
    (hok : ∀ d ∈ devices, deviceOK d) : ∀ d ∈ devices', deviceOK d := by
  induction devices generalizing devices' with
  | nil => simp [releaseDeviceInList] at h
  | cons d rest ih =>
    rw [releaseDeviceInList] at h
    by_cases hc : d.name = name ∧ d.sharedCount ≠ 0
    · rw [if_pos hc] at h
      by_cases hzero : d.allocatedCount = 0
      · rw [if_pos hzero] at h
        simp at h
      · rw [if_neg hzero] at h
        obtain rfl := Except.ok.inj h
        intro d' hd'
        rcases List.mem_cons.mp hd' with rfl | hmem
        · obtain ⟨h0, h1⟩ := hok d (List.mem_cons_self _ _)
          refine ⟨?_, ?_⟩
          · show (0 : Int) ≤ d.allocatedCount - 1
            omega
          · show d.allocatedCount - 1 ≤ d.sharedCount
            omega
        · exact hok d' (List.mem_cons_of_mem _ hmem)
    · rw [if_neg hc] at h
      cases hrec : releaseDeviceInList rest name with
      | error e => rw [hrec] at h ; simp at h
      | ok rest' =>
        rw [hrec] at h
        obtain rfl := Except.ok.inj h
        intro d' hd'
        rcases List.mem_cons.mp hd' with rfl | hmem
        · exact hok d' (List.mem_cons_self _ _)
        · exact ih hrec (fun x hx => hok x (List.mem_cons_of_mem _ hx)) d' hmem

theorem releaseDevices_ok {node : NodeStatus} {serviceDevices : List ServiceDevice}
    (hok : ∀ d ∈ node.availableDevices, deviceOK d) :
    ∀ d ∈ (releaseDevices node serviceDevices).1.availableDevices, deviceOK d := by
  induction serviceDevices generalizing node with
  | nil => simpa [releaseDevices] using hok
  | cons sd rest ih =>
    rw [releaseDevices]
    cases hrel : releaseDeviceInList node.availableDevices sd.name with
    | error e => simpa using hok
    | ok devices' =>
      exact ih (releaseDeviceInList_ok hrel hok)

theorem addLayerToRequest_fields (nd : NodeStatus) (layer : ImLayerInfo) :
    (addLayerToRequest nd layer).availableDevices = nd.availableDevices ∧
      (addLayerToRequest nd layer).nodeID = nd.nodeID ∧
      (addLayerToRequest nd layer).currentRunRequest.instances =
        nd.currentRunRequest.instances ∧
      (addLayerToRequest nd layer).waitStatus = nd.waitStatus ∧
      (addLayerToRequest nd layer).receivedRunInstances = nd.receivedRunInstances ∧
      (addLayerToRequest nd layer).priority = nd.priority := by
  unfold addLayerToRequest
  refine ⟨?_, ?_, ?_, ?_, ?_, ?_⟩ <;>
    · dsimp only
      split_ifs <;> rfl

theorem foldl_addLayer_fields (layers : List ImLayerInfo) (nd : NodeStatus) :
    (layers.foldl addLayerToRequest nd).availableDevices = nd.availableDevices ∧
      (layers.foldl addLayerToRequest nd).nodeID = nd.nodeID ∧
      (layers.foldl addLayerToRequest nd).currentRunRequest.instances =
        nd.currentRunRequest.instances ∧
      (layers.foldl addLayerToRequest nd).waitStatus = nd.waitStatus ∧
      (layers.foldl addLayerToRequest nd).receivedRunInstances =
        nd.receivedRunInstances ∧
      (layers.foldl addLayerToRequest nd).priority = nd.priority := by
  induction layers generalizing nd with
  | nil => exact ⟨rfl, rfl, rfl, rfl, rfl, rfl⟩
  | cons a rest ih =>
    obtain ⟨s1, s2, s3, s4, s5, s6⟩ := addLayerToRequest_fields nd a
    obtain ⟨r1, r2, r3, r4, r5, r6⟩ := ih (addLayerToRequest nd a)
    rw [List.foldl_cons]
    exact ⟨r1.trans s1, r2.trans s2, r3.trans s3, r4.trans s4, r5.trans s5, r6.trans s6⟩

/-- `addRunRequest` only appends to the run request: every other node field is
unchanged and the instance is appended at the end. -/
theorem addRunRequest_spec (service : ImServiceInfo) (layers : List ImLayerInfo)
    (instanceInfo : AosInstanceInfo) (node : NodeStatus) :
    (addRunRequest service layers instanceInfo node).availableDevices =
        node.availableDevices ∧
      (addRunRequest service layers instanceInfo node).nodeID = node.nodeID ∧
      (addRunRequest service layers instanceInfo node).currentRunRequest.instances =
        node.currentRunRequest.instances ++ [instanceInfo] ∧
      (addRunRequest service layers instanceInfo node).waitStatus = node.waitStatus ∧
      (addRunRequest service layers instanceInfo node).receivedRunInstances =
        node.receivedRunInstances ∧
      (addRunRequest service layers instanceInfo node).priority = node.priority := by
  unfold addRunRequest
  obtain ⟨r1, r2, r3, r4, r5, r6⟩ := foldl_addLayer_fields layers _
  refine ⟨r1.trans ?_, r2.trans ?_, r3.trans ?_, r4.trans ?_, r5.trans ?_, r6.trans ?_⟩ <;>
    · split_ifs <;> simp

theorem foldl_best_mem {rest : List NodeStatus} {b : NodeStatus} :
    rest.foldl (fun best cur => if best.priority < cur.priority then cur else best) b = b ∨
      rest.foldl (fun best cur => if best.priority < cur.priority then cur else best) b ∈
        rest := by
  induction rest generalizing b with
  | nil => left ; rfl
  | cons c cs ih =>
    rw [List.foldl_cons]
    rcases @ih (if b.priority < c.priority then c else b) with h | h
    · rw [h]
      by_cases hp : b.priority < c.priority
      · right
        simp [hp]
      · left
        simp [hp]
    · right
      exact List.mem_cons_of_mem _ h

theorem getMostPriorityNode_mem {nodes : List NodeStatus} {n : NodeStatus}
    (h : getMostPriorityNode nodes = some n) : n ∈ nodes := by
  cases nodes with
  | nil => simp [getMostPriorityNode] at h
  | cons n0 rest =>
    rw [getMostPriorityNode] at h
    obtain rfl := Option.some.inj h
    rcases @foldl_best_mem rest n0 with h | h
    · rw [h]
      exact List.mem_cons_self _ _
    · exact List.mem_cons_of_mem _ h

theorem getNodesByDevices_subset {availableNodes : List NodeStatus}
    {desiredDevices : List ServiceDevice} {nodes : List NodeStatus}
    (h : getNodesByDevices availableNodes desiredDevices = .ok nodes) :
    ∀ n ∈ nodes, n ∈ availableNodes := by
  unfold getNodesByDevices at h
  by_cases hd : desiredDevices.isEmpty
  · rw [if_pos hd] at h
    obtain rfl := Except.ok.inj h
    exact fun n hn => hn
  · rw [if_neg hd] at h
    by_cases hnil : (availableNodes.filter fun node =>
        nodeHasDesiredDevices node desiredDevices).isEmpty
    · rw [if_pos hnil] at h
      simp at h
    · rw [if_neg hnil] at h
      obtain rfl := Except.ok.inj h
      exact fun n hn => (List.mem_filter.mp hn).1

theorem mem_insertSortedBy {α : Type} {less : α → α → Bool} {x y : α} {l : List α}
    (h : y ∈ insertSortedBy less x l) : y = x ∨ y ∈ l := by
  induction l with
  | nil => simpa [insertSortedBy] using h
  | cons a rest ih =>
    rw [insertSortedBy] at h
    by_cases hc : less x a
    · rw [if_pos hc] at h
      rcases List.mem_cons.mp h with h | h
      · left ; exact h
      · right ; exact h
    · rw [if_neg hc] at h
      rcases List.mem_cons.mp h with h | h
      · right ; rw [h] ; exact List.mem_cons_self _ _
      · rcases ih h with h | h
        · left ; exact h
        · right ; exact List.mem_cons_of_mem _ h

theorem mem_sortBy {α : Type} {less : α → α → Bool} {y : α} {l : List α}
    (h : y ∈ sortBy less l) : y ∈ l := by
  induction l with
  | nil => simpa [sortBy] using h
  | cons a rest ih =>
    rw [sortBy] at h
    rcases mem_insertSortedBy h with h | h
    · rw [h] ; exact List.mem_cons_self _ _
    · exact List.mem_cons_of_mem _ (ih h)

theorem getNodeByMonitoringData_subset (env : Env) (nodes : List NodeStatus)
    (alertType : String) :
    ∀ n ∈ getNodeByMonitoringData env nodes alertType, n ∈ nodes := by
  intro n hn
  unfold getNodeByMonitoringData at hn
  by_cases hone : nodes.length == 1
  · rw [if_pos hone] at hn
    exact hn
  · rw [if_neg hone] at hn
    dsimp only at hn
    by_cases hcpu : alertType = "cpu" <;>
      [rw [if_pos hcpu] at hn; rw [if_neg hcpu] at hn] <;>
      · obtain ⟨p, hp, rfl⟩ := List.mem_map.mp hn
        obtain ⟨q, hq, rfl⟩ := List.mem_map.mp (mem_sortBy hp)
        exact hq

theorem getNode_mem {st : LauncherState} {nodeID : String} {n : NodeStatus}
    (h : getNode st nodeID = some n) : n ∈ st.nodes :=
  List.mem_of_find?_eq_some h

theorem updateNode_devicesOK {st : LauncherState} {nodeID : String}
    {f : NodeStatus → NodeStatus} (h : nodesDevicesOK st)
    (hf : ∀ n ∈ st.nodes, ∀ d ∈ (f n).availableDevices, deviceOK d) :
    nodesDevicesOK (updateNode st nodeID f) := by
  intro n hn d hd
  simp only [updateNode, List.mem_map] at hn
  obtain ⟨m, hm, rfl⟩ := hn
  by_cases hid : m.nodeID = nodeID
  · rw [if_pos hid] at hd
    exact hf m hm d hd
  · rw [if_neg hid] at hd
    exact h m hm d hd

theorem balanceInstanceIndex_devicesOK (env : Env) (st : LauncherState)
    (group : CloudInstanceInfo) (service : ImServiceInfo) (layers : List ImLayerInfo)
    (staticNodeIDs : List String) (index : Nat) (h : nodesDevicesOK st) :
    nodesDevicesOK
      (balanceInstanceIndex env st group service layers staticNodeIDs index).1 := by
  unfold balanceInstanceIndex
  dsimp only
  split
  · exact h
  · rename_i nodeForInstance hdev
    split
    · exact h
    · rename_i node hmp
      have hnodemem : node ∈ st.nodes :=
        (List.mem_filter.mp (getNodesByDevices_subset hdev node
          (getMostPriorityNode_mem hmp))).1
      have hnodeok : ∀ d ∈ node.availableDevices, deviceOK d := h node hnodemem
      have hallocok := @allocateDevices_ok node service.config.devices hnodeok
      split
      · exact updateNode_devicesOK h fun n _ d hd => hallocok d hd
      · apply updateNode_devicesOK h
        intro n _ d hd
        rw [(addRunRequest_spec service layers _ _).1] at hd
        exact hallocok d hd

theorem balanceGroup_devicesOK (env : Env) (st : LauncherState)
    (group : CloudInstanceInfo) (h : nodesDevicesOK st) :
    nodesDevicesOK (balanceGroup env st group).1 := by
  unfold balanceGroup
  cases env.getServiceInfo group.serviceID with
  | error e => exact h
  | ok serviceInfo =>
    by_cases hc : serviceInfo.cached
    · simp only [hc, if_true]
      exact h
    · simp only [hc, Bool.false_eq_true, if_false]
      cases getLayersForService env serviceInfo.layers with
      | error e => exact h
      | ok layers =>
        cases getNodesByStaticResources st.nodes serviceInfo group with
        | error e => exact h
        | ok staticNodes =>
          have hfold : ∀ (l : List Nat) (acc : LauncherState × List InstanceStatus),
              nodesDevicesOK acc.1 →
              nodesDevicesOK (l.foldl (fun acc instanceIndex =>
                let r := balanceInstanceIndex env acc.1 group serviceInfo layers
                  (staticNodes.map (·.nodeID)) instanceIndex
                (r.1, acc.2 ++ r.2)) acc).1 := by
            intro l
            induction l with
            | nil => intro acc hacc ; exact hacc
            | cons a rest ih =>
              intro acc hacc
              exact ih _ (balanceInstanceIndex_devicesOK env acc.1 group serviceInfo
                layers (staticNodes.map (·.nodeID)) a hacc)
          exact hfold _ _ h

theorem balanceGroups_devicesOK (env : Env) (st : LauncherState)
    (groups : List CloudInstanceInfo) (h : nodesDevicesOK st) :
    nodesDevicesOK (balanceGroups env st groups).1 := by
  unfold balanceGroups
  have hfold : ∀ (l : List CloudInstanceInfo) (acc : LauncherState × List InstanceStatus),
      nodesDevicesOK acc.1 →
      nodesDevicesOK (l.foldl (fun acc group =>
        let r := balanceGroup env acc.1 group
        (r.1, acc.2 ++ r.2)) acc).1 := by
    intro l
    induction l with
    | nil => intro acc hacc ; exact hacc
    | cons a rest ih =>
      intro acc hacc
      exact ih _ (balanceGroup_devicesOK env acc.1 a hacc)
  exact hfold _ _ h

theorem prepareNetworkForInstances_devicesOK (env : Env) (st : LauncherState)
    (onlyExposedPorts : Bool) (h : nodesDevicesOK st) :
    nodesDevicesOK (prepareNetworkForInstances env st onlyExposedPorts).1 := by
  intro n hn d hd
  simp only [prepareNetworkForInstances, List.map_map, List.mem_map] at hn
  obtain ⟨m, hm, rfl⟩ := hn
  exact h m hm d hd

theorem removeInstances_nodes (st : LauncherState) (instances : List CloudInstanceInfo) :
    (removeInstances st instances).nodes = st.nodes := by
  unfold removeInstances
  have hfold : ∀ (l : List (InstanceIdent × Nat)) (acc : LauncherState),
      acc.nodes = st.nodes →
      (l.foldl (fun acc p =>
        if isDesiredIdent p.1 instances then acc
        else { acc with
               uidPool := (removeUID acc.uidPool p.2)
               storageInstances := (acc.storageInstances.filter fun q => q.1 != p.1) }) acc).nodes =
        st.nodes := by
    intro l
    induction l with
    | nil => intro acc hacc ; exact hacc
    | cons a rest ih =>
      intro acc hacc
      rw [List.foldl_cons]
      apply ih
      dsimp only
      by_cases hdes : isDesiredIdent a.1 instances
      · rw [if_pos hdes] ; exact hacc
      · rw [if_neg hdes] ; exact hacc
  exact hfold _ _ rfl

theorem performNodeBalancing_devicesOK (env : Env) (st : LauncherState)
    (instances : List CloudInstanceInfo) (h : nodesDevicesOK st) :
    nodesDevicesOK (performNodeBalancing env st instances).1 := by
  unfold performNodeBalancing
  apply prepareNetworkForInstances_devicesOK
  apply prepareNetworkForInstances_devicesOK
  apply balanceGroups_devicesOK
  have hreset : nodesDevicesOK { st with nodes := st.nodes.map fun n =>
      { n with currentRunRequest := ⟨[], [], []⟩ } } := by
    intro n hn d hd
    simp only [List.mem_map] at hn
    obtain ⟨m, hm, rfl⟩ := hn
    exact h m hm d hd
  intro n hn d hd
  rw [removeInstances_nodes] at hn
  exact hreset n hn d hd

theorem resetDeviceAllocation_devicesOK (st : LauncherState) (h : nodesDevicesOK st) :
    nodesDevicesOK (resetDeviceAllocation st) := by
  intro n hn d hd
  simp only [resetDeviceAllocation, List.mem_map] at hn
  obtain ⟨m, hm, rfl⟩ := hn
  simp only [List.mem_map] at hd
  obtain ⟨e, he, rfl⟩ := hd
  obtain ⟨h0, h1⟩ := h m hm e he
  exact ⟨le_refl 0, by show (0 : Int) ≤ e.sharedCount ; omega⟩

theorem initNodeUnitConfiguration_devicesOK (env : Env) (henv : envDevicesOK env)
    (node : NodeStatus) (nodeType : String) :
    ∀ d ∈ (initNodeUnitConfiguration env node nodeType).availableDevices, deviceOK d := by
  intro d hd
  simp only [initNodeUnitConfiguration, List.mem_map] at hd
  obtain ⟨e, he, rfl⟩ := hd
  exact ⟨le_refl 0, henv nodeType e he⟩

theorem getNodesForRebalancing_devicesOK (st : LauncherState) (nodeID : String)
    (h : nodesDevicesOK st) :
    nodesDevicesOK (getNodesForRebalancingByNodePriority st nodeID).1 := by
  unfold getNodesForRebalancingByNodePriority
  cases getNode st nodeID with
  | none => exact h
  | some nodeWithIssue =>
    intro n hn d hd
    exact h n (mem_sortBy hn) d hd

theorem tryRebalanceIndex_devicesOK (env : Env) (alertParam sourceID : String)
    (st : LauncherState) (i : Nat) (h : nodesDevicesOK st) :
    nodesDevicesOK (tryRebalanceIndex env alertParam sourceID st i).1 := by
  unfold tryRebalanceIndex
  split
  · exact h
  · rename_i nodeWithIssue hsrc
    split
    · exact h
    · rename_i inst hinst
      split <;>
      · dsimp only
        split
        · exact h
        · rename_i serviceInfo hsvc
          split
          · exact h
          · rename_i nodes0 hstat
            split
            · exact h
            · rename_i nodes1 hdevs
              split
              · exact h
              · rename_i layersForService hlay
                split
                · exact h
                · rename_i dest hdest
                  have hafter : nodesDevicesOK (updateNode st dest.nodeID
                      (addRunRequest serviceInfo layersForService inst)) := by
                    apply updateNode_devicesOK h
                    intro n hn d hd
                    rw [(addRunRequest_spec serviceInfo layersForService inst n).1] at hd
                    exact h n hn d hd
                  split
                  · exact hafter
                  · rename_i src hsrc2
                    have hsrcok : ∀ d ∈ src.availableDevices, deviceOK d :=
                      hafter src (getNode_mem hsrc2)
                    have hrelok := @releaseDevices_ok src serviceInfo.config.devices hsrcok
                    have hafter2 : nodesDevicesOK (updateNode
                        (updateNode st dest.nodeID
                          (addRunRequest serviceInfo layersForService inst)) sourceID
                        fun _ => (releaseDevices src serviceInfo.config.devices).1) :=
                      updateNode_devicesOK hafter fun n _ d hd => hrelok d hd
                    split
                    · exact hafter2
                    · apply updateNode_devicesOK hafter2
                      intro n hn d hd
                      exact hafter2 n hn d hd

theorem rebalanceScan_devicesOK (env : Env) (alertParam sourceID : String) (i : Nat)
    (st : LauncherState) (h : nodesDevicesOK st) :
    nodesDevicesOK (rebalanceScan env alertParam sourceID i st) := by
  induction i generalizing st with
  | zero =>
    rw [rebalanceScan]
    split
    · exact tryRebalanceIndex_devicesOK env alertParam sourceID st 0 h
    · exact tryRebalanceIndex_devicesOK env alertParam sourceID st 0 h
  | succ i' ih =>
    rw [rebalanceScan]
    split
    · exact tryRebalanceIndex_devicesOK env alertParam sourceID st (i' + 1) h
    · exact ih _ (tryRebalanceIndex_devicesOK env alertParam sourceID st (i' + 1) h)

theorem performRebalancing_devicesOK (env : Env) (st : LauncherState)
    (alert : SystemQuotaAlert) (h : nodesDevicesOK st) :
    nodesDevicesOK (performRebalancing env st alert) := by
  unfold performRebalancing
  dsimp only
  have hg := getNodesForRebalancing_devicesOK st alert.nodeID h
  split
  · exact hg
  · have hbal : nodesDevicesOK (performNodeBalancing env
        { resetDeviceAllocation (getNodesForRebalancingByNodePriority st alert.nodeID).1 with
          currentDesiredInstances := sortInstances (resetDeviceAllocation
            (getNodesForRebalancingByNodePriority st alert.nodeID).1).currentDesiredInstances }
        (resetDeviceAllocation
          (getNodesForRebalancingByNodePriority st alert.nodeID).1).currentDesiredInstances).1 :=
      performNodeBalancing_devicesOK env _ _ (resetDeviceAllocation_devicesOK _ hg)
    split
    · exact hbal
    · split
      · exact hbal
      · exact rebalanceScan_devicesOK env alert.parameter alert.nodeID _ _ hbal

theorem runInstancesOp_devicesOK (env : Env) (st : LauncherState)
    (instances : List CloudInstanceInfo) (newServices : List String)
    (h : nodesDevicesOK st) :
    nodesDevicesOK (runInstancesOp env st instances newServices) := by
  unfold runInstancesOp
  exact performNodeBalancing_devicesOK env _ _ (resetDeviceAllocation_devicesOK st h)

theorem restartInstancesOp_devicesOK (env : Env) (st : LauncherState)
    (henv : envDevicesOK env) (_h : nodesDevicesOK st) :
    nodesDevicesOK (restartInstancesOp env st) := by
  unfold restartInstancesOp
  apply performNodeBalancing_devicesOK
  intro n hn d hd
  simp only [List.mem_map] at hn
  obtain ⟨m, hm, rfl⟩ := hn
  exact initNodeUnitConfiguration_devicesOK env henv m m.nodeType d hd

/-- **C1** (confirmed): starting from a state whose devices satisfy
`0 ≤ allocatedCount ≤ sharedCount`, and with unit configurations whose shared
counts are non-negative, any sequence of `RunInstances`, `RestartInstances`
and rebalancing passes preserves the invariant on every device of every node:
allocations are reset (or rebuilt at zero) at the start of each pass,
`allocateDevices` increments only strictly below the shared count and errors
otherwise, and `releaseDevices` decrements only strictly above zero. -/
theorem claim_C1_device_invariant (env : Env) (st : LauncherState)
    (ops : List LauncherOp) (henv : envDevicesOK env) (hst : nodesDevicesOK st) :
    nodesDevicesOK (applyOps env st ops) := by
  induction ops generalizing st with
  | nil => exact hst
  | cons op rest ih =>
    apply ih
    cases op with
    | runInstances instances newServices =>
      exact runInstancesOp_devicesOK env st instances newServices hst
    | restartInstances => exact restartInstancesOp_devicesOK env st henv hst
    | rebalance alert => exact performRebalancing_devicesOK env st alert hst

/-- Environment and state instantiating C1 concretely. -/
def c1env : Env :=
  { getServiceInfo := fun _ => .error "service doesn't exist"
    getLayerInfo := fun _ => .error "layer doesn't exist"
    getUnitConfiguration := fun _ => ⟨0, [], [], [⟨"d", 1⟩]⟩
    monitoringData := fun _ => .ok (0, 0)
    prepareNetwork := fun _ _ _ => .ok ⟨"", "", []⟩
    setupStorageState := fun _ => .ok ("", "")
    getInstanceCheckSum := fun _ => "" }

def c1state : LauncherState :=
  { nodes := [{ nodeID := "n1", nodeType := "t", remoteNode := false
                runnerFeatures := ["crun"], totalRAM := 100, numCPUs := 1
                availableResources := [], availableLabels := []
                availableDevices := [⟨"d", 1, 0⟩], priority := 1
                receivedRunInstances := [], currentRunRequest := ⟨[], [], []⟩
                waitStatus := false }]
    currentDesiredInstances := [], currentRunStatus := [], currentErrorStatus := []
    pendingNewServices := [], storageInstances := [], uidPool := [] }

theorem claim_C1_device_invariant_witness :
    nodesDevicesOK (applyOps c1env c1state
      [.runInstances [⟨"s", "subj", 1, 1, []⟩] [], .restartInstances]) :=
  claim_C1_device_invariant c1env c1state
    [.runInstances [⟨"s", "subj", 1, 1, []⟩] [], .restartInstances]
    (by intro t d hd
        simp only [c1env, List.mem_singleton] at hd
        rw [hd]
        decide)
    (by intro n hn d hd
        simp only [c1state, List.mem_singleton] at hn
        subst hn
        simp only [List.mem_singleton] at hd
        rw [hd]
        exact ⟨by decide, by decide⟩)

/-! ### Claim C2 -/

/-- Pointwise device relation for C2: an entry with `sharedCount = 0` is left
unchanged. -/
def zeroKept (d d' : NodeDevice) : Prop :=
  d.sharedCount = 0 → d' = d

theorem forall₂_zeroKept_refl (devices : List NodeDevice) :
    List.Forall₂ zeroKept devices devices := by
  rw [List.forall₂_same]
  intro x _ _
  rfl

theorem forall₂_zeroKept_trans {l1 l2 l3 : List NodeDevice}
    (h12 : List.Forall₂ zeroKept l1 l2) (h23 : List.Forall₂ zeroKept l2 l3) :
    List.Forall₂ zeroKept l1 l3 := by
  induction h12 generalizing l3 with
  | nil =>
    cases h23
    exact .nil
  | cons hab hrest ih =>
    rename_i a b r1 r2
    cases h23 with
    | cons hbc hrest2 =>
      refine .cons ?_ (ih hrest2)
      intro hz
      have hb : b = a := hab hz
      have hbz : b.sharedCount = 0 := by rw [hb]; exact hz
      rw [hbc hbz, hb]

theorem allocateDeviceInList_zeroKept {devices : List NodeDevice} {name : String}
    {devices' : List NodeDevice} (h : allocateDeviceInList devices name = .ok devices') :
    List.Forall₂ zeroKept devices devices' := by
  induction devices generalizing devices' with
  | nil => simp [allocateDeviceInList] at h
  | cons d rest ih =>
    rw [allocateDeviceInList] at h
    by_cases hc : d.name = name ∧ d.sharedCount ≠ 0
    · rw [if_pos hc] at h
      by_cases hfull : d.allocatedCount = d.sharedCount
      · rw [if_pos hfull] at h
        simp at h
      · rw [if_neg hfull] at h
        obtain rfl := Except.ok.inj h
        exact .cons (fun hz => absurd hz hc.2) (forall₂_zeroKept_refl rest)
    · rw [if_neg hc] at h
      cases hrec : allocateDeviceInList rest name with
      | error e => rw [hrec] at h; simp at h
      | ok rest' =>
        rw [hrec] at h
        obtain rfl := Except.ok.inj h
        exact .cons (fun _ => rfl) (ih hrec)

theorem allocateDevices_zeroKept (node : NodeStatus) (serviceDevices : List ServiceDevice) :
    List.Forall₂ zeroKept node.availableDevices
      (allocateDevices node serviceDevices).1.availableDevices := by
  induction serviceDevices generalizing node with
  | nil => exact forall₂_zeroKept_refl _
  | cons sd rest ih =>
    rw [allocateDevices]
    cases halloc : allocateDeviceInList node.availableDevices sd.name with
    | error e => exact forall₂_zeroKept_refl _
    | ok devices' =>
      exact forall₂_zeroKept_trans (allocateDeviceInList_zeroKept halloc)
        (ih { node with availableDevices := devices' })

/-- `allocateDeviceInList` never changes a device's name or shared count, so
any predicate on those fields survives allocation. -/
theorem allocateDeviceInList_pres (P : String → Int → Prop) {devices : List NodeDevice}
    {name : String} {devices' : List NodeDevice}
    (h : allocateDeviceInList devices name = .ok devices')
    (hall : ∀ d ∈ devices, P d.name d.sharedCount) :
    ∀ d ∈ devices', P d.name d.sharedCount := by
  induction devices generalizing devices' with
  | nil => simp [allocateDeviceInList] at h
  | cons d rest ih =>
    rw [allocateDeviceInList] at h
    by_cases hc : d.name = name ∧ d.sharedCount ≠ 0
    · rw [if_pos hc] at h
      by_cases hfull : d.allocatedCount = d.sharedCount
      · rw [if_pos hfull] at h
        simp at h
      · rw [if_neg hfull] at h
        obtain rfl := Except.ok.inj h
        intro d' hd'
        rcases List.mem_cons.mp hd' with rfl | hmem
        · exact hall d (List.mem_cons_self _ _)
        · exact hall d' (List.mem_cons_of_mem _ hmem)
    · rw [if_neg hc] at h
      cases hrec : allocateDeviceInList rest name with
      | error e => rw [hrec] at h; simp at h
      | ok rest' =>
        rw [hrec] at h
        obtain rfl := Except.ok.inj h
        intro d' hd'
        rcases List.mem_cons.mp hd' with rfl | hmem
        · exact hall d' (List.mem_cons_self _ _)
        · exact ih hrec (fun x hx => hall x (List.mem_cons_of_mem _ hx)) d' hmem

/-- When every entry carrying the requested name is a zero-capacity marker,
the device scan falls through and errors (launcher.go:1044-1058). -/
theorem allocateDeviceInList_all_zero {devices : List NodeDevice} {name : String}
    (hzero : ∀ d ∈ devices, d.name = name → d.sharedCount = 0) :
    allocateDeviceInList devices name = .error ("can't allocate device: " ++ name) := by
  induction devices with
  | nil => rfl
  | cons d rest ih =>
    rw [allocateDeviceInList]
    have hc : ¬(d.name = name ∧ d.sharedCount ≠ 0) := by
      rintro ⟨hn, hs⟩
      exact hs (hzero d (List.mem_cons_self _ _) hn)
    rw [if_neg hc, ih fun x hx => hzero x (List.mem_cons_of_mem _ hx)]

theorem allocateDevices_some {node : NodeStatus} {serviceDevices : List ServiceDevice}
    {sd : ServiceDevice} (hmem : sd ∈ serviceDevices)
    (hzero : ∀ d ∈ node.availableDevices, d.name = sd.name → d.sharedCount = 0) :
    (allocateDevices node serviceDevices).2.isSome = true := by
  induction serviceDevices generalizing node with
  | nil => cases hmem
  | cons sd0 rest ih =>
    rw [allocateDevices]
    rcases List.mem_cons.mp hmem with rfl | hmem'
    · rw [allocateDeviceInList_all_zero hzero]
      rfl
    · cases halloc : allocateDeviceInList node.availableDevices sd0.name with
      | error e => rfl
      | ok devices' =>
        exact ih hmem'
          (allocateDeviceInList_pres (fun nm sc => nm = sd.name → sc = 0) halloc hzero)

/-- The device filter admits a node on which the desired device exists only as
a zero-capacity marker. -/
theorem nodeHasDesiredDevices_zero_admits {node : NodeStatus} {sd : ServiceDevice}
    {nd : NodeDevice} (hnd : nd ∈ node.availableDevices) (hname : nd.name = sd.name)
    (hzero : nd.sharedCount = 0) :
    nodeHasDesiredDevices node [sd] = true := by
  unfold nodeHasDesiredDevices
  rw [List.all_eq_true]
  intro x hx
  simp only [List.mem_singleton] at hx
  subst hx
  rw [List.any_eq_true]
  exact ⟨nd, hnd, by simp [hname, hzero]⟩

/-- Service of the C2 scenario: requires a single device `d`. -/
def c2serv : ImServiceInfo :=
  { serviceInfo := { id := "s", aosVersion := 1, url := "u", gid := 0 }
    remoteURL := "r"
    config := { runner := "crun", devices := [⟨"d"⟩], resources := []
                hostname := none, allowedConnections := [], stateLimit := none
                storageLimit := none }
    layers := [], cached := false, providerID := "p", exposedPorts := [] }

def c2env : Env :=
  { getServiceInfo := fun id => if id == "s" then .ok c2serv else .error "service doesn't exist"
    getLayerInfo := fun _ => .error "layer doesn't exist"
    getUnitConfiguration := fun _ => ⟨0, [], [], []⟩
    monitoringData := fun _ => .ok (0, 0)
    prepareNetwork := fun _ _ _ => .ok ⟨"", "", []⟩
    setupStorageState := fun _ => .ok ("", "")
    getInstanceCheckSum := fun _ => "" }

/-- Highest-priority node: `d` is present only as a zero-capacity marker. -/
def c2nodeA : NodeStatus :=
  { nodeID := "A", nodeType := "t", remoteNode := false, runnerFeatures := ["crun"]
    totalRAM := 100, numCPUs := 1, availableResources := [], availableLabels := []
    availableDevices := [⟨"d", 0, 0⟩], priority := 100, receivedRunInstances := []
    currentRunRequest := ⟨[], [], []⟩, waitStatus := false }

/-- Lower-priority node: `d` with one free slot. -/
def c2nodeB : NodeStatus :=
  { c2nodeA with nodeID := "B", availableDevices := [⟨"d", 1, 0⟩], priority := 50 }

def c2state : LauncherState :=
  { nodes := [c2nodeA, c2nodeB], currentDesiredInstances := [], currentRunStatus := []
    currentErrorStatus := [], pendingNewServices := [], storageInstances := [], uidPool := [] }

/-- **C2** (counterexample to the claim as stated): the static filters admit
both nodes, and `B` carries device `d` with `sharedCount = 1` and a free slot;
yet the placement pass fails the instance with "can't allocate device: d" and
places it on no node, because the device filter also admits the
higher-priority node `A` (where `d` has `sharedCount = 0`) and allocation is
attempted only on the most-priority admitted node. -/
theorem claim_C2_counterexample :
    getNodesByStaticResources c2state.nodes c2serv ⟨"s", "subj", 1, 1, []⟩ =
      .ok [c2nodeA, c2nodeB] ∧
    c2nodeB.availableDevices = [⟨"d", 1, 0⟩] ∧
    ((runInstancesOp c2env c2state [⟨"s", "subj", 1, 1, []⟩] []).currentErrorStatus.map
        fun s => (s.instanceIdent, s.errorInfo)) =
      [(⟨"s", "subj", 0⟩, some "can't allocate device: d")] ∧
    ∀ n ∈ (runInstancesOp c2env c2state [⟨"s", "subj", 1, 1, []⟩] []).nodes,
      n.currentRunRequest.instances = [] :=
  ⟨by rfl, rfl, by decide, by decide⟩

/-- **C2** (corrected): what allocation actually guarantees.  After any
placement pass no zero-capacity device entry is allocated; `allocateDevices`
relates the device list of a node to the result so that every
`sharedCount = 0` entry is unchanged; when every entry named like a required
device on the node is a zero-capacity marker, allocation on that node fails;
and the device filter nevertheless admits such a node — so the instance is
not necessarily placed on an admitted node with free `sharedCount > 0`
capacity, the most-priority admitted node being chosen regardless. -/
theorem claim_C2_amended (env : Env) (st : LauncherState)
    (instances : List CloudInstanceInfo) (newServices : List String)
    (node : NodeStatus) (serviceDevices : List ServiceDevice) (sd : ServiceDevice)
    (nd : NodeDevice) (hst : nodesDevicesOK st) (hmem : sd ∈ serviceDevices)
    (hzero : ∀ d ∈ node.availableDevices, d.name = sd.name → d.sharedCount = 0)
    (hnd : nd ∈ node.availableDevices) (hname : nd.name = sd.name) :
    (∀ n ∈ (runInstancesOp env st instances newServices).nodes,
      ∀ d ∈ n.availableDevices, d.sharedCount = 0 → d.allocatedCount = 0) ∧
    List.Forall₂ zeroKept node.availableDevices
      (allocateDevices node serviceDevices).1.availableDevices ∧
    (allocateDevices node serviceDevices).2.isSome = true ∧
    nodeHasDesiredDevices node [sd] = true := by
  refine ⟨?_, allocateDevices_zeroKept node serviceDevices, allocateDevices_some hmem hzero,
    nodeHasDesiredDevices_zero_admits hnd hname (hzero nd hnd hname)⟩
  intro n hn d hd hz
  obtain ⟨h0, h1⟩ := runInstancesOp_devicesOK env st instances newServices hst n hn d hd
  omega

theorem claim_C2_amended_witness :
    (∀ n ∈ (runInstancesOp c2env c2state [⟨"s", "subj", 1, 1, []⟩] []).nodes,
      ∀ d ∈ n.availableDevices, d.sharedCount = 0 → d.allocatedCount = 0) ∧
    List.Forall₂ zeroKept c2nodeA.availableDevices
      (allocateDevices c2nodeA [⟨"d"⟩]).1.availableDevices ∧
    (allocateDevices c2nodeA [⟨"d"⟩]).2.isSome = true ∧
    nodeHasDesiredDevices c2nodeA [⟨"d"⟩] = true :=
  claim_C2_amended c2env c2state [⟨"s", "subj", 1, 1, []⟩] [] c2nodeA [⟨"d"⟩] ⟨"d"⟩
    ⟨"d", 0, 0⟩
    (by intro n hn d hd
        simp only [c2state, List.mem_cons, List.not_mem_nil, or_false] at hn
        rcases hn with rfl | rfl
        · simp only [c2nodeA, List.mem_singleton] at hd
          rw [hd]
          exact ⟨by decide, by decide⟩
        · simp only [c2nodeB, c2nodeA, List.mem_singleton] at hd
          rw [hd]
          exact ⟨by decide, by decide⟩)
    (by decide) (by decide) (by decide) (by decide)

/-! ### Claim C3 -/

/-- The successful-move step of the rebalancing scan (launcher.go:421-476),
written out: the destination's run request gains the instance, the source's
devices are released and the scanned index is removed from the source's run
request — and nothing else happens; in particular no device allocation is
performed on the destination. -/
theorem tryRebalanceIndex_success_eq (env : Env) (alertParam sourceID : String)
    (st : LauncherState) (i : Nat) (nwi : NodeStatus) (inst : AosInstanceInfo)
    (svc : ImServiceInfo) (labels : List String) (ns0 ns1 : List NodeStatus)
    (dest : NodeStatus) (layersForService : List ImLayerInfo) (src : NodeStatus)
    (h1 : getNode st sourceID = some nwi)
    (h2 : nwi.currentRunRequest.instances.get? i = some inst)
    (h3 : env.getServiceInfo inst.instanceIdent.serviceID = .ok svc)
    (h4 : getLabelsForInstance st inst.instanceIdent = .ok labels)
    (h5 : getNodesByStaticResources st.nodes svc
        { serviceID := inst.instanceIdent.serviceID
          subjectID := inst.instanceIdent.subjectID
          priority := 0, numInstances := 0, labels := labels } = .ok ns0)
    (h6 : getNodesByDevices ns0 svc.config.devices = .ok ns1)
    (h7 : getLayersForService env svc.layers = .ok layersForService)
    (h8 : (getNodeByMonitoringData env ns1 alertParam).head? = some dest)
    (h9 : getNode (updateNode st dest.nodeID (addRunRequest svc layersForService inst))
        sourceID = some src)
    (h10 : (releaseDevices src svc.config.devices).2 = none) :
    tryRebalanceIndex env alertParam sourceID st i =
      (updateNode
        (updateNode (updateNode st dest.nodeID (addRunRequest svc layersForService inst))
          sourceID fun _ => (releaseDevices src svc.config.devices).1)
        sourceID fun n =>
          { n with currentRunRequest :=
            { n.currentRunRequest with instances :=
                n.currentRunRequest.instances.take i ++
                  n.currentRunRequest.instances.drop (i + 1) } },
        true) := by
  unfold tryRebalanceIndex
  rw [h1]
  dsimp only
  rw [h2]
  dsimp only
  rw [h3]
  dsimp only
  rw [h4]
  dsimp only
  rw [h5]
  dsimp only
  rw [h6]
  dsimp only
  rw [h7]
  dsimp only
  rw [h8]
  dsimp only
  rw [h9]
  dsimp only
  rw [h10]

/-- C3 scenario: both nodes carry device `d` with one slot. -/
def c3nodeA : NodeStatus :=
  { c2nodeA with availableDevices := [⟨"d", 1, 0⟩] }

def c3nodeB : NodeStatus :=
  { c2nodeA with nodeID := "B", availableDevices := [⟨"d", 1, 0⟩], priority := 50 }

def c3state : LauncherState :=
  { nodes := [c3nodeA, c3nodeB], currentDesiredInstances := [⟨"s", "subj", 1, 1, []⟩]
    currentRunStatus := [], currentErrorStatus := [], pendingNewServices := []
    storageInstances := [], uidPool := [] }

/-- **C3** (counterexample to the claim as stated): a rebalancing pass
triggered by an alert on node `A` moves the only instance — whose service
requires device `d` — to destination `B`, yet `B` ends the pass with
`allocatedCount = 0` for `d`: the rebalancer never reallocates the released
devices on the destination node. -/
theorem claim_C3_counterexample :
    ((performRebalancing c2env c3state ⟨"A", "ram"⟩).nodes.map fun n =>
        (n.nodeID, n.currentRunRequest.instances.map (·.instanceIdent),
          n.availableDevices)) =
      [("B", [⟨"s", "subj", 0⟩], [⟨"d", 1, 0⟩]),
        ("A", [], [⟨"d", 1, 0⟩])] := by
  decide

/-- **C3** (corrected): when the scan finds a movable instance at index `i`
(the listed side conditions are exactly the success path of
launcher.go:421-476), the move appends the instance to the destination's run
request, releases the instance's devices on the source, removes index `i`
from the source's run request, and the scan stops with this first successful
move; the destination's device allocation counters are left untouched — no
reallocation is performed on the destination. -/
theorem claim_C3_amended (env : Env) (alertParam sourceID : String)
    (st : LauncherState) (i : Nat) (nwi : NodeStatus) (inst : AosInstanceInfo)
    (svc : ImServiceInfo) (labels : List String) (ns0 ns1 : List NodeStatus)
    (dest : NodeStatus) (layersForService : List ImLayerInfo) (src : NodeStatus)
    (h1 : getNode st sourceID = some nwi)
    (h2 : nwi.currentRunRequest.instances.get? i = some inst)
    (h3 : env.getServiceInfo inst.instanceIdent.serviceID = .ok svc)
    (h4 : getLabelsForInstance st inst.instanceIdent = .ok labels)
    (h5 : getNodesByStaticResources st.nodes svc
        { serviceID := inst.instanceIdent.serviceID
          subjectID := inst.instanceIdent.subjectID
          priority := 0, numInstances := 0, labels := labels } = .ok ns0)
    (h6 : getNodesByDevices ns0 svc.config.devices = .ok ns1)
    (h7 : getLayersForService env svc.layers = .ok layersForService)
    (h8 : (getNodeByMonitoringData env ns1 alertParam).head? = some dest)
    (h9 : getNode (updateNode st dest.nodeID (addRunRequest svc layersForService inst))
        sourceID = some src)
    (h10 : (releaseDevices src svc.config.devices).2 = none) :
    tryRebalanceIndex env alertParam sourceID st i =
      (updateNode
        (updateNode (updateNode st dest.nodeID (addRunRequest svc layersForService inst))
          sourceID fun _ => (releaseDevices src svc.config.devices).1)
        sourceID fun n =>
          { n with currentRunRequest :=
            { n.currentRunRequest with instances :=
                n.currentRunRequest.instances.take i ++
                  n.currentRunRequest.instances.drop (i + 1) } },
        true) ∧
    rebalanceScan env alertParam sourceID i st =
      updateNode
        (updateNode (updateNode st dest.nodeID (addRunRequest svc layersForService inst))
          sourceID fun _ => (releaseDevices src svc.config.devices).1)
        sourceID (fun n =>
          { n with currentRunRequest :=
            { n.currentRunRequest with instances :=
                n.currentRunRequest.instances.take i ++
                  n.currentRunRequest.instances.drop (i + 1) } }) ∧
    (addRunRequest svc layersForService inst dest).availableDevices =
      dest.availableDevices ∧
    (addRunRequest svc layersForService inst dest).currentRunRequest.instances =
      dest.currentRunRequest.instances ++ [inst] := by
  have hstep := tryRebalanceIndex_success_eq env alertParam sourceID st i nwi inst svc
    labels ns0 ns1 dest layersForService src h1 h2 h3 h4 h5 h6 h7 h8 h9 h10
  refine ⟨hstep, ?_, (addRunRequest_spec svc layersForService inst dest).1,
    (addRunRequest_spec svc layersForService inst dest).2.2.1⟩
  rw [rebalanceScan.eq_def]
  dsimp only
  rw [hstep]
  rfl

/-- The instance moved in the concrete scan scenario. -/
def c3inst : AosInstanceInfo :=
  { instanceIdent := ⟨"s", "subj", 0⟩, priority := 1, uid := 5000
    storagePath := "", statePath := "", networkParameters := default }

/-- Scan-point source node: hosts the instance with `d` allocated. -/
def c3scanA : NodeStatus :=
  { c2nodeA with
    availableDevices := [⟨"d", 1, 1⟩]
    currentRunRequest := ⟨[], [], [c3inst]⟩ }

def c3scanState : LauncherState :=
  { nodes := [c3nodeB, c3scanA], currentDesiredInstances := [⟨"s", "subj", 1, 1, []⟩]
    currentRunStatus := [], currentErrorStatus := [], pendingNewServices := []
    storageInstances := [], uidPool := [] }

theorem claim_C3_amended_witness :
    tryRebalanceIndex c2env "ram" "A" c3scanState 0 =
      (updateNode
        (updateNode (updateNode c3scanState c3nodeB.nodeID (addRunRequest c2serv [] c3inst))
          "A" fun _ => (releaseDevices c3scanA c2serv.config.devices).1)
        "A" fun n =>
          { n with currentRunRequest :=
            { n.currentRunRequest with instances :=
                n.currentRunRequest.instances.take 0 ++
                  n.currentRunRequest.instances.drop (0 + 1) } },
        true) ∧
    rebalanceScan c2env "ram" "A" 0 c3scanState =
      updateNode
        (updateNode (updateNode c3scanState c3nodeB.nodeID (addRunRequest c2serv [] c3inst))
          "A" fun _ => (releaseDevices c3scanA c2serv.config.devices).1)
        "A" (fun n =>
          { n with currentRunRequest :=
            { n.currentRunRequest with instances :=
                n.currentRunRequest.instances.take 0 ++
                  n.currentRunRequest.instances.drop (0 + 1) } }) ∧
    (addRunRequest c2serv [] c3inst c3nodeB).availableDevices =
      c3nodeB.availableDevices ∧
    (addRunRequest c2serv [] c3inst c3nodeB).currentRunRequest.instances =
      c3nodeB.currentRunRequest.instances ++ [c3inst] :=
  claim_C3_amended c2env "ram" "A" c3scanState 0 c3scanA c3inst c2serv []
    [c3nodeB, c3scanA] [c3nodeB] c3nodeB [] c3scanA
    rfl rfl rfl rfl rfl rfl rfl rfl rfl rfl

/-! ### Claim C4 -/

/-- The instance identities named in a node's run request. -/
def nodeInsts (n : NodeStatus) : List InstanceIdent :=
  n.currentRunRequest.instances.map (·.instanceIdent)

/-- Every instance identity placed in some node's run request. -/
def placedIdents (st : LauncherState) : List InstanceIdent :=
  st.nodes.flatMap nodeInsts

/-- The instance identities a desired-instances group asks for. -/
def groupIdents (g : CloudInstanceInfo) : List InstanceIdent :=
  (List.range g.numInstances).map fun k => ⟨g.serviceID, g.subjectID, k⟩

def nodeIDs (st : LauncherState) : List String :=
  st.nodes.map fun n => n.nodeID

/-- Device allocation touches only `availableDevices`. -/
theorem allocateDevices_fields (node : NodeStatus) (serviceDevices : List ServiceDevice) :
    (allocateDevices node serviceDevices).1.currentRunRequest = node.currentRunRequest ∧
    (allocateDevices node serviceDevices).1.nodeID = node.nodeID := by
  induction serviceDevices generalizing node with
  | nil => exact ⟨rfl, rfl⟩
  | cons sd rest ih =>
    rw [allocateDevices]
    cases halloc : allocateDeviceInList node.availableDevices sd.name with
    | error e => exact ⟨rfl, rfl⟩
    | ok devices' => exact ih { node with availableDevices := devices' }

/-- Device release touches only `availableDevices`. -/
theorem releaseDevices_fields (node : NodeStatus) (serviceDevices : List ServiceDevice) :
    (releaseDevices node serviceDevices).1.currentRunRequest = node.currentRunRequest ∧
    (releaseDevices node serviceDevices).1.nodeID = node.nodeID := by
  induction serviceDevices generalizing node with
  | nil => exact ⟨rfl, rfl⟩
  | cons sd rest ih =>
    rw [releaseDevices]
    cases hrel : releaseDeviceInList node.availableDevices sd.name with
    | error e => exact ⟨rfl, rfl⟩
    | ok devices' => exact ih { node with availableDevices := devices' }

/-- The prepared instance info names exactly the desired identity
(launcher.go:882-886). -/
theorem prepareInstanceStartInfo_ident (env : Env) (storage : List (InstanceIdent × Nat))
    (pool : List Nat) (service : ImServiceInfo) (instanceInfo : CloudInstanceInfo)
    (index : Nat) :
    (prepareInstanceStartInfo env storage pool service instanceInfo index).1.instanceIdent =
      ⟨instanceInfo.serviceID, instanceInfo.subjectID, index⟩ := by
  unfold prepareInstanceStartInfo
  dsimp only
  split
  · split <;> rfl
  · split <;> rfl

theorem map_ite_id {l : List NodeStatus} {tid : String}
    (h : ∀ m ∈ l, m.nodeID ≠ tid) (f : NodeStatus → NodeStatus) :
    (l.map fun n => if n.nodeID = tid then f n else n) = l := by
  induction l with
  | nil => rfl
  | cons a rest ih =>
    rw [List.map_cons, if_neg (h a (List.mem_cons_self _ _)),
      ih fun m hm => h m (List.mem_cons_of_mem _ hm)]

theorem nodes_split_of_mem {st : LauncherState} {n0 : NodeStatus}
    (hnd : (nodeIDs st).Nodup) (hmem : n0 ∈ st.nodes) :
    ∃ l1 l2, st.nodes = l1 ++ n0 :: l2 ∧ (∀ m ∈ l1, m.nodeID ≠ n0.nodeID) ∧
      ∀ m ∈ l2, m.nodeID ≠ n0.nodeID := by
  obtain ⟨l1, l2, hsplit⟩ := List.append_of_mem hmem
  unfold nodeIDs at hnd
  rw [hsplit, List.map_append, List.map_cons, List.nodup_append] at hnd
  obtain ⟨h1, h2, hdisj⟩ := hnd
  rw [List.nodup_cons] at h2
  refine ⟨l1, l2, hsplit, ?_, ?_⟩
  · intro m hm heq
    exact hdisj (List.mem_map_of_mem _ hm) (by rw [heq]; exact List.mem_cons_self _ _)
  · intro m hm heq
    exact h2.1 (by rw [← heq]; exact List.mem_map_of_mem _ hm)

theorem updateNode_nodes_split {st : LauncherState} {l1 l2 : List NodeStatus}
    {n0 : NodeStatus} (hsplit : st.nodes = l1 ++ n0 :: l2)
    (hl1 : ∀ m ∈ l1, m.nodeID ≠ n0.nodeID) (hl2 : ∀ m ∈ l2, m.nodeID ≠ n0.nodeID)
    (f : NodeStatus → NodeStatus) :
    (updateNode st n0.nodeID f).nodes = l1 ++ f n0 :: l2 := by
  show (st.nodes.map fun n => if n.nodeID = n0.nodeID then f n else n) = _
  rw [hsplit, List.map_append, List.map_cons, if_pos rfl, map_ite_id hl1 f,
    map_ite_id hl2 f]

/-- Replacing one node (found by its unique id) with a node carrying the same
id and `extra` appended to its run request adds exactly `extra` to the placed
identities. -/
theorem updateNode_count {st : LauncherState} {n0 : NodeStatus}
    (hnd : (nodeIDs st).Nodup) (hmem : n0 ∈ st.nodes) (f : NodeStatus → NodeStatus)
    (extra : List InstanceIdent) (hf : nodeInsts (f n0) = nodeInsts n0 ++ extra)
    (hfid : (f n0).nodeID = n0.nodeID) (x : InstanceIdent) :
    nodeIDs (updateNode st n0.nodeID f) = nodeIDs st ∧
    (placedIdents (updateNode st n0.nodeID f)).count x =
      (placedIdents st).count x + extra.count x := by
  obtain ⟨l1, l2, hsplit, hl1, hl2⟩ := nodes_split_of_mem hnd hmem
  have hupd := updateNode_nodes_split hsplit hl1 hl2 f
  constructor
  · unfold nodeIDs
    rw [hupd, hsplit, List.map_append, List.map_append, List.map_cons, List.map_cons,
      hfid]
  · unfold placedIdents
    rw [hupd, hsplit, List.flatMap_append, List.flatMap_append, List.flatMap_cons,
      List.flatMap_cons, hf]
    simp only [List.count_append]
    omega

/-- One balancing index places at most one instance, with the identity of the
current group and index, and never renames a node. -/
theorem balanceInstanceIndex_spec (env : Env) (st : LauncherState)
    (group : CloudInstanceInfo) (service : ImServiceInfo) (layers : List ImLayerInfo)
    (staticNodeIDs : List String) (index : Nat) (hnd : (nodeIDs st).Nodup)
    (x : InstanceIdent) :
    nodeIDs (balanceInstanceIndex env st group service layers staticNodeIDs index).1 =
      nodeIDs st ∧
    (placedIdents (balanceInstanceIndex env st group service layers
        staticNodeIDs index).1).count x ≤
      (placedIdents st).count x +
        ([(⟨group.serviceID, group.subjectID, index⟩ : InstanceIdent)]).count x := by
  unfold balanceInstanceIndex
  dsimp only
  split
  · exact ⟨rfl, Nat.le_add_right _ _⟩
  · rename_i nodeForInstance hdev
    split
    · exact ⟨rfl, Nat.le_add_right _ _⟩
    · rename_i node hmp
      have hnodemem : node ∈ st.nodes :=
        (List.mem_filter.mp (getNodesByDevices_subset hdev node
          (getMostPriorityNode_mem hmp))).1
      obtain ⟨hreq, hid⟩ := allocateDevices_fields node service.config.devices
      split
      · rename_i e halloc
        have h := updateNode_count hnd hnodemem
          (fun _ => (allocateDevices node service.config.devices).1) []
          (by unfold nodeInsts; rw [hreq, List.append_nil]) hid x
        exact ⟨h.1, Nat.le_trans (Nat.le_of_eq h.2)
          (by rw [List.count_nil]; exact Nat.add_le_add_left (Nat.zero_le _) _)⟩
      · rename_i halloc
        have hf : nodeInsts (addRunRequest service layers
            (prepareInstanceStartInfo env st.storageInstances st.uidPool service group
              index).1 (allocateDevices node service.config.devices).1) =
            nodeInsts node ++ [⟨group.serviceID, group.subjectID, index⟩] := by
          unfold nodeInsts
          rw [(addRunRequest_spec service layers _ _).2.2.1, hreq, List.map_append,
            List.map_cons, List.map_nil, prepareInstanceStartInfo_ident]
        have hfid : (addRunRequest service layers
            (prepareInstanceStartInfo env st.storageInstances st.uidPool service group
              index).1 (allocateDevices node service.config.devices).1).nodeID =
            node.nodeID := by
          rw [(addRunRequest_spec service layers _ _).2.1, hid]
        have h := updateNode_count hnd hnodemem
          (fun _ => addRunRequest service layers
            (prepareInstanceStartInfo env st.storageInstances st.uidPool service group
              index).1 (allocateDevices node service.config.devices).1)
          [⟨group.serviceID, group.subjectID, index⟩] hf hfid x
        exact ⟨h.1, Nat.le_of_eq h.2⟩

/-- The per-group index loop of `performNodeBalancing`: the placed identities
grow by at most the group identities of the processed indices. -/
theorem balanceIndexFold_spec (env : Env) (group : CloudInstanceInfo)
    (service : ImServiceInfo) (layers : List ImLayerInfo) (staticNodeIDs : List String)
    (l : List Nat) (st : LauncherState) (errs : List InstanceStatus)
    (hnd : (nodeIDs st).Nodup) (x : InstanceIdent) :
    nodeIDs (l.foldl (fun acc instanceIndex =>
        let r := balanceInstanceIndex env acc.1 group service layers staticNodeIDs
          instanceIndex
        (r.1, acc.2 ++ r.2)) (st, errs)).1 = nodeIDs st ∧
    (placedIdents (l.foldl (fun acc instanceIndex =>
        let r := balanceInstanceIndex env acc.1 group service layers staticNodeIDs
          instanceIndex
        (r.1, acc.2 ++ r.2)) (st, errs)).1).count x ≤
      (placedIdents st).count x +
        (l.map fun k => (⟨group.serviceID, group.subjectID, k⟩ : InstanceIdent)).count x := by
  induction l generalizing st errs hnd with
  | nil => exact ⟨rfl, Nat.le_add_right _ _⟩
  | cons i rest ih =>
    have hstep := balanceInstanceIndex_spec env st group service layers staticNodeIDs i
      hnd x
    have hnd1 : (nodeIDs (balanceInstanceIndex env st group service layers staticNodeIDs
        i).1).Nodup := by rw [hstep.1]; exact hnd
    have hrec := ih _ (errs ++ (balanceInstanceIndex env st group service layers
      staticNodeIDs i).2) hnd1
    have hbudget : (placedIdents (balanceInstanceIndex env st group service layers
          staticNodeIDs i).1).count x +
        (rest.map fun k =>
          (⟨group.serviceID, group.subjectID, k⟩ : InstanceIdent)).count x ≤
        (placedIdents st).count x +
          ((i :: rest).map fun k =>
            (⟨group.serviceID, group.subjectID, k⟩ : InstanceIdent)).count x := by
      have hs2 := hstep.2
      rw [List.count_cons, List.count_nil] at hs2
      rw [List.map_cons, List.count_cons]
      omega
    exact ⟨hrec.1.trans hstep.1, Nat.le_trans hrec.2 hbudget⟩

/-- One desired-instances group adds at most its own group identities. -/
theorem balanceGroup_spec (env : Env) (st : LauncherState) (group : CloudInstanceInfo)
    (hnd : (nodeIDs st).Nodup) (x : InstanceIdent) :
    nodeIDs (balanceGroup env st group).1 = nodeIDs st ∧
    (placedIdents (balanceGroup env st group).1).count x ≤
      (placedIdents st).count x + (groupIdents group).count x := by
  unfold balanceGroup
  cases env.getServiceInfo group.serviceID with
  | error e => exact ⟨rfl, Nat.le_add_right _ _⟩
  | ok serviceInfo =>
    by_cases hc : serviceInfo.cached
    · simp only [hc, if_true]
      exact ⟨by trivial, Nat.le_add_right _ _⟩
    · simp only [hc, Bool.false_eq_true, if_false]
      cases getLayersForService env serviceInfo.layers with
      | error e => exact ⟨by trivial, Nat.le_add_right _ _⟩
      | ok layers =>
        cases getNodesByStaticResources st.nodes serviceInfo group with
        | error e => exact ⟨by trivial, Nat.le_add_right _ _⟩
        | ok staticNodes =>
          exact balanceIndexFold_spec env group serviceInfo layers
            (staticNodes.map (·.nodeID)) (List.range group.numInstances) st [] hnd x

/-- The group loop adds at most the identities desired by the groups. -/
theorem balanceGroups_spec (env : Env) (st : LauncherState)
    (groups : List CloudInstanceInfo) (hnd : (nodeIDs st).Nodup) (x : InstanceIdent) :
    nodeIDs (balanceGroups env st groups).1 = nodeIDs st ∧
    (placedIdents (balanceGroups env st groups).1).count x ≤
      (placedIdents st).count x + (groups.flatMap groupIdents).count x := by
  unfold balanceGroups
  have hfold : ∀ (l : List CloudInstanceInfo) (st : LauncherState)
      (errs : List InstanceStatus), (nodeIDs st).Nodup →
      nodeIDs (l.foldl (fun acc group =>
        let r := balanceGroup env acc.1 group
        (r.1, acc.2 ++ r.2)) (st, errs)).1 = nodeIDs st ∧
      (placedIdents (l.foldl (fun acc group =>
        let r := balanceGroup env acc.1 group
        (r.1, acc.2 ++ r.2)) (st, errs)).1).count x ≤
        (placedIdents st).count x + (l.flatMap groupIdents).count x := by
    intro l
    induction l with
    | nil => exact fun st errs _ => ⟨rfl, Nat.le_add_right _ _⟩
    | cons g rest ih =>
      intro st errs hnd0
      have hstep := balanceGroup_spec env st g hnd0 x
      have hnd1 : (nodeIDs (balanceGroup env st g).1).Nodup := by
        rw [hstep.1]; exact hnd0
      have hrec := ih (balanceGroup env st g).1 (errs ++ (balanceGroup env st g).2) hnd1
      have hbudget : (placedIdents (balanceGroup env st g).1).count x +
          (rest.flatMap groupIdents).count x ≤
          (placedIdents st).count x + ((g :: rest).flatMap groupIdents).count x := by
        have hs2 := hstep.2
        rw [List.flatMap_cons, List.count_append]
        omega
      exact ⟨hrec.1.trans hstep.1, Nat.le_trans hrec.2 hbudget⟩
  exact hfold groups st [] hnd

theorem map_congr_mem {α β : Type} {l : List α} {f g : α → β}
    (h : ∀ a ∈ l, f a = g a) : l.map f = l.map g := by
  induction l with
  | nil => rfl
  | cons a rest ih =>
    rw [List.map_cons, List.map_cons, h a (List.mem_cons_self _ _),
      ih fun y hy => h y (List.mem_cons_of_mem _ hy)]

theorem flatMap_nodeInsts_map {l : List NodeStatus} {F : NodeStatus → NodeStatus}
    (h : ∀ n, nodeInsts (F n) = nodeInsts n) :
    (l.map F).flatMap nodeInsts = l.flatMap nodeInsts := by
  induction l with
  | nil => rfl
  | cons a rest ih =>
    rw [List.map_cons, List.flatMap_cons, List.flatMap_cons, h a, ih]

/-- Network preparation keeps the instance identity (launcher.go:756-781). -/
theorem prepareNetInstance_ident (env : Env) (b : Bool) (i : AosInstanceInfo) :
    (prepareNetInstance env b i).1.instanceIdent = i.instanceIdent := by
  unfold prepareNetInstance
  split
  · rfl
  · split
    · rfl
    · split <;> rfl

/-- The per-node transformation applied by `prepareNetworkForInstances`. -/
def netMapNode (env : Env) (b : Bool) (node : NodeStatus) : NodeStatus :=
  { node with currentRunRequest :=
    { node.currentRunRequest with
      instances := (node.currentRunRequest.instances.map (prepareNetInstance env b)).map Prod.fst } }

theorem prepareNetworkForInstances_nodes (env : Env) (st : LauncherState) (b : Bool) :
    (prepareNetworkForInstances env st b).1.nodes = st.nodes.map (netMapNode env b) := by
  unfold prepareNetworkForInstances netMapNode
  dsimp only
  rw [List.map_map]
  rfl

theorem prepareNetworkForInstances_placed (env : Env) (st : LauncherState) (b : Bool) :
    nodeIDs (prepareNetworkForInstances env st b).1 = nodeIDs st ∧
    placedIdents (prepareNetworkForInstances env st b).1 = placedIdents st := by
  have hn := prepareNetworkForInstances_nodes env st b
  constructor
  · unfold nodeIDs
    rw [hn, List.map_map]
    exact map_congr_mem fun n _ => rfl
  · unfold placedIdents
    rw [hn]
    refine flatMap_nodeInsts_map fun n => ?_
    unfold nodeInsts netMapNode
    dsimp only
    rw [List.map_map, List.map_map]
    exact map_congr_mem fun i _ => prepareNetInstance_ident env b i

theorem insertSortedBy_perm {α : Type} (less : α → α → Bool) (x : α) (l : List α) :
    (insertSortedBy less x l).Perm (x :: l) := by
  induction l with
  | nil => exact List.Perm.refl _
  | cons a rest ih =>
    rw [insertSortedBy]
    split
    · exact List.Perm.refl _
    · exact (ih.cons a).trans (List.Perm.swap x a rest)

theorem sortBy_perm {α : Type} (less : α → α → Bool) (l : List α) :
    (sortBy less l).Perm l := by
  induction l with
  | nil => exact List.Perm.refl _
  | cons a rest ih =>
    rw [sortBy]
    exact (insertSortedBy_perm less a _).trans (ih.cons a)

theorem mem_groupIdents {x : InstanceIdent} {g : CloudInstanceInfo}
    (h : x ∈ groupIdents g) : x.serviceID = g.serviceID ∧ x.subjectID = g.subjectID := by
  unfold groupIdents at h
  rw [List.mem_map] at h
  obtain ⟨k, _, rfl⟩ := h
  exact ⟨rfl, rfl⟩

theorem groupIdents_nodup (g : CloudInstanceInfo) : (groupIdents g).Nodup := by
  unfold groupIdents
  refine List.Nodup.map ?_ (List.nodup_range _)
  intro a b hab
  injection hab

/-- Distinct (serviceID, subjectID) pairs give pairwise-disjoint group
identities, hence a duplicate-free budget of desired identities. -/
theorem flatMap_groupIdents_nodup {groups : List CloudInstanceInfo}
    (hpairs : (groups.map fun g => (g.serviceID, g.subjectID)).Nodup) :
    (groups.flatMap groupIdents).Nodup := by
  induction groups with
  | nil => exact List.nodup_nil
  | cons g rest ih =>
    rw [List.flatMap_cons, List.nodup_append]
    rw [List.map_cons, List.nodup_cons] at hpairs
    refine ⟨groupIdents_nodup g, ih hpairs.2, ?_⟩
    intro x hxg hxrest
    obtain ⟨h1, h2⟩ := mem_groupIdents hxg
    rw [List.mem_flatMap] at hxrest
    obtain ⟨g2, hg2, hxg2⟩ := hxrest
    obtain ⟨h3, h4⟩ := mem_groupIdents hxg2
    apply hpairs.1
    rw [List.mem_map]
    exact ⟨g2, hg2, by rw [← h3, ← h4, h1, h2]⟩

theorem clearRunRequests_ids (st : LauncherState) :
    nodeIDs { st with nodes := st.nodes.map fun n =>
      { n with currentRunRequest := ⟨[], [], []⟩ } } = nodeIDs st := by
  unfold nodeIDs
  dsimp only
  rw [List.map_map]
  exact map_congr_mem fun n _ => rfl

theorem clearRunRequests_placed (st : LauncherState) :
    placedIdents { st with nodes := st.nodes.map fun n =>
      { n with currentRunRequest := ⟨[], [], []⟩ } } = [] := by
  unfold placedIdents
  dsimp only
  induction st.nodes with
  | nil => rfl
  | cons a rest ih =>
    rw [List.map_cons, List.flatMap_cons, ih]
    rfl

/-- A placement pass places each identity at most as often as the (duplicate
free) desired budget asks for it. -/
theorem performNodeBalancing_count (env : Env) (st : LauncherState)
    (desired : List CloudInstanceInfo) (hnd : (nodeIDs st).Nodup) (x : InstanceIdent) :
    (placedIdents (performNodeBalancing env st desired).1).count x ≤
      ((sortInstances desired).flatMap groupIdents).count x := by
  have hrmids : nodeIDs (removeInstances
      { st with nodes := st.nodes.map fun n => { n with currentRunRequest := ⟨[], [], []⟩ } }
      (sortInstances desired)) =
      nodeIDs { st with nodes := st.nodes.map fun n =>
        { n with currentRunRequest := ⟨[], [], []⟩ } } := by
    unfold nodeIDs
    rw [removeInstances_nodes]
  have hrmplaced : placedIdents (removeInstances
      { st with nodes := st.nodes.map fun n => { n with currentRunRequest := ⟨[], [], []⟩ } }
      (sortInstances desired)) =
      placedIdents { st with nodes := st.nodes.map fun n =>
        { n with currentRunRequest := ⟨[], [], []⟩ } } := by
    unfold placedIdents
    rw [removeInstances_nodes]
  have hnd1 : (nodeIDs (removeInstances
      { st with nodes := st.nodes.map fun n => { n with currentRunRequest := ⟨[], [], []⟩ } }
      (sortInstances desired))).Nodup := by
    rw [hrmids, clearRunRequests_ids st]
    exact hnd
  have hb := balanceGroups_spec env (removeInstances
      { st with nodes := st.nodes.map fun n => { n with currentRunRequest := ⟨[], [], []⟩ } }
      (sortInstances desired)) (sortInstances desired) hnd1 x
  have hcount0 : (placedIdents (removeInstances
      { st with nodes := st.nodes.map fun n => { n with currentRunRequest := ⟨[], [], []⟩ } }
      (sortInstances desired))).count x = 0 := by
    rw [hrmplaced, clearRunRequests_placed st]
    rfl
  unfold performNodeBalancing
  dsimp only
  rw [(prepareNetworkForInstances_placed env _ false).2,
    (prepareNetworkForInstances_placed env _ true).2]
  have hb2 := hb.2
  omega

/-- A placement pass never places the same instance identity twice across the
nodes' run requests, provided node ids and desired (serviceID, subjectID)
pairs are duplicate free. -/
theorem performNodeBalancing_placed_nodup (env : Env) (st : LauncherState)
    (desired : List CloudInstanceInfo) (hnd : (nodeIDs st).Nodup)
    (hpairs : (desired.map fun g => (g.serviceID, g.subjectID)).Nodup) :
    (placedIdents (performNodeBalancing env st desired).1).Nodup := by
  have hpairs2 : ((sortInstances desired).map fun g =>
      (g.serviceID, g.subjectID)).Nodup :=
    (((sortBy_perm instanceLess desired).map _).nodup_iff).mpr hpairs
  have hbudget := flatMap_groupIdents_nodup hpairs2
  rw [List.nodup_iff_count_le_one]
  intro x
  have h1 := performNodeBalancing_count env st desired hnd x
  have h2 := List.nodup_iff_count_le_one.mp hbudget x
  omega

theorem head?_mem {α : Type} {l : List α} {a : α} (h : l.head? = some a) : a ∈ l := by
  cases l with
  | nil => cases h
  | cons b t =>
    rw [List.head?_cons] at h
    obtain rfl := Option.some.inj h
    exact List.mem_cons_self _ _

theorem getNode_id {st : LauncherState} {nodeID : String} {n : NodeStatus}
    (h : getNode st nodeID = some n) : n.nodeID = nodeID := by
  unfold getNode at h
  have hp := List.find?_some h
  exact eq_of_beq hp

theorem getNodeByRunner_subset {allNodes : List NodeStatus} {runner : String} :
    ∀ n ∈ getNodeByRunner allNodes runner, n ∈ allNodes := by
  intro n hn
  unfold getNodeByRunner at hn
  exact (List.mem_filter.mp hn).1

theorem getNodesByLabels_subset {nodes : List NodeStatus} {labels : List String} :
    ∀ n ∈ getNodesByLabels nodes labels, n ∈ nodes := by
  intro n hn
  unfold getNodesByLabels at hn
  split at hn
  · exact hn
  · exact (List.mem_filter.mp hn).1

theorem getNodesByResources_subset {nodes : List NodeStatus} {res : List String} :
    ∀ n ∈ getNodesByResources nodes res, n ∈ nodes := by
  intro n hn
  unfold getNodesByResources at hn
  split at hn
  · exact hn
  · exact (List.mem_filter.mp hn).1

theorem getNodesByStaticResources_subset {allNodes : List NodeStatus}
    {svc : ImServiceInfo} {g : CloudInstanceInfo} {ns : List NodeStatus}
    (h : getNodesByStaticResources allNodes svc g = .ok ns) :
    ∀ n ∈ ns, n ∈ allNodes := by
  unfold getNodesByStaticResources at h
  dsimp only at h
  split at h
  · cases h
  · split at h
    · cases h
    · split at h
      · cases h
      · obtain rfl := Except.ok.inj h
        intro n hn
        exact getNodeByRunner_subset n
          (getNodesByLabels_subset n (getNodesByResources_subset n hn))

theorem find?_map_pres (l : List NodeStatus) (tid sid : String)
    (f : NodeStatus → NodeStatus) (hf : ∀ n, (f n).nodeID = n.nodeID) :
    ((l.map fun n => if n.nodeID = tid then f n else n).find? fun n =>
        n.nodeID == sid) =
      (l.find? fun n => n.nodeID == sid).map fun n =>
        if n.nodeID = tid then f n else n := by
  induction l with
  | nil => rfl
  | cons a rest ih =>
    rw [List.map_cons]
    simp only [List.find?]
    have hid : (if a.nodeID = tid then f a else a).nodeID = a.nodeID := by
      split
      · exact hf a
      · rfl
    rw [hid]
    cases hsid : a.nodeID == sid
    · exact ih
    · rfl

/-- Looking a node up after an id-preserving pointer update finds the updated
node. -/
theorem getNode_updateNode (st : LauncherState) (tid : String)
    (f : NodeStatus → NodeStatus) (hf : ∀ n, (f n).nodeID = n.nodeID) (sid : String) :
    getNode (updateNode st tid f) sid =
      (getNode st sid).map fun n => if n.nodeID = tid then f n else n := by
  unfold getNode updateNode
  dsimp only
  exact find?_map_pres st.nodes tid sid f hf

theorem mem_map_ite {l : List NodeStatus} {n : NodeStatus} (hmem : n ∈ l)
    (tid : String) (f : NodeStatus → NodeStatus) (h : n.nodeID = tid) :
    f n ∈ l.map fun m => if m.nodeID = tid then f m else m := by
  have hx := List.mem_map_of_mem (fun m => if m.nodeID = tid then f m else m) hmem
  simpa [h] using hx

theorem mem_map_ite_ne {l : List NodeStatus} {n : NodeStatus} (hmem : n ∈ l)
    (tid : String) (f : NodeStatus → NodeStatus) (h : n.nodeID ≠ tid) :
    n ∈ l.map fun m => if m.nodeID = tid then f m else m := by
  have hx := List.mem_map_of_mem (fun m => if m.nodeID = tid then f m else m) hmem
  simpa [if_neg h] using hx

theorem map_ite_decomp {l : List NodeStatus} {sn : NodeStatus} (tid : String)
    (f : NodeStatus → NodeStatus) (hf : ∀ n, n.nodeID = tid → (f n).nodeID = n.nodeID)
    (hsn : sn ∈ l.map fun n => if n.nodeID = tid then f n else n) :
    ∃ n0 ∈ l, sn = (if n0.nodeID = tid then f n0 else n0) ∧ sn.nodeID = n0.nodeID := by
  rw [List.mem_map] at hsn
  obtain ⟨n0, hn0, heq⟩ := hsn
  refine ⟨n0, hn0, heq.symm, ?_⟩
  rw [← heq]
  split
  · rename_i hc
    exact hf n0 hc
  · rfl

/-- A successful move to a destination different from the source puts the
instance into the destination node's run request and removes it from the
source node's run request (the source having listed it exactly once). -/
theorem tryRebalanceIndex_move_mem (env : Env) (alertParam sourceID : String)
    (st : LauncherState) (i : Nat) (nwi : NodeStatus) (inst : AosInstanceInfo)
    (svc : ImServiceInfo) (labels : List String) (ns0 ns1 : List NodeStatus)
    (dest : NodeStatus) (layersForService : List ImLayerInfo) (src : NodeStatus)
    (h1 : getNode st sourceID = some nwi)
    (h2 : nwi.currentRunRequest.instances.get? i = some inst)
    (h3 : env.getServiceInfo inst.instanceIdent.serviceID = .ok svc)
    (h4 : getLabelsForInstance st inst.instanceIdent = .ok labels)
    (h5 : getNodesByStaticResources st.nodes svc
        { serviceID := inst.instanceIdent.serviceID
          subjectID := inst.instanceIdent.subjectID
          priority := 0, numInstances := 0, labels := labels } = .ok ns0)
    (h6 : getNodesByDevices ns0 svc.config.devices = .ok ns1)
    (h7 : getLayersForService env svc.layers = .ok layersForService)
    (h8 : (getNodeByMonitoringData env ns1 alertParam).head? = some dest)
    (h9 : getNode (updateNode st dest.nodeID (addRunRequest svc layersForService inst))
        sourceID = some src)
    (h10 : (releaseDevices src svc.config.devices).2 = none)
    (hne : dest.nodeID ≠ sourceID)
    (hcnt : nwi.currentRunRequest.instances.count inst = 1) :
    (∃ dn ∈ (tryRebalanceIndex env alertParam sourceID st i).1.nodes,
        dn.nodeID = dest.nodeID ∧ inst ∈ dn.currentRunRequest.instances) ∧
    ∀ sn ∈ (tryRebalanceIndex env alertParam sourceID st i).1.nodes,
      sn.nodeID = sourceID → inst ∉ sn.currentRunRequest.instances := by
  have hstep := tryRebalanceIndex_success_eq env alertParam sourceID st i nwi inst svc
    labels ns0 ns1 dest layersForService src h1 h2 h3 h4 h5 h6 h7 h8 h9 h10
  rw [hstep]
  have haddid : ∀ n, (addRunRequest svc layersForService inst n).nodeID = n.nodeID :=
    fun n => (addRunRequest_spec svc layersForService inst n).2.1
  have hnwi_id : nwi.nodeID = sourceID := getNode_id h1
  have hsrc_id : src.nodeID = sourceID := getNode_id h9
  have hsrc : src = nwi := by
    have hgu := getNode_updateNode st dest.nodeID
      (addRunRequest svc layersForService inst) haddid sourceID
    rw [h9, h1] at hgu
    have hv : src = if nwi.nodeID = dest.nodeID then
        addRunRequest svc layersForService inst nwi else nwi := Option.some.inj hgu
    rw [if_neg (by rw [hnwi_id]; exact fun hh => hne hh.symm)] at hv
    exact hv
  show (∃ dn ∈ (((st.nodes.map fun n => if n.nodeID = dest.nodeID
        then addRunRequest svc layersForService inst n else n).map fun n =>
          if n.nodeID = sourceID
          then (fun _ => (releaseDevices src svc.config.devices).1) n else n).map fun n =>
            if n.nodeID = sourceID then (fun m =>
              { m with currentRunRequest :=
                { m.currentRunRequest with instances :=
                    m.currentRunRequest.instances.take i ++
                      m.currentRunRequest.instances.drop (i + 1) } }) n else n),
      dn.nodeID = dest.nodeID ∧ inst ∈ dn.currentRunRequest.instances) ∧
    ∀ sn ∈ (((st.nodes.map fun n => if n.nodeID = dest.nodeID
        then addRunRequest svc layersForService inst n else n).map fun n =>
          if n.nodeID = sourceID
          then (fun _ => (releaseDevices src svc.config.devices).1) n else n).map fun n =>
            if n.nodeID = sourceID then (fun m =>
              { m with currentRunRequest :=
                { m.currentRunRequest with instances :=
                    m.currentRunRequest.instances.take i ++
                      m.currentRunRequest.instances.drop (i + 1) } }) n else n),
      sn.nodeID = sourceID → inst ∉ sn.currentRunRequest.instances
  constructor
  · have hdest_mem : dest ∈ st.nodes :=
      getNodesByStaticResources_subset h5 dest
        (getNodesByDevices_subset h6 dest
          (getNodeByMonitoringData_subset env ns1 alertParam dest (head?_mem h8)))
    have k1 := mem_map_ite hdest_mem dest.nodeID
      (addRunRequest svc layersForService inst) rfl
    have k2 := mem_map_ite_ne k1 sourceID
      (fun _ => (releaseDevices src svc.config.devices).1)
      (by rw [haddid dest]; exact hne)
    have k3 := mem_map_ite_ne k2 sourceID
      (fun m => { m with currentRunRequest :=
        { m.currentRunRequest with instances :=
            m.currentRunRequest.instances.take i ++
              m.currentRunRequest.instances.drop (i + 1) } })
      (by rw [haddid dest]; exact hne)
    refine ⟨addRunRequest svc layersForService inst dest, k3, haddid dest, ?_⟩
    rw [(addRunRequest_spec svc layersForService inst dest).2.2.1]
    exact List.mem_append_right _ (List.mem_singleton.mpr rfl)
  · intro sn hsn hsnid
    obtain ⟨m2, hm2mem, hsneq, hid3⟩ := map_ite_decomp sourceID
      (fun m => { m with currentRunRequest :=
        { m.currentRunRequest with instances :=
            m.currentRunRequest.instances.take i ++
              m.currentRunRequest.instances.drop (i + 1) } })
      (fun n _ => rfl) hsn
    obtain ⟨m1, hm1mem, hm2eq, hid2⟩ := map_ite_decomp sourceID
      (fun _ => (releaseDevices src svc.config.devices).1)
      (fun n hn =>
        ((releaseDevices_fields src svc.config.devices).2.trans hsrc_id).trans hn.symm)
      hm2mem
    obtain ⟨n0, hn0mem, hm1eq, hid1⟩ := map_ite_decomp dest.nodeID
      (addRunRequest svc layersForService inst) (fun n _ => haddid n) hm1mem
    have hn0id : n0.nodeID = sourceID := by
      rw [← hid1, ← hid2, ← hid3]
      exact hsnid
    have hm1v : m1 = n0 := by
      rw [hm1eq, if_neg (by rw [hn0id]; exact fun hh => hne hh.symm)]
    have hm2v : m2 = (releaseDevices src svc.config.devices).1 := by
      rw [hm2eq, hm1v, if_pos hn0id]
    have hrelid : (releaseDevices src svc.config.devices).1.nodeID = sourceID :=
      (releaseDevices_fields src svc.config.devices).2.trans hsrc_id
    have hsnv : sn = { (releaseDevices src svc.config.devices).1 with
        currentRunRequest :=
        { (releaseDevices src svc.config.devices).1.currentRunRequest with
          instances :=
            (releaseDevices src svc.config.devices).1.currentRunRequest.instances.take
              i ++
            (releaseDevices src
              svc.config.devices).1.currentRunRequest.instances.drop (i + 1) } } := by
      rw [hsneq, hm2v, if_pos hrelid]
    have hinsts : sn.currentRunRequest.instances =
        nwi.currentRunRequest.instances.take i ++
          nwi.currentRunRequest.instances.drop (i + 1) := by
      rw [hsnv]
      dsimp only
      rw [(releaseDevices_fields src svc.config.devices).1, hsrc]
    have hc : (nwi.currentRunRequest.instances.take i ++
        nwi.currentRunRequest.instances.drop (i + 1)).count inst = 0 := by
      obtain ⟨hlen, hget⟩ := List.get?_eq_some.mp h2
      have hdropc : nwi.currentRunRequest.instances.drop i =
          inst :: nwi.currentRunRequest.instances.drop (i + 1) := by
        rw [List.drop_eq_get_cons hlen, hget]
      have htotal : nwi.currentRunRequest.instances.count inst =
          (nwi.currentRunRequest.instances.take i).count inst +
            (nwi.currentRunRequest.instances.drop i).count inst := by
        conv_lhs => rw [← List.take_append_drop i nwi.currentRunRequest.instances]
        rw [List.count_append]
      rw [hdropc, List.count_cons] at htotal
      simp only [BEq.refl, if_true] at htotal
      rw [List.count_append]
      omega
    rw [hinsts]
    exact List.count_eq_zero.mp hc

/-- C4 scenario 1: only node `A` carries the required device, so the
rebalancer picks the alerted node itself as destination. -/
def c4nodeA : NodeStatus :=
  { c2nodeA with availableDevices := [⟨"d", 2, 0⟩] }

def c4nodeB : NodeStatus :=
  { c2nodeA with nodeID := "B", availableDevices := [], priority := 50 }

def c4state : LauncherState :=
  { nodes := [c4nodeA, c4nodeB], currentDesiredInstances := [⟨"s", "subj", 1, 1, []⟩]
    currentRunStatus := [], currentErrorStatus := [], pendingNewServices := []
    storageInstances := [], uidPool := [] }

/-- C4 scenario 2: a scan step whose release fails (the source has no
allocation to give back), leaving the instance in both run requests. -/
def c4failA : NodeStatus :=
  { c2nodeA with
    availableDevices := [⟨"d", 1, 0⟩]
    currentRunRequest := ⟨[], [], [c3inst]⟩ }

def c4failB : NodeStatus :=
  { c2nodeA with
    nodeID := "B"
    availableDevices := [⟨"d", 1, 0⟩]
    priority := 50
    totalRAM := 200 }

def c4failstate : LauncherState :=
  { nodes := [c4failB, c4failA], currentDesiredInstances := [⟨"s", "subj", 1, 1, []⟩]
    currentRunStatus := [], currentErrorStatus := [], pendingNewServices := []
    storageInstances := [], uidPool := [] }

/-- **C4** (counterexample to the claim as stated).  First run: a rebalancing
pass alerted on `A` selects `A` itself as destination (it is the only node
with the required device), so the moved instance is still present in the
source node's run request after the pass — the device release did run, as the
allocated count dropped to `0`.  Second run: when the release step fails, the
scan step leaves the instance present in both the destination's and the
source's run requests, so an instance does not appear in exactly one run
request "for every outcome of the release step". -/
theorem claim_C4_counterexample :
    (((performRebalancing c2env c4state ⟨"A", "ram"⟩).nodes.map fun n =>
        (n.nodeID, n.currentRunRequest.instances.map (·.instanceIdent),
          n.availableDevices)) =
      [("B", [], []), ("A", [⟨"s", "subj", 0⟩], [⟨"d", 2, 0⟩])]) ∧
    (((tryRebalanceIndex c2env "ram" "A" c4failstate 0).1.nodes.map fun n =>
        (n.nodeID, n.currentRunRequest.instances.map (·.instanceIdent))) =
      [("B", [⟨"s", "subj", 0⟩]), ("A", [⟨"s", "subj", 0⟩])]) ∧
    (tryRebalanceIndex c2env "ram" "A" c4failstate 0).2 = false :=
  ⟨by decide, by decide, by decide⟩

/-- **C4** (corrected): a placement pass places every desired identity in at
most one node's run request (duplicate-free node ids and desired
(serviceID, subjectID) pairs); and a successful rebalancing move whose
destination differs from the source puts the instance into the destination's
run request and removes it from the source's — but only under these side
conditions, not "for every outcome of the release step". -/
theorem claim_C4_amended
    (envP : Env) (stP : LauncherState) (desired : List CloudInstanceInfo)
    (hndP : (nodeIDs stP).Nodup)
    (hpairs : (desired.map fun g => (g.serviceID, g.subjectID)).Nodup)
    (env : Env) (alertParam sourceID : String) (st : LauncherState) (i : Nat)
    (nwi : NodeStatus) (inst : AosInstanceInfo) (svc : ImServiceInfo)
    (labels : List String) (ns0 ns1 : List NodeStatus) (dest : NodeStatus)
    (layersForService : List ImLayerInfo) (src : NodeStatus)
    (h1 : getNode st sourceID = some nwi)
    (h2 : nwi.currentRunRequest.instances.get? i = some inst)
    (h3 : env.getServiceInfo inst.instanceIdent.serviceID = .ok svc)
    (h4 : getLabelsForInstance st inst.instanceIdent = .ok labels)
    (h5 : getNodesByStaticResources st.nodes svc
        { serviceID := inst.instanceIdent.serviceID
          subjectID := inst.instanceIdent.subjectID
          priority := 0, numInstances := 0, labels := labels } = .ok ns0)
    (h6 : getNodesByDevices ns0 svc.config.devices = .ok ns1)
    (h7 : getLayersForService env svc.layers = .ok layersForService)
    (h8 : (getNodeByMonitoringData env ns1 alertParam).head? = some dest)
    (h9 : getNode (updateNode st dest.nodeID (addRunRequest svc layersForService inst))
        sourceID = some src)
    (h10 : (releaseDevices src svc.config.devices).2 = none)
    (hne : dest.nodeID ≠ sourceID)
    (hcnt : nwi.currentRunRequest.instances.count inst = 1) :
    (placedIdents (performNodeBalancing envP stP desired).1).Nodup ∧
    (∃ dn ∈ (tryRebalanceIndex env alertParam sourceID st i).1.nodes,
        dn.nodeID = dest.nodeID ∧ inst ∈ dn.currentRunRequest.instances) ∧
    ∀ sn ∈ (tryRebalanceIndex env alertParam sourceID st i).1.nodes,
      sn.nodeID = sourceID → inst ∉ sn.currentRunRequest.instances := by
  have hmove := tryRebalanceIndex_move_mem env alertParam sourceID st i nwi inst svc
    labels ns0 ns1 dest layersForService src h1 h2 h3 h4 h5 h6 h7 h8 h9 h10 hne hcnt
  exact ⟨performNodeBalancing_placed_nodup envP stP desired hndP hpairs,
    hmove.1, hmove.2⟩

theorem claim_C4_amended_witness :
    (placedIdents (performNodeBalancing c2env c3scanState
        [⟨"s", "subj", 1, 1, []⟩]).1).Nodup ∧
    (∃ dn ∈ (tryRebalanceIndex c2env "ram" "A" c3scanState 0).1.nodes,
        dn.nodeID = c3nodeB.nodeID ∧ c3inst ∈ dn.currentRunRequest.instances) ∧
    ∀ sn ∈ (tryRebalanceIndex c2env "ram" "A" c3scanState 0).1.nodes,
      sn.nodeID = "A" → c3inst ∉ sn.currentRunRequest.instances :=
  claim_C4_amended c2env c3scanState [⟨"s", "subj", 1, 1, []⟩] (by decide) (by decide)
    c2env "ram" "A" c3scanState 0 c3scanA c3inst c2serv [] [c3nodeB, c3scanA]
    [c3nodeB] c3nodeB [] c3scanA rfl rfl rfl rfl rfl rfl rfl rfl rfl rfl
    (by decide) (by decide)

/-! ### Claim C7 -/

/-- The UID store invariant: at most one record per identity, pairwise
distinct UIDs, and every stored UID locked in the pool. -/
def uidStoreOK (storage : List (InstanceIdent × Nat)) (pool : List Nat) : Prop :=
  (storage.map Prod.fst).Nodup ∧ (storage.map Prod.snd).Nodup ∧
    ∀ p ∈ storage, p.2 ∈ pool

def uidInv (st : LauncherState) : Prop :=
  uidStoreOK st.storageInstances st.uidPool

/-- The state-storage provider never fails `Setup`. -/
def envSetupOK (env : Env) : Prop :=
  ∀ params, ∃ paths, env.setupStorageState params = .ok paths

theorem le_foldr_max {l : List Nat} {u a : Nat} (h : u ∈ l) : u ≤ l.foldr max a := by
  induction l with
  | nil => cases h
  | cons b rest ih =>
    rw [List.foldr_cons]
    rcases List.mem_cons.mp h with rfl | hmem
    · exact Nat.le_max_left _ _
    · exact Nat.le_trans (ih hmem) (Nat.le_max_right _ _)

theorem getFreeUID_not_mem (pool : List Nat) : getFreeUID pool ∉ pool := by
  intro hmem
  have h2 : pool.foldr max 4999 + 1 ≤ pool.foldr max 4999 :=
    @le_foldr_max pool (pool.foldr max 4999 + 1) 4999 hmem
  omega

/-- With duplicate-free identities the stored UID of a recorded identity is
found. -/
theorem getInstanceUID_mem {storage : List (InstanceIdent × Nat)}
    {ident : InstanceIdent} {uid : Nat} (hmem : (ident, uid) ∈ storage)
    (hnd : (storage.map Prod.fst).Nodup) :
    getInstanceUID storage ident = some uid := by
  induction storage with
  | nil => cases hmem
  | cons p rest ih =>
    rw [List.map_cons, List.nodup_cons] at hnd
    unfold getInstanceUID
    rcases List.mem_cons.mp hmem with heq | hmem2
    · rw [← heq]
      simp [List.find?]
    · have hfalse : (p.1 == ident) = false := by
        rw [beq_eq_false_iff_ne]
        intro hh
        apply hnd.1
        rw [hh]
        exact List.mem_map_of_mem Prod.fst hmem2
      simp only [List.find?]
      rw [hfalse]
      exact ih hmem2 hnd.2

theorem getInstanceUID_none {storage : List (InstanceIdent × Nat)}
    {ident : InstanceIdent} (h : getInstanceUID storage ident = none) :
    ident ∉ storage.map Prod.fst := by
  unfold getInstanceUID at h
  intro hmem
  rw [List.mem_map] at hmem
  obtain ⟨p, hp, heq⟩ := hmem
  have hnone := List.find?_eq_none.mp (Option.map_eq_none'.mp h) p hp
  exact hnone (beq_iff_eq.mpr heq)

/-- `prepareInstanceStartInfo` preserves the UID store invariant when the
state-storage setup succeeds. -/
theorem prepareInstanceStartInfo_uid (env : Env) (storage : List (InstanceIdent × Nat))
    (pool : List Nat) (service : ImServiceInfo) (g : CloudInstanceInfo) (index : Nat)
    (hsetup : envSetupOK env) (hok : uidStoreOK storage pool) :
    uidStoreOK (prepareInstanceStartInfo env storage pool service g index).2.2.1
      (prepareInstanceStartInfo env storage pool service g index).2.2.2 := by
  unfold prepareInstanceStartInfo
  dsimp only
  cases hget : getInstanceUID storage ⟨g.serviceID, g.subjectID, index⟩ with
  | some uid =>
    dsimp only
    rw [(hsetup _).choose_spec]
    exact hok
  | none =>
    dsimp only
    rw [(hsetup _).choose_spec]
    have hfresh := getInstanceUID_none hget
    refine ⟨?_, ?_, ?_⟩
    · rw [List.map_append, List.nodup_append]
      exact ⟨hok.1, List.nodup_singleton _,
        fun a ha hb => hfresh (by rwa [List.mem_singleton.mp hb] at ha)⟩
    · rw [List.map_append, List.nodup_append]
      refine ⟨hok.2.1, List.nodup_singleton _, fun a ha hb => ?_⟩
      rw [List.mem_singleton.mp hb] at ha
      obtain ⟨p, hp2, he⟩ := List.mem_map.mp ha
      have hpp := hok.2.2 p hp2
      rw [he] at hpp
      exact getFreeUID_not_mem pool hpp
    · intro p hp
      rcases List.mem_append.mp hp with hL | hR
      · exact List.mem_cons_of_mem _ (hok.2.2 p hL)
      · rw [List.mem_singleton.mp hR]
        exact List.mem_cons_self _ _

/-- A recorded identity is assigned its stored UID (cast to `uint32`), the
store is not touched and — with the setup succeeding — neither is the pool. -/
theorem prepareInstanceStartInfo_stored (env : Env)
    (storage : List (InstanceIdent × Nat)) (pool : List Nat) (service : ImServiceInfo)
    (g : CloudInstanceInfo) (index : Nat) (uid : Nat) (hsetup : envSetupOK env)
    (hnd : (storage.map Prod.fst).Nodup)
    (hmem : ((⟨g.serviceID, g.subjectID, index⟩ : InstanceIdent), uid) ∈ storage) :
    (prepareInstanceStartInfo env storage pool service g index).1.uid = uid % 2 ^ 32 ∧
    (prepareInstanceStartInfo env storage pool service g index).2.2.1 = storage ∧
    (prepareInstanceStartInfo env storage pool service g index).2.2.2 = pool := by
  unfold prepareInstanceStartInfo
  dsimp only
  rw [getInstanceUID_mem hmem hnd]
  dsimp only
  rw [(hsetup _).choose_spec]
  exact ⟨rfl, rfl, rfl⟩

theorem uidInv_of_parts {st1 st2 : LauncherState}
    (h1 : st1.storageInstances = st2.storageInstances) (h2 : st1.uidPool = st2.uidPool)
    (h : uidInv st2) : uidInv st1 := by
  unfold uidInv
  rw [h1, h2]
  exact h

/-- `removeInstances` drops records and unlocks the dropped UIDs; the store
invariant survives. -/
theorem removeInstances_uid (st : LauncherState) (instances : List CloudInstanceInfo)
    (h : uidInv st) : uidInv (removeInstances st instances) := by
  unfold removeInstances
  suffices hgen : ∀ (l : List (InstanceIdent × Nat)) (acc : LauncherState),
      (∀ p ∈ l, p ∈ st.storageInstances) →
      (∀ p ∈ acc.storageInstances, p ∈ st.storageInstances) →
      uidInv acc →
      uidInv (l.foldl (fun acc p =>
        if isDesiredIdent p.1 instances then acc
        else
          { acc with
            uidPool := removeUID acc.uidPool p.2
            storageInstances := acc.storageInstances.filter fun q => q.1 != p.1 }) acc) by
    exact hgen st.storageInstances st (fun p hp => hp) (fun p hp => hp) h
  intro l
  induction l with
  | nil => exact fun acc _ _ hacc => hacc
  | cons p0 rest ih =>
    intro acc hl hacc hinv
    rw [List.foldl_cons]
    by_cases hdes : isDesiredIdent p0.1 instances
    · rw [if_pos hdes]
      exact ih acc (fun p hp => hl p (List.mem_cons_of_mem _ hp)) hacc hinv
    · rw [if_neg hdes]
      refine ih _ (fun p hp => hl p (List.mem_cons_of_mem _ hp)) ?_ ?_
      · intro p hp
        exact hacc p (List.mem_filter.mp hp).1
      · obtain ⟨hnd1, hnd2, hpool⟩ := hinv
        refine ⟨?_, ?_, ?_⟩
        · exact ((List.filter_sublist _).map Prod.fst).nodup hnd1
        · exact ((List.filter_sublist _).map Prod.snd).nodup hnd2
        · intro p hp
          obtain ⟨hpacc, hpne⟩ := List.mem_filter.mp hp
          have hne1 : p.1 ≠ p0.1 := by
            rw [← bne_iff_ne]
            exact hpne
          unfold removeUID
          rw [List.mem_filter]
          refine ⟨hpool p hpacc, ?_⟩
          rw [bne_iff_ne]
          intro h22
          apply hne1
          have hps : p ∈ st.storageInstances := hacc p hpacc
          have hp0s : p0 ∈ st.storageInstances := hl p0 (List.mem_cons_self _ _)
          rw [List.inj_on_of_nodup_map h.2.1 hps hp0s h22]

theorem balanceInstanceIndex_uid (env : Env) (st : LauncherState)
    (group : CloudInstanceInfo) (service : ImServiceInfo) (layers : List ImLayerInfo)
    (staticNodeIDs : List String) (index : Nat) (hsetup : envSetupOK env)
    (h : uidInv st) :
    uidInv (balanceInstanceIndex env st group service layers staticNodeIDs index).1 := by
  unfold balanceInstanceIndex
  dsimp only
  split
  · exact h
  · split
    · exact prepareInstanceStartInfo_uid env st.storageInstances st.uidPool service
        group index hsetup h
    · split
      · exact prepareInstanceStartInfo_uid env st.storageInstances st.uidPool service
          group index hsetup h
      · exact prepareInstanceStartInfo_uid env st.storageInstances st.uidPool service
          group index hsetup h

theorem balanceGroup_uid (env : Env) (st : LauncherState) (group : CloudInstanceInfo)
    (hsetup : envSetupOK env) (h : uidInv st) : uidInv (balanceGroup env st group).1 := by
  unfold balanceGroup
  cases env.getServiceInfo group.serviceID with
  | error e => exact h
  | ok serviceInfo =>
    by_cases hc : serviceInfo.cached
    · simp only [hc, if_true]
      exact h
    · simp only [hc, Bool.false_eq_true, if_false]
      cases getLayersForService env serviceInfo.layers with
      | error e => exact h
      | ok layers =>
        cases getNodesByStaticResources st.nodes serviceInfo group with
        | error e => exact h
        | ok staticNodes =>
          have hfold : ∀ (l : List Nat) (acc : LauncherState × List InstanceStatus),
              uidInv acc.1 →
              uidInv (l.foldl (fun acc instanceIndex =>
                let r := balanceInstanceIndex env acc.1 group serviceInfo layers
                  (staticNodes.map (·.nodeID)) instanceIndex
                (r.1, acc.2 ++ r.2)) acc).1 := by
            intro l
            induction l with
            | nil => exact fun acc hacc => hacc
            | cons a rest ih =>
              intro acc hacc
              exact ih _ (balanceInstanceIndex_uid env acc.1 group serviceInfo layers
                (staticNodes.map (·.nodeID)) a hsetup hacc)
          exact hfold _ _ h

theorem balanceGroups_uid (env : Env) (st : LauncherState)
    (groups : List CloudInstanceInfo) (hsetup : envSetupOK env) (h : uidInv st) :
    uidInv (balanceGroups env st groups).1 := by
  unfold balanceGroups
  have hfold : ∀ (l : List CloudInstanceInfo) (acc : LauncherState × List InstanceStatus),
      uidInv acc.1 →
      uidInv (l.foldl (fun acc group =>
        let r := balanceGroup env acc.1 group
        (r.1, acc.2 ++ r.2)) acc).1 := by
    intro l
    induction l with
    | nil => exact fun acc hacc => hacc
    | cons a rest ih =>
      intro acc hacc
      exact ih _ (balanceGroup_uid env acc.1 a hsetup hacc)
  exact hfold _ _ h

theorem performNodeBalancing_uid (env : Env) (st : LauncherState)
    (desired : List CloudInstanceInfo) (hsetup : envSetupOK env) (h : uidInv st) :
    uidInv (performNodeBalancing env st desired).1 := by
  unfold performNodeBalancing
  dsimp only
  exact balanceGroups_uid env _ (sortInstances desired) hsetup
    (removeInstances_uid _ (sortInstances desired) h)

theorem runInstancesOp_uid (env : Env) (st : LauncherState)
    (instances : List CloudInstanceInfo) (newServices : List String)
    (hsetup : envSetupOK env) (h : uidInv st) :
    uidInv (runInstancesOp env st instances newServices) := by
  unfold runInstancesOp
  dsimp only
  exact performNodeBalancing_uid env _ _ hsetup h

theorem restartInstancesOp_uid (env : Env) (st : LauncherState)
    (hsetup : envSetupOK env) (h : uidInv st) :
    uidInv (restartInstancesOp env st) := by
  unfold restartInstancesOp
  dsimp only
  exact performNodeBalancing_uid env _ _ hsetup h

theorem getNodesForRebalancing_uidParts (st : LauncherState) (nodeID : String) :
    (getNodesForRebalancingByNodePriority st nodeID).1.storageInstances =
      st.storageInstances ∧
    (getNodesForRebalancingByNodePriority st nodeID).1.uidPool = st.uidPool := by
  unfold getNodesForRebalancingByNodePriority
  split
  · exact ⟨rfl, rfl⟩
  · exact ⟨rfl, rfl⟩

/-- The rebalancing scan never touches the UID store or pool. -/
theorem tryRebalanceIndex_uidParts (env : Env) (alertParam sourceID : String)
    (st : LauncherState) (i : Nat) :
    (tryRebalanceIndex env alertParam sourceID st i).1.storageInstances =
      st.storageInstances ∧
    (tryRebalanceIndex env alertParam sourceID st i).1.uidPool = st.uidPool := by
  unfold tryRebalanceIndex
  split
  · exact ⟨rfl, rfl⟩
  · split
    · exact ⟨rfl, rfl⟩
    · split <;>
      · dsimp only
        split
        · exact ⟨rfl, rfl⟩
        · split
          · exact ⟨rfl, rfl⟩
          · split
            · exact ⟨rfl, rfl⟩
            · split
              · exact ⟨rfl, rfl⟩
              · split
                · exact ⟨rfl, rfl⟩
                · split
                  · exact ⟨rfl, rfl⟩
                  · split
                    · exact ⟨rfl, rfl⟩
                    · exact ⟨rfl, rfl⟩

theorem rebalanceScan_uidParts (env : Env) (alertParam sourceID : String) (i : Nat)
    (st : LauncherState) :
    (rebalanceScan env alertParam sourceID i st).storageInstances =
      st.storageInstances ∧
    (rebalanceScan env alertParam sourceID i st).uidPool = st.uidPool := by
  induction i generalizing st with
  | zero =>
    rw [rebalanceScan]
    split
    · exact tryRebalanceIndex_uidParts env alertParam sourceID st 0
    · exact tryRebalanceIndex_uidParts env alertParam sourceID st 0
  | succ i2 ih =>
    rw [rebalanceScan]
    split
    · exact tryRebalanceIndex_uidParts env alertParam sourceID st (i2 + 1)
    · exact ⟨(ih _).1.trans (tryRebalanceIndex_uidParts env alertParam sourceID st
        (i2 + 1)).1,
        (ih _).2.trans (tryRebalanceIndex_uidParts env alertParam sourceID st
          (i2 + 1)).2⟩

theorem performRebalancing_uid (env : Env) (st : LauncherState)
    (alert : SystemQuotaAlert) (hsetup : envSetupOK env) (h : uidInv st) :
    uidInv (performRebalancing env st alert) := by
  unfold performRebalancing
  dsimp only
  split
  · exact uidInv_of_parts (getNodesForRebalancing_uidParts st alert.nodeID).1
      (getNodesForRebalancing_uidParts st alert.nodeID).2 h
  · have hg : uidInv (getNodesForRebalancingByNodePriority st alert.nodeID).1 :=
      uidInv_of_parts (getNodesForRebalancing_uidParts st alert.nodeID).1
        (getNodesForRebalancing_uidParts st alert.nodeID).2 h
    split
    · exact performNodeBalancing_uid env _ _ hsetup hg
    · split
      · exact performNodeBalancing_uid env _ _ hsetup hg
      · exact uidInv_of_parts
          (rebalanceScan_uidParts env alert.parameter alert.nodeID _ _).1
          (rebalanceScan_uidParts env alert.parameter alert.nodeID _ _).2
          (performNodeBalancing_uid env _ _ hsetup hg)

theorem applyOps_uid (env : Env) (st : LauncherState) (ops : List LauncherOp)
    (hsetup : envSetupOK env) (h : uidInv st) : uidInv (applyOps env st ops) := by
  induction ops generalizing st with
  | nil => exact h
  | cons op rest ih =>
    apply ih
    cases op with
    | runInstances instances newServices =>
      exact runInstancesOp_uid env st instances newServices hsetup h
    | restartInstances => exact restartInstancesOp_uid env st hsetup h
    | rebalance alert => exact performRebalancing_uid env st alert hsetup h

/-- Service of the C7 scenario (no devices, no layers). -/
def c7serv (id : String) : ImServiceInfo :=
  { serviceInfo := { id := id, aosVersion := 1, url := "u", gid := 0 }
    remoteURL := "r"
    config := { runner := "crun", devices := [], resources := []
                hostname := none, allowedConnections := [], stateLimit := none
                storageLimit := none }
    layers := [], cached := false, providerID := "p", exposedPorts := [] }

/-- Collaborators whose state-storage `Setup` fails exactly for `servA`. -/
def c7env : Env :=
  { getServiceInfo := fun id =>
      if id == "servA" then .ok (c7serv "servA")
      else if id == "servB" then .ok (c7serv "servB")
      else .error "service doesn't exist"
    getLayerInfo := fun _ => .error "layer doesn't exist"
    getUnitConfiguration := fun _ => ⟨0, [], [], []⟩
    monitoringData := fun _ => .ok (0, 0)
    prepareNetwork := fun _ _ _ => .ok ⟨"", "", []⟩
    setupStorageState := fun p =>
      if p.instanceIdent.serviceID == "servA" then .error "setup failed"
      else .ok ("", "")
    getInstanceCheckSum := fun _ => "" }

def c7node : NodeStatus :=
  { nodeID := "n1", nodeType := "t", remoteNode := false, runnerFeatures := ["crun"]
    totalRAM := 100, numCPUs := 1, availableResources := [], availableLabels := []
    availableDevices := [], priority := 1, receivedRunInstances := []
    currentRunRequest := ⟨[], [], []⟩, waitStatus := false }

def c7state : LauncherState :=
  { nodes := [c7node], currentDesiredInstances := [], currentRunStatus := []
    currentErrorStatus := [], pendingNewServices := [], storageInstances := []
    uidPool := [] }

/-- **C7** (counterexample to the claim as stated): `servA` is balanced first
(higher priority); its state-storage `Setup` fails, and launcher.go:923-927
removes the freshly allocated UID 5000 from the pool even though the storage
record added at launcher.go:897-903 stays.  `servB` then gets the same free
UID 5000.  Both instances exist — both storage records and both run-request
entries carry UID 5000 for two distinct instance identities. -/
theorem claim_C7_counterexample :
    (runInstancesOp c7env c7state
        [⟨"servA", "subj", 2, 1, []⟩, ⟨"servB", "subj", 1, 1, []⟩] []).storageInstances =
      [(⟨"servA", "subj", 0⟩, 5000), (⟨"servB", "subj", 0⟩, 5000)] ∧
    ((⟨"servA", "subj", 0⟩ : InstanceIdent) ≠ ⟨"servB", "subj", 0⟩) ∧
    ((runInstancesOp c7env c7state
        [⟨"servA", "subj", 2, 1, []⟩, ⟨"servB", "subj", 1, 1, []⟩] []).nodes.map fun n =>
        n.currentRunRequest.instances.map fun i => (i.instanceIdent, i.uid)) =
      [[(⟨"servA", "subj", 0⟩, 5000), (⟨"servB", "subj", 0⟩, 5000)]] :=
  ⟨by decide, by decide, by decide⟩

/-- **C7** (corrected): when the state-storage setup never fails, the UID
store keeps pairwise distinct UIDs across any sequence of placement and
rebalancing passes — two records agreeing on the UID are the same record —
and, unconditionally on recurrence, a stored identity is assigned its stored
UID (as `uint32`) with neither the store nor the pool modified, rather than a
fresh UID from the pool. -/
theorem claim_C7_amended (env : Env) (st : LauncherState) (ops : List LauncherOp)
    (hsetup : envSetupOK env) (hst : uidInv st) :
    (uidInv (applyOps env st ops) ∧
      ∀ p ∈ (applyOps env st ops).storageInstances,
        ∀ q ∈ (applyOps env st ops).storageInstances, p.2 = q.2 → p = q) ∧
    ∀ (storage : List (InstanceIdent × Nat)) (pool : List Nat)
      (service : ImServiceInfo) (g : CloudInstanceInfo) (index : Nat) (uid : Nat),
      (storage.map Prod.fst).Nodup →
      ((⟨g.serviceID, g.subjectID, index⟩ : InstanceIdent), uid) ∈ storage →
      (prepareInstanceStartInfo env storage pool service g index).1.uid = uid % 2 ^ 32 ∧
      (prepareInstanceStartInfo env storage pool service g index).2.2.1 = storage ∧
      (prepareInstanceStartInfo env storage pool service g index).2.2.2 = pool := by
  have hinv := applyOps_uid env st ops hsetup hst
  refine ⟨⟨hinv, fun p hp q hq hpq => ?_⟩,
    fun storage pool service g index uid hnd hmem =>
      prepareInstanceStartInfo_stored env storage pool service g index uid hsetup hnd
        hmem⟩
  exact List.inj_on_of_nodup_map hinv.2.1 hp hq hpq

/-- Collaborators of the witness: setup always succeeds. -/
def c7okenv : Env :=
  { c7env with setupStorageState := fun _ => .ok ("", "") }

theorem claim_C7_amended_witness :
    (uidInv (applyOps c7okenv c7state [.runInstances [⟨"servB", "subj", 1, 1, []⟩] []]) ∧
      ∀ p ∈ (applyOps c7okenv c7state
          [.runInstances [⟨"servB", "subj", 1, 1, []⟩] []]).storageInstances,
        ∀ q ∈ (applyOps c7okenv c7state
            [.runInstances [⟨"servB", "subj", 1, 1, []⟩] []]).storageInstances,
          p.2 = q.2 → p = q) ∧
    ∀ (storage : List (InstanceIdent × Nat)) (pool : List Nat)
      (service : ImServiceInfo) (g : CloudInstanceInfo) (index : Nat) (uid : Nat),
      (storage.map Prod.fst).Nodup →
      ((⟨g.serviceID, g.subjectID, index⟩ : InstanceIdent), uid) ∈ storage →
      (prepareInstanceStartInfo c7okenv storage pool service g index).1.uid =
        uid % 2 ^ 32 ∧
      (prepareInstanceStartInfo c7okenv storage pool service g index).2.2.1 = storage ∧
      (prepareInstanceStartInfo c7okenv storage pool service g index).2.2.2 = pool :=
  claim_C7_amended c7okenv c7state [.runInstances [⟨"servB", "subj", 1, 1, []⟩] []]
    (fun _ => ⟨("", ""), rfl⟩)
    ⟨List.nodup_nil, List.nodup_nil, fun p hp => absurd hp (List.not_mem_nil p)⟩

/-! ### Claim C6 -/

/-- `prepareNetworkParameters` (launcher.go:787-807) with the iteration order
of the `AllowedConnections` Go map made explicit: launcher.go:800-804 iterates
`for key := range serviceInfo.Config.AllowedConnections`, whose order Go
randomizes on every execution, so the order is an input of the run — some
permutation of the map's key set — not a function of the launcher's inputs. -/
def prepareNetworkParametersR (order : List String) (serviceInfo : ImServiceInfo) :
    NMParams :=
  { hosts :=
      match serviceInfo.config.hostname with
      | some h => [h]
      | none => []
    exposePorts := serviceInfo.exposedPorts
    allowConnections := order }

/-- The loop body of `prepareNetworkForInstances` (launcher.go:756-781) under
an explicit per-instance map iteration order `ord`. -/
def prepareNetInstanceR (env : Env) (ord : AosInstanceInfo → List String)
    (onlyExposedPorts : Bool) (instanceInfo : AosInstanceInfo) :
    AosInstanceInfo × Option InstanceStatus :=
  match env.getServiceInfo instanceInfo.instanceIdent.serviceID with
  | .error e =>
    (instanceInfo, some (createInstanceStatusFromInfo instanceInfo.instanceIdent.serviceID
      instanceInfo.instanceIdent.subjectID 0 0 instanceStateFailed e))
  | .ok serviceInfo =>
    if onlyExposedPorts && serviceInfo.exposedPorts.isEmpty then (instanceInfo, none)
    else
      match env.prepareNetwork instanceInfo.instanceIdent serviceInfo.providerID
          (prepareNetworkParametersR (ord instanceInfo) serviceInfo) with
      | .ok params => ({ instanceInfo with networkParameters := params }, none)
      | .error e =>
        ({ instanceInfo with networkParameters := default },
          some (createInstanceStatusFromInfo instanceInfo.instanceIdent.serviceID
            instanceInfo.instanceIdent.subjectID instanceInfo.instanceIdent.instanceIdx
            serviceInfo.serviceInfo.aosVersion instanceStateFailed e))

/-- `prepareNetworkForInstances` (launcher.go:754-785) under an explicit map
iteration order. -/
def prepareNetworkForInstancesR (env : Env) (ord : AosInstanceInfo → List String)
    (st : LauncherState) (onlyExposedPorts : Bool) :
    LauncherState × List InstanceStatus :=
  let processed := st.nodes.map fun node =>
    let results := node.currentRunRequest.instances.map
      (prepareNetInstanceR env ord onlyExposedPorts)
    ({ node with currentRunRequest :=
        { node.currentRunRequest with instances := results.map Prod.fst } },
      results.filterMap Prod.snd)
  ({ st with nodes := processed.map Prod.fst }, processed.flatMap Prod.snd)

/-- `performNodeBalancing` (launcher.go:649-752) with the map iteration orders
of its two network passes explicit (Go draws a fresh order for every
execution of the range loop). -/
def performNodeBalancingR (env : Env) (ord1 ord2 : AosInstanceInfo → List String)
    (st : LauncherState) (instances : List CloudInstanceInfo) :
    LauncherState × List InstanceStatus :=
  let st := { st with nodes := st.nodes.map fun n =>
      { n with currentRunRequest := ⟨[], [], []⟩ } }
  let sorted := sortInstances instances
  let st := removeInstances st sorted
  let b := balanceGroups env st sorted
  let n1 := prepareNetworkForInstancesR env ord1 b.1 true
  let n2 := prepareNetworkForInstancesR env ord2 n1.1 false
  (n2.1, b.2 ++ n1.2 ++ n2.2)

/-- The iteration order under which the explicit-order model coincides with
the fixed-order model used elsewhere in this development. -/
def canonOrd (env : Env) (instanceInfo : AosInstanceInfo) : List String :=
  match env.getServiceInfo instanceInfo.instanceIdent.serviceID with
  | .ok serviceInfo => serviceInfo.config.allowedConnections
  | .error _ => []

/-- An order function is admissible for a run when each instance's order is a
permutation of its service's `AllowedConnections` key set. -/
def ordAdmissible (env : Env) (ord : AosInstanceInfo → List String) : Prop :=
  ∀ instanceInfo serviceInfo,
    env.getServiceInfo instanceInfo.instanceIdent.serviceID = .ok serviceInfo →
    (ord instanceInfo).Perm serviceInfo.config.allowedConnections

/-- The network manager treats `AllowConnections` as a set: permuting the list
does not change its answer. -/
def netPermInvariant (env : Env) : Prop :=
  ∀ ident provider (p1 p2 : NMParams), p1.hosts = p2.hosts →
    p1.exposePorts = p2.exposePorts → p1.allowConnections.Perm p2.allowConnections →
    env.prepareNetwork ident provider p1 = env.prepareNetwork ident provider p2

/-- Forget an instance's network parameters. -/
def eraseNet (i : AosInstanceInfo) : AosInstanceInfo :=
  { i with networkParameters := default }

/-- A run's placement output with the network parameters forgotten: node ids,
run-request services, layers, and instances up to their network parameters. -/
def eraseNetNodes (st : LauncherState) :
    List (String × List AosServiceInfo × List AosLayerInfo × List AosInstanceInfo) :=
  st.nodes.map fun n =>
    (n.nodeID, n.currentRunRequest.services, n.currentRunRequest.layers,
      n.currentRunRequest.instances.map eraseNet)

/-- Under the canonical order the explicit-order loop body coincides with the
fixed-order one. -/
theorem prepareNetInstanceR_canon (env : Env) (b : Bool) (i : AosInstanceInfo) :
    prepareNetInstanceR env (canonOrd env) b i = prepareNetInstance env b i := by
  unfold prepareNetInstanceR prepareNetInstance canonOrd prepareNetworkParametersR
    prepareNetworkParameters
  cases hsvc : env.getServiceInfo i.instanceIdent.serviceID with
  | error e => rfl
  | ok s => rfl

theorem prepareNetworkForInstancesR_canon (env : Env) (st : LauncherState) (b : Bool) :
    prepareNetworkForInstancesR env (canonOrd env) st b =
      prepareNetworkForInstances env st b := by
  have hfe : prepareNetInstanceR env (canonOrd env) b = prepareNetInstance env b :=
    funext fun i => prepareNetInstanceR_canon env b i
  unfold prepareNetworkForInstancesR prepareNetworkForInstances
  rw [hfe]

theorem performNodeBalancingR_canon (env : Env) (st : LauncherState)
    (desired : List CloudInstanceInfo) :
    performNodeBalancingR env (canonOrd env) (canonOrd env) st desired =
      performNodeBalancing env st desired := by
  unfold performNodeBalancingR performNodeBalancing
  dsimp only
  rw [prepareNetworkForInstancesR_canon env _ true,
    prepareNetworkForInstancesR_canon env _ false]

/-- With a permutation-insensitive network manager, the loop body does not
depend on the drawn iteration order. -/
theorem prepareNetInstanceR_congr (env : Env) (ord ord2 : AosInstanceInfo → List String)
    (b : Bool) (i : AosInstanceInfo) (hperm : netPermInvariant env)
    (hp : ∀ s, env.getServiceInfo i.instanceIdent.serviceID = .ok s →
      (ord i).Perm (ord2 i)) :
    prepareNetInstanceR env ord b i = prepareNetInstanceR env ord2 b i := by
  unfold prepareNetInstanceR
  cases hsvc : env.getServiceInfo i.instanceIdent.serviceID with
  | error e => rfl
  | ok s =>
    dsimp only
    by_cases hc : (b && s.exposedPorts.isEmpty) = true
    · rw [if_pos hc, if_pos hc]
    · rw [if_neg hc, if_neg hc]
      have hnet : env.prepareNetwork i.instanceIdent s.providerID
          (prepareNetworkParametersR (ord i) s) =
          env.prepareNetwork i.instanceIdent s.providerID
            (prepareNetworkParametersR (ord2 i) s) :=
        hperm _ _ _ _ rfl rfl (hp s hsvc)
      rw [hnet]

theorem prepareNetworkForInstancesR_congr (env : Env)
    (ord ord2 : AosInstanceInfo → List String) (st : LauncherState) (b : Bool)
    (hperm : netPermInvariant env)
    (hpp : ∀ i s, env.getServiceInfo i.instanceIdent.serviceID = .ok s →
      (ord i).Perm (ord2 i)) :
    prepareNetworkForInstancesR env ord st b =
      prepareNetworkForInstancesR env ord2 st b := by
  have hfe : prepareNetInstanceR env ord b = prepareNetInstanceR env ord2 b :=
    funext fun i => prepareNetInstanceR_congr env ord ord2 b i hperm (hpp i)
  unfold prepareNetworkForInstancesR
  rw [hfe]

theorem performNodeBalancingR_congr (env : Env)
    (ord1 ord2 ord1' ord2' : AosInstanceInfo → List String) (st : LauncherState)
    (desired : List CloudInstanceInfo) (hperm : netPermInvariant env)
    (hpp1 : ∀ i s, env.getServiceInfo i.instanceIdent.serviceID = .ok s →
      (ord1 i).Perm (ord1' i))
    (hpp2 : ∀ i s, env.getServiceInfo i.instanceIdent.serviceID = .ok s →
      (ord2 i).Perm (ord2' i)) :
    performNodeBalancingR env ord1 ord2 st desired =
      performNodeBalancingR env ord1' ord2' st desired := by
  unfold performNodeBalancingR
  dsimp only
  rw [prepareNetworkForInstancesR_congr env ord1 ord1' _ true hperm hpp1]
  rw [prepareNetworkForInstancesR_congr env ord2 ord2' _ false hperm hpp2]

theorem eraseNet_prepR (env : Env) (ord : AosInstanceInfo → List String) (b : Bool)
    (i : AosInstanceInfo) :
    eraseNet (prepareNetInstanceR env ord b i).1 = eraseNet i := by
  unfold prepareNetInstanceR
  split
  · rfl
  · split
    · rfl
    · split
      · rfl
      · rfl

theorem eraseNet_prep (env : Env) (b : Bool) (i : AosInstanceInfo) :
    eraseNet (prepareNetInstance env b i).1 = eraseNet i := by
  unfold prepareNetInstance
  split
  · rfl
  · split
    · rfl
    · split
      · rfl
      · rfl

theorem map_fst_eraseNetR (env : Env) (ord : AosInstanceInfo → List String) (b : Bool)
    (l : List AosInstanceInfo) :
    ((l.map (prepareNetInstanceR env ord b)).map Prod.fst).map eraseNet =
      l.map eraseNet := by
  induction l with
  | nil => rfl
  | cons i rest ih =>
    rw [List.map_cons, List.map_cons, List.map_cons, List.map_cons, ih,
      eraseNet_prepR env ord b i]

theorem map_fst_eraseNetF (env : Env) (b : Bool) (l : List AosInstanceInfo) :
    ((l.map (prepareNetInstance env b)).map Prod.fst).map eraseNet =
      l.map eraseNet := by
  induction l with
  | nil => rfl
  | cons i rest ih =>
    rw [List.map_cons, List.map_cons, List.map_cons, List.map_cons, ih,
      eraseNet_prep env b i]

theorem eraseNetNodes_prepR (env : Env) (ord : AosInstanceInfo → List String)
    (st : LauncherState) (b : Bool) :
    eraseNetNodes (prepareNetworkForInstancesR env ord st b).1 = eraseNetNodes st := by
  unfold eraseNetNodes prepareNetworkForInstancesR
  dsimp only
  rw [List.map_map, List.map_map]
  refine map_congr_mem fun n _ => ?_
  dsimp only [Function.comp]
  rw [map_fst_eraseNetR]

theorem eraseNetNodes_prep (env : Env) (st : LauncherState) (b : Bool) :
    eraseNetNodes (prepareNetworkForInstances env st b).1 = eraseNetNodes st := by
  unfold eraseNetNodes prepareNetworkForInstances
  dsimp only
  rw [List.map_map, List.map_map]
  refine map_congr_mem fun n _ => ?_
  dsimp only [Function.comp]
  rw [map_fst_eraseNetF]

/-- Any two iteration orders — admissible or not — give the same placement up
to the instances' network parameters. -/
theorem eraseNetNodes_R (env : Env) (ord1 ord2 : AosInstanceInfo → List String)
    (st : LauncherState) (desired : List CloudInstanceInfo) :
    eraseNetNodes (performNodeBalancingR env ord1 ord2 st desired).1 =
      eraseNetNodes (performNodeBalancing env st desired).1 := by
  unfold performNodeBalancingR performNodeBalancing
  dsimp only
  rw [eraseNetNodes_prepR, eraseNetNodes_prepR, eraseNetNodes_prep, eraseNetNodes_prep]

/-- Service of the C6 scenario: two allowed connections, no devices. -/
def c6rserv : ImServiceInfo :=
  { serviceInfo := { id := "s", aosVersion := 1, url := "u", gid := 0 }
    remoteURL := "r"
    config := { runner := "crun", devices := [], resources := []
                hostname := none, allowedConnections := ["a", "b"], stateLimit := none
                storageLimit := none }
    layers := [], cached := false, providerID := "p", exposedPorts := [] }

/-- Collaborators whose network manager is sensitive to the order of
`AllowConnections` (its answer depends on the first list element). -/
def c6sensEnv : Env :=
  { getServiceInfo := fun id =>
      if id == "s" then .ok c6rserv else .error "service doesn't exist"
    getLayerInfo := fun _ => .error "layer doesn't exist"
    getUnitConfiguration := fun _ => ⟨0, [], [], []⟩
    monitoringData := fun _ => .ok (0, 0)
    prepareNetwork := fun _ _ p => .ok ⟨p.allowConnections.headD "", "", []⟩
    setupStorageState := fun _ => .ok ("", "")
    getInstanceCheckSum := fun _ => "" }

/-- The same collaborators with an order-insensitive network manager. -/
def c6insEnv : Env :=
  { c6sensEnv with prepareNetwork := fun _ _ _ => .ok ⟨"", "", []⟩ }

/-- Two admissible draws of the map iteration order. -/
def c6ordA : AosInstanceInfo → List String := fun _ => ["a", "b"]

def c6ordB : AosInstanceInfo → List String := fun _ => ["b", "a"]

/-- **C6** (counterexample to the claim as stated): two runs of the placement
pass on identical desired instances, identical nodes and identical monitoring
data, differing only in the randomized iteration order of the
`AllowedConnections` map (launcher.go:800-804) — an order the program does not
take as input — produce different outputs: the placed instance's network
parameters are those the network manager computed from `["a", "b"]` in one
run and from `["b", "a"]` in the other.  Both orders are permutations of the
same key set, i.e. both runs are realizable executions of the program. -/
theorem claim_C6_counterexample :
    ordAdmissible c6sensEnv c6ordA ∧ ordAdmissible c6sensEnv c6ordB ∧
    ((performNodeBalancingR c6sensEnv c6ordA c6ordA c7state
        [⟨"s", "subj", 1, 1, []⟩]).1.nodes.map fun n =>
        n.currentRunRequest.instances.map fun i =>
          (i.instanceIdent, i.networkParameters)) =
      [[(⟨"s", "subj", 0⟩, ⟨"a", "", []⟩)]] ∧
    ((performNodeBalancingR c6sensEnv c6ordB c6ordB c7state
        [⟨"s", "subj", 1, 1, []⟩]).1.nodes.map fun n =>
        n.currentRunRequest.instances.map fun i =>
          (i.instanceIdent, i.networkParameters)) =
      [[(⟨"s", "subj", 0⟩, ⟨"b", "", []⟩)]] ∧
    ((performNodeBalancingR c6sensEnv c6ordA c6ordA c7state
        [⟨"s", "subj", 1, 1, []⟩]).1.nodes.map fun n =>
        n.currentRunRequest.instances.map fun i =>
          (i.instanceIdent, i.networkParameters)) ≠
      ((performNodeBalancingR c6sensEnv c6ordB c6ordB c7state
        [⟨"s", "subj", 1, 1, []⟩]).1.nodes.map fun n =>
        n.currentRunRequest.instances.map fun i =>
          (i.instanceIdent, i.networkParameters)) := by
  refine ⟨?_, ?_, by decide, by decide, by decide⟩
  · intro i svc h
    unfold c6sensEnv at h
    dsimp only at h
    split at h
    · obtain rfl := Except.ok.inj h
      show (["a", "b"] : List String).Perm ["a", "b"]
      decide
    · exact Except.noConfusion h
  · intro i svc h
    unfold c6sensEnv at h
    dsimp only at h
    split at h
    · obtain rfl := Except.ok.inj h
      show (["b", "a"] : List String).Perm ["a", "b"]
      decide
    · exact Except.noConfusion h

/-- **C6** (corrected): placement is deterministic up to the randomized
iteration order of the `AllowedConnections` map.  With the order made an
explicit run input: (i) when the network manager treats `AllowConnections` as
a set, any two runs over admissible orders are identical — so run-to-run
identity of the full output holds exactly under that assumption; (ii) the
fixed-order model used elsewhere is one admissible run; (iii) regardless of
the orders and of the network manager, the two runs agree on each node's run
request services, layers and instances up to the instances' network
parameters. -/
theorem claim_C6_amended (env : Env) (st : LauncherState)
    (desired : List CloudInstanceInfo)
    (ord1 ord2 ord1' ord2' : AosInstanceInfo → List String)
    (hperm : netPermInvariant env)
    (ha1 : ordAdmissible env ord1) (ha2 : ordAdmissible env ord2)
    (ha1' : ordAdmissible env ord1') (ha2' : ordAdmissible env ord2') :
    performNodeBalancingR env ord1 ord2 st desired =
      performNodeBalancingR env ord1' ord2' st desired ∧
    performNodeBalancingR env (canonOrd env) (canonOrd env) st desired =
      performNodeBalancing env st desired ∧
    ∀ o1 o2 : AosInstanceInfo → List String,
      eraseNetNodes (performNodeBalancingR env o1 o2 st desired).1 =
        eraseNetNodes (performNodeBalancing env st desired).1 :=
  ⟨performNodeBalancingR_congr env ord1 ord2 ord1' ord2' st desired hperm
      (fun i s hs => (ha1 i s hs).trans (ha1' i s hs).symm)
      (fun i s hs => (ha2 i s hs).trans (ha2' i s hs).symm),
    performNodeBalancingR_canon env st desired,
    fun o1 o2 => eraseNetNodes_R env o1 o2 st desired⟩

theorem claim_C6_amended_witness :
    (performNodeBalancingR c6insEnv c6ordA c6ordB c7state [⟨"s", "subj", 1, 1, []⟩] =
      performNodeBalancingR c6insEnv c6ordB c6ordA c7state [⟨"s", "subj", 1, 1, []⟩]) ∧
    (performNodeBalancingR c6insEnv (canonOrd c6insEnv) (canonOrd c6insEnv) c7state
        [⟨"s", "subj", 1, 1, []⟩] =
      performNodeBalancing c6insEnv c7state [⟨"s", "subj", 1, 1, []⟩]) ∧
    ∀ o1 o2 : AosInstanceInfo → List String,
      eraseNetNodes (performNodeBalancingR c6insEnv o1 o2 c7state
          [⟨"s", "subj", 1, 1, []⟩]).1 =
        eraseNetNodes (performNodeBalancing c6insEnv c7state
          [⟨"s", "subj", 1, 1, []⟩]).1 :=
  claim_C6_amended c6insEnv c7state [⟨"s", "subj", 1, 1, []⟩] c6ordA c6ordB c6ordB
    c6ordA (fun _ _ _ _ _ _ _ => rfl)
    (by intro i svc h
        unfold c6insEnv c6sensEnv at h
        dsimp only at h
        split at h
        · obtain rfl := Except.ok.inj h
          show (["a", "b"] : List String).Perm ["a", "b"]
          decide
        · exact Except.noConfusion h)
    (by intro i svc h
        unfold c6insEnv c6sensEnv at h
        dsimp only at h
        split at h
        · obtain rfl := Except.ok.inj h
          show (["b", "a"] : List String).Perm ["a", "b"]
          decide
        · exact Except.noConfusion h)
    (by intro i svc h
        unfold c6insEnv c6sensEnv at h
        dsimp only at h
        split at h
        · obtain rfl := Except.ok.inj h
          show (["b", "a"] : List String).Perm ["a", "b"]
          decide
        · exact Except.noConfusion h)
    (by intro i svc h
        unfold c6insEnv c6sensEnv at h
        dsimp only at h
        split at h
        · obtain rfl := Except.ok.inj h
          show (["a", "b"] : List String).Perm ["a", "b"]
          decide
        · exact Except.noConfusion h)

end Aos
